import Mathlib

/-!
# VL53L0X time-of-flight driver and TCA9548A channel switch

A shallow embedding of `src/vl53l0x.c` and `src/TCA9548A.c`.

* Machine integers are natural numbers; every place where the C code converts to
  `uint8_t`, `uint16_t` or `uint32_t` (a parameter, an assignment, a return) carries the
  matching `% 2^w`.
* The I2C transport (`iic_read_register`, `iic_write_register` of libpynq) is an external
  collaborator.  It is a deterministic machine over an arbitrary state type; each
  transaction is appended to a chronological trace.
* `sleep_msec` only delays; it touches neither the bus nor the handle and is left out.
* An unsigned division by zero traps: the functions that can reach one return `none`
  as their result, together with the handle and the bus trace as they were at the trap.
-/

namespace Venus28

/-! ## Bus transport and sensor handle -/

/-- One bus transaction: the arguments handed to the transport and what it answered. -/
inductive Ev where
  | read (iic addr reg len : Nat) (data : List Nat) (status : Int)
  | write (iic addr reg : Nat) (data : List Nat) (status : Int)
deriving DecidableEq

/-- The transport: a read returns status, buffer contents and the next device state;
a write returns status and the next device state. -/
structure Bus (σ : Type) where
  iic_read_register : σ → Nat → Nat → Nat → Nat → Int × List Nat × σ
  iic_write_register : σ → Nat → Nat → Nat → List Nat → Int × σ

/-- Device state together with the chronological trace of transactions. -/
structure World (σ : Type) where
  dev : σ
  trace : List Ev

/-- Modelled from the spec: the handle type `vl53x` is declared in `vl53l0x.h`, which is
not among the sources.  The spec's SensorHandle has a bus identifier, a device address,
the cached measurement timing budget (microseconds) and the cached snapshot byte; the
field names are the ones `vl53l0x.c` uses. -/
structure vl53x where
  iic_index : Nat
  baseAddr : Nat
  stop_variable : Nat
  measurement_timing_budget_us : Nat
deriving DecidableEq

/-- The event is a register write. -/
def Ev.isWrite : Ev → Bool
  | .write _ _ _ _ _ => true
  | .read _ _ _ _ _ _ => false

/-- The event is a write to register `reg`. -/
def Ev.isWriteTo (reg : Nat) : Ev → Bool
  | .write _ _ r _ _ => r == reg
  | .read _ _ _ _ _ _ => false

/-- The event is a read of register `reg`. -/
def Ev.isReadOf (reg : Nat) : Ev → Bool
  | .read _ _ r _ _ _ => r == reg
  | .write _ _ _ _ _ => false

/-- The data bytes of a write event (empty for a read). -/
def Ev.payload : Ev → List Nat
  | .write _ _ _ d _ => d
  | .read _ _ _ _ _ _ => []

/-! ## Register addresses (the `#define`s of `vl53l0x.c`) -/

def VL53L0X_SEQUENCE_ENABLE_FINAL_RANGE : Nat := 0x80
def VL53L0X_SEQUENCE_ENABLE_PRE_RANGE : Nat := 0x40
def VL53L0X_SEQUENCE_ENABLE_TCC : Nat := 0x10
def VL53L0X_SEQUENCE_ENABLE_DSS : Nat := 0x08
def VL53L0X_SEQUENCE_ENABLE_MSRC : Nat := 0x04

def VL53L0X_RESULT_RANGE_STATUS : Nat := 0x14
def VL53L0X_ALGO_PHASECAL_LIM : Nat := 0x30
def VL53L0X_ALGO_PHASECAL_CONFIG_TIMEOUT : Nat := 0x30
def VL53L0X_GLOBAL_CONFIG_VCSEL_WIDTH : Nat := 0x32
def VL53L0X_FINAL_RANGE_CONFIG_VALID_PHASE_LOW : Nat := 0x47
def VL53L0X_FINAL_RANGE_CONFIG_VALID_PHASE_HIGH : Nat := 0x48
def VL53L0X_PRE_RANGE_CONFIG_VCSEL_PERIOD : Nat := 0x50
def VL53L0X_PRE_RANGE_CONFIG_TIMEOUT_MACROP_HI : Nat := 0x51
def VL53L0X_PRE_RANGE_CONFIG_VALID_PHASE_LOW : Nat := 0x56
def VL53L0X_PRE_RANGE_CONFIG_VALID_PHASE_HIGH : Nat := 0x57
def VL53L0X_REG_MSRC_CONFIG_CONTROL : Nat := 0x60
def VL53L0X_FINAL_RANGE_CONFIG_VCSEL_PERIOD : Nat := 0x70
def VL53L0X_FINAL_RANGE_CONFIG_TIMEOUT_MACROP_HI : Nat := 0x71
def VL53L0X_MSRC_CONFIG_TIMEOUT_MACROP : Nat := 0x46
def VL53L0X_FINAL_RANGE_CONFIG_MIN_COUNT_RATE_RTN_LIMIT : Nat := 0x44
def VL53L0X_SYSRANGE_START : Nat := 0x00
def VL53L0X_SYSTEM_SEQUENCE_CONFIG : Nat := 0x01
def VL53L0X_SYSTEM_INTERRUPT_CONFIG_GPIO : Nat := 0x0A
def VL53L0X_RESULT_INTERRUPT_STATUS : Nat := 0x13
def VL53L0X_VHV_CONFIG_PAD_SCL_SDA__EXTSUP_HV : Nat := 0x89
def VL53L0X_GLOBAL_CONFIG_SPAD_ENABLES_REF_0 : Nat := 0xB0
def VL53L0X_GPIO_HV_MUX_ACTIVE_HIGH : Nat := 0x84
def VL53L0X_SYSTEM_INTERRUPT_CLEAR : Nat := 0x0B

/-! ## Register access wrappers (`vl53l0x.c` lines 136-189)

Every wrapper discards the status the transport returns. -/

/-- Source `readReg16`: two bytes, most significant first, as an `unsigned short`. -/
def readReg16 {σ : Type} (b : Bus σ) (h : vl53x) (w : World σ) (ucAddr : Nat) :
    Nat × World σ :=
  let r := b.iic_read_register w.dev h.iic_index h.baseAddr (ucAddr % 256) 2
  ((((r.2.1.getD 0 0 % 256) <<< 8) + r.2.1.getD 1 0 % 256) % 65536,
    ⟨r.2.2, w.trace ++ [Ev.read h.iic_index h.baseAddr (ucAddr % 256) 2 r.2.1 r.1]⟩)

/-- Source `readReg`: one byte. -/
def readReg {σ : Type} (b : Bus σ) (h : vl53x) (w : World σ) (ucAddr : Nat) :
    Nat × World σ :=
  let r := b.iic_read_register w.dev h.iic_index h.baseAddr (ucAddr % 256) 1
  (r.2.1.getD 0 0 % 256,
    ⟨r.2.2, w.trace ++ [Ev.read h.iic_index h.baseAddr (ucAddr % 256) 1 r.2.1 r.1]⟩)

/-- Source `writeReg16`: a 16-bit value, most significant byte first. -/
def writeReg16 {σ : Type} (b : Bus σ) (h : vl53x) (w : World σ) (ucAddr usValue : Nat) :
    World σ :=
  let pBuf := [((usValue % 65536) >>> 8) % 256, (usValue % 65536) % 256]
  let r := b.iic_write_register w.dev h.iic_index h.baseAddr (ucAddr % 256) pBuf
  ⟨r.2, w.trace ++ [Ev.write h.iic_index h.baseAddr (ucAddr % 256) pBuf r.1]⟩

/-- Source `writeReg`: a single register/value pair. -/
def writeReg {σ : Type} (b : Bus σ) (h : vl53x) (w : World σ) (ucAddr ucValue : Nat) :
    World σ :=
  let r := b.iic_write_register w.dev h.iic_index h.baseAddr (ucAddr % 256) [ucValue % 256]
  ⟨r.2, w.trace ++ [Ev.write h.iic_index h.baseAddr (ucAddr % 256) [ucValue % 256] r.1]⟩

/-! ## Timing codec (`vl53l0x.c` lines 42-45, 261-314) -/

/-- Source macro `calcMacroPeriod`, evaluated in `uint32_t`. -/
def calcMacroPeriod (vcsel_period_pclks : Nat) : Nat :=
  (((2304 * vcsel_period_pclks * 1655) % 4294967296 + 500) % 4294967296) / 1000

/-- Source macro `encodeVcselPeriod`, as stored into the `uint8_t vcsel_period_reg`
(the `int` value `(p >> 1) - 1` reduced modulo 256). -/
def encodeVcselPeriod (period_pclks : Nat) : Nat :=
  ((period_pclks >>> 1) + 255) % 256

/-- Source `decodeTimeout`: `(uint16_t)((reg & 0xFF) << (reg >> 8)) + 1`, returned as
`uint16_t`.  For a shift count of 32 or more C leaves the shift undefined; the model
takes the mathematical value reduced to 16 bits, which is 0 as on the ARM target. -/
def decodeTimeout (reg_val : Nat) : Nat :=
  ((((reg_val % 65536) &&& 0x00FF) <<< (((reg_val % 65536) &&& 0xFF00) >>> 8)) % 65536 + 1)
    % 65536

/-- Source `timeoutMclksToMicroseconds` (`uint16_t`, `uint8_t` parameters, `uint32_t`
arithmetic). -/
def timeoutMclksToMicroseconds (timeout_period_mclks vcsel_period_pclks : Nat) : Nat :=
  let macro_period_ns := calcMacroPeriod (vcsel_period_pclks % 256)
  ((((timeout_period_mclks % 65536) * macro_period_ns) % 4294967296 + macro_period_ns / 2)
    % 4294967296) / 1000

/-- Source `timeoutMicrosecondsToMclks` (`uint32_t`, `uint8_t` parameters, `uint32_t`
arithmetic).  The division traps when the macro period is zero. -/
def timeoutMicrosecondsToMclks (timeout_period_us vcsel_period_pclks : Nat) : Option Nat :=
  let macro_period_ns := calcMacroPeriod (vcsel_period_pclks % 256)
  if macro_period_ns = 0 then none
  else some (((((timeout_period_us % 4294967296) * 1000) % 4294967296 + macro_period_ns / 2)
    % 4294967296) / macro_period_ns)

/-- The `while ((ls_byte & 0xFFFFFF00) > 0)` loop of `encodeTimeout` on the pair
`(ls_byte, ms_byte)`; `ls_byte` is a `uint32_t`, `ms_byte` a `uint16_t`. -/
def encodeTimeoutLoop (ls_byte ms_byte : Nat) : Nat × Nat :=
  if h : (ls_byte &&& 0xFFFFFF00) > 0 then
    encodeTimeoutLoop (ls_byte >>> 1) ((ms_byte + 1) % 65536)
  else (ls_byte, ms_byte)
termination_by ls_byte
decreasing_by
  have hpos : ls_byte ≠ 0 := by
    intro h0
    rw [h0] at h
    simp at h
  rw [Nat.shiftRight_eq_div_pow]
  omega

/-- Source `encodeTimeout` (`uint16_t` parameter and result). -/
def encodeTimeout (timeout_mclks : Nat) : Nat :=
  if timeout_mclks % 65536 > 0 then
    let r := encodeTimeoutLoop (timeout_mclks % 65536 - 1) 0
    ((r.2 <<< 8) ||| (r.1 &&& 0xFF)) % 65536
  else 0

/-! ## Sequence step model (`vl53l0x.c` lines 56-62, 316-344) -/

/-- Source `SequenceStepTimeouts`: the periods and macro-clock counts are `uint16_t`,
the microsecond values `uint32_t`. -/
structure SequenceStepTimeouts where
  pre_range_vcsel_period_pclks : Nat
  final_range_vcsel_period_pclks : Nat
  msrc_dss_tcc_mclks : Nat
  pre_range_mclks : Nat
  final_range_mclks : Nat
  msrc_dss_tcc_us : Nat
  pre_range_us : Nat
  final_range_us : Nat
deriving DecidableEq

/-- Source `getSequenceStepTimeouts` (`enables` is a `uint8_t`). -/
def getSequenceStepTimeouts {σ : Type} (b : Bus σ) (h : vl53x) (w : World σ)
    (enables : Nat) : SequenceStepTimeouts × World σ :=
  let r1 := readReg b h w VL53L0X_PRE_RANGE_CONFIG_VCSEL_PERIOD
  let pre_range_vcsel_period_pclks := ((r1.1 + 1) <<< 1) % 65536
  let r2 := readReg b h r1.2 VL53L0X_MSRC_CONFIG_TIMEOUT_MACROP
  let msrc_dss_tcc_mclks := (r2.1 + 1) % 65536
  let msrc_dss_tcc_us :=
    timeoutMclksToMicroseconds msrc_dss_tcc_mclks pre_range_vcsel_period_pclks
  let r3 := readReg16 b h r2.2 VL53L0X_PRE_RANGE_CONFIG_TIMEOUT_MACROP_HI
  let pre_range_mclks := decodeTimeout r3.1
  let pre_range_us :=
    timeoutMclksToMicroseconds pre_range_mclks pre_range_vcsel_period_pclks
  let r4 := readReg b h r3.2 VL53L0X_FINAL_RANGE_CONFIG_VCSEL_PERIOD
  let final_range_vcsel_period_pclks := ((r4.1 + 1) <<< 1) % 65536
  let r5 := readReg16 b h r4.2 VL53L0X_FINAL_RANGE_CONFIG_TIMEOUT_MACROP_HI
  let final_range_mclks0 := decodeTimeout r5.1
  let final_range_mclks :=
    if (enables % 256) &&& VL53L0X_SEQUENCE_ENABLE_PRE_RANGE ≠ 0 then
      (final_range_mclks0 + 65536 - pre_range_mclks) % 65536
    else final_range_mclks0
  let final_range_us :=
    timeoutMclksToMicroseconds final_range_mclks final_range_vcsel_period_pclks
  ({ pre_range_vcsel_period_pclks := pre_range_vcsel_period_pclks
     final_range_vcsel_period_pclks := final_range_vcsel_period_pclks
     msrc_dss_tcc_mclks := msrc_dss_tcc_mclks
     pre_range_mclks := pre_range_mclks
     final_range_mclks := final_range_mclks
     msrc_dss_tcc_us := msrc_dss_tcc_us
     pre_range_us := pre_range_us
     final_range_us := final_range_us }, r5.2)

/-! ## Timing budget (`vl53l0x.c` lines 536-624) -/

/-- The `used_budget_us` accumulation of `setMeasurementTimingBudget` up to and including
the pre-range step (lines 557-579), every `+=` in `uint32_t`. -/
def usedBudgetBeforeFinal (enables : Nat) (timeouts : SequenceStepTimeouts) : Nat :=
  let used0 := 1320 + 960
  let used1 :=
    if enables &&& VL53L0X_SEQUENCE_ENABLE_TCC ≠ 0 then
      (used0 + (timeouts.msrc_dss_tcc_us + 590) % 4294967296) % 4294967296
    else used0
  let used2 :=
    if enables &&& VL53L0X_SEQUENCE_ENABLE_DSS ≠ 0 then
      (used1 + (2 * ((timeouts.msrc_dss_tcc_us + 690) % 4294967296)) % 4294967296)
        % 4294967296
    else if enables &&& VL53L0X_SEQUENCE_ENABLE_MSRC ≠ 0 then
      (used1 + (timeouts.msrc_dss_tcc_us + 660) % 4294967296) % 4294967296
    else used1
  if enables &&& VL53L0X_SEQUENCE_ENABLE_PRE_RANGE ≠ 0 then
    (used2 + (timeouts.pre_range_us + 660) % 4294967296) % 4294967296
  else used2

/-- Source `setMeasurementTimingBudget`.  The result is `some 0` (rejected), `some 1`
(accepted) or `none` when the conversion to macro-clocks divides by zero. -/
def setMeasurementTimingBudget {σ : Type} (b : Bus σ) (h : vl53x) (w : World σ)
    (budget_us : Nat) : Option Nat × vl53x × World σ :=
  if budget_us % 4294967296 < 20000 then (some 0, h, w)
  else
    let r := readReg b h w VL53L0X_SYSTEM_SEQUENCE_CONFIG
    let enables := r.1
    let g := getSequenceStepTimeouts b h r.2 enables
    let timeouts := g.1
    let used_budget_us := usedBudgetBeforeFinal enables timeouts
    if enables &&& VL53L0X_SEQUENCE_ENABLE_FINAL_RANGE ≠ 0 then
      let used_budget_us := (used_budget_us + 550) % 4294967296
      if used_budget_us > budget_us % 4294967296 then (some 0, h, g.2)
      else
        let final_range_timeout_us := budget_us % 4294967296 - used_budget_us
        match timeoutMicrosecondsToMclks final_range_timeout_us
            timeouts.final_range_vcsel_period_pclks with
        | none => (none, h, g.2)
        | some mclks =>
          let final_range_timeout_mclks :=
            if enables &&& VL53L0X_SEQUENCE_ENABLE_PRE_RANGE ≠ 0 then
              (mclks % 65536 + timeouts.pre_range_mclks) % 65536
            else mclks % 65536
          let w1 := writeReg16 b h g.2 VL53L0X_FINAL_RANGE_CONFIG_TIMEOUT_MACROP_HI
            (encodeTimeout final_range_timeout_mclks)
          (some 1, { h with measurement_timing_budget_us := budget_us % 4294967296 }, w1)
    else (some 1, h, g.2)

/-! ## Reference calibration (`vl53l0x.c` lines 673-690) -/

/-- The polling loop of `performSingleRefCalibration`, entered with the current
`iTimeout`; the flag is `true` when the loop left through `return 0`. -/
def refCalibrationLoop {σ : Type} (b : Bus σ) (h : vl53x) (iTimeout : Nat) (w : World σ) :
    Bool × World σ :=
  let r := readReg b h w VL53L0X_RESULT_INTERRUPT_STATUS
  if r.1 &&& 0x07 = 0 then
    if hlt : iTimeout + 1 > 100 then (true, r.2)
    else refCalibrationLoop b h (iTimeout + 1) r.2
  else (false, r.2)
termination_by 101 - iTimeout
decreasing_by omega

/-- Source `performSingleRefCalibration`. -/
def performSingleRefCalibration {σ : Type} (b : Bus σ) (h : vl53x) (w : World σ)
    (vhv_init_byte : Nat) : Nat × World σ :=
  let w1 := writeReg b h w VL53L0X_SYSRANGE_START (0x01 ||| (vhv_init_byte % 256))
  let l := refCalibrationLoop b h 0 w1
  if l.1 then (0, l.2)
  else
    let w2 := writeReg b h l.2 VL53L0X_SYSTEM_INTERRUPT_CLEAR 0x01
    let w3 := writeReg b h w2 VL53L0X_SYSRANGE_START 0x00
    (1, w3)

/-! ## VCSEL pulse period (`vl53l0x.c` lines 53, 354-527) -/

/-- Source `vcselPeriodType`. -/
inductive vcselPeriodType where
  | VcselPeriodPreRange
  | VcselPeriodFinalRange
deriving DecidableEq

/-- The `switch (period_pclks)` of the pre-range branch: the value written to the
valid-phase-high register, `none` for the `default` case. -/
def preRangePhaseHigh (period_pclks : Nat) : Option Nat :=
  if period_pclks = 12 then some 0x18
  else if period_pclks = 14 then some 0x30
  else if period_pclks = 16 then some 0x40
  else if period_pclks = 18 then some 0x50
  else none

/-- The `switch (period_pclks)` of the final-range branch: the values written to
valid-phase-high, VCSEL width, phasecal timeout and phasecal limit, `none` for the
`default` case. -/
def finalRangePhaseTable (period_pclks : Nat) : Option (Nat × Nat × Nat × Nat) :=
  if period_pclks = 8 then some (0x10, 0x02, 0x0C, 0x30)
  else if period_pclks = 10 then some (0x28, 0x03, 0x09, 0x20)
  else if period_pclks = 12 then some (0x38, 0x03, 0x08, 0x20)
  else if period_pclks = 14 then some (0x48, 0x03, 0x07, 0x20)
  else none

/-- The seven register writes every non-default `case` of the final-range switch
performs, in source order. -/
def finalRangePhaseWrites {σ : Type} (b : Bus σ) (h : vl53x) (w : World σ)
    (t : Nat × Nat × Nat × Nat) : World σ :=
  let w1 := writeReg b h w VL53L0X_FINAL_RANGE_CONFIG_VALID_PHASE_HIGH t.1
  let w2 := writeReg b h w1 VL53L0X_FINAL_RANGE_CONFIG_VALID_PHASE_LOW 0x08
  let w3 := writeReg b h w2 VL53L0X_GLOBAL_CONFIG_VCSEL_WIDTH t.2.1
  let w4 := writeReg b h w3 VL53L0X_ALGO_PHASECAL_CONFIG_TIMEOUT t.2.2.1
  let w5 := writeReg b h w4 0xFF 0x01
  let w6 := writeReg b h w5 VL53L0X_ALGO_PHASECAL_LIM t.2.2.2
  writeReg b h w6 0xFF 0x00

/-- The tail of `setVcselPulsePeriod` (lines 512-526): re-apply the cached budget, then
run the phase calibration with the sequence configuration forced to `0x02` and restored
afterwards.  The results of both calls are discarded by the source. -/
def vcselReapplyAndCalibrate {σ : Type} (b : Bus σ) (h : vl53x) (w : World σ) :
    Option Nat × vl53x × World σ :=
  let s := setMeasurementTimingBudget b h w h.measurement_timing_budget_us
  match s.1 with
  | none => (none, s.2.1, s.2.2)
  | some _ =>
    let r := readReg b s.2.1 s.2.2 VL53L0X_SYSTEM_SEQUENCE_CONFIG
    let sequence_config := r.1
    let w1 := writeReg b s.2.1 r.2 VL53L0X_SYSTEM_SEQUENCE_CONFIG 0x02
    let c := performSingleRefCalibration b s.2.1 w1 0x0
    let w2 := writeReg b s.2.1 c.2 VL53L0X_SYSTEM_SEQUENCE_CONFIG sequence_config
    (some 1, s.2.1, w2)

/-- Source `setVcselPulsePeriod` (`period_pclks` is a `uint8_t`).  The result is
`some 0` (invalid period), `some 1`, or `none` when a division by zero traps. -/
def setVcselPulsePeriod {σ : Type} (b : Bus σ) (h : vl53x) (w : World σ)
    (type : vcselPeriodType) (period_pclks : Nat) : Option Nat × vl53x × World σ :=
  let period_pclks := period_pclks % 256
  let vcsel_period_reg := encodeVcselPeriod period_pclks
  let r := readReg b h w VL53L0X_SYSTEM_SEQUENCE_CONFIG
  let enables := r.1
  let g := getSequenceStepTimeouts b h r.2 enables
  let timeouts := g.1
  match type with
  | .VcselPeriodPreRange =>
    match preRangePhaseHigh period_pclks with
    | none => (some 0, h, g.2)
    | some hi =>
      let w1 := writeReg b h g.2 VL53L0X_PRE_RANGE_CONFIG_VALID_PHASE_HIGH hi
      let w2 := writeReg b h w1 VL53L0X_PRE_RANGE_CONFIG_VALID_PHASE_LOW 0x08
      let w3 := writeReg b h w2 VL53L0X_PRE_RANGE_CONFIG_VCSEL_PERIOD vcsel_period_reg
      match timeoutMicrosecondsToMclks timeouts.pre_range_us period_pclks with
      | none => (none, h, w3)
      | some m1 =>
        let new_pre_range_timeout_mclks := m1 % 65536
        let w4 := writeReg16 b h w3 VL53L0X_PRE_RANGE_CONFIG_TIMEOUT_MACROP_HI
          (encodeTimeout new_pre_range_timeout_mclks)
        match timeoutMicrosecondsToMclks timeouts.msrc_dss_tcc_us period_pclks with
        | none => (none, h, w4)
        | some m2 =>
          let new_msrc_timeout_mclks := m2 % 65536
          let w5 := writeReg b h w4 VL53L0X_MSRC_CONFIG_TIMEOUT_MACROP
            (if new_msrc_timeout_mclks > 256 then 255
             else (new_msrc_timeout_mclks + 255) % 256)
          vcselReapplyAndCalibrate b h w5
  | .VcselPeriodFinalRange =>
    match finalRangePhaseTable period_pclks with
    | none => (some 0, h, g.2)
    | some t =>
      let w1 := finalRangePhaseWrites b h g.2 t
      let w2 := writeReg b h w1 VL53L0X_FINAL_RANGE_CONFIG_VCSEL_PERIOD vcsel_period_reg
      match timeoutMicrosecondsToMclks timeouts.final_range_us period_pclks with
      | none => (none, h, w2)
      | some m =>
        let new_final_range_timeout_mclks :=
          if enables &&& VL53L0X_SEQUENCE_ENABLE_PRE_RANGE ≠ 0 then
            (m % 65536 + timeouts.pre_range_mclks) % 65536
          else m % 65536
        let w3 := writeReg16 b h w2 VL53L0X_FINAL_RANGE_CONFIG_TIMEOUT_MACROP_HI
          (encodeTimeout new_final_range_timeout_mclks)
        vcselReapplyAndCalibrate b h w3

/-! ## Register lists (`vl53l0x.c` lines 156-168, 191-226) -/

/-- Source `readMulti`: `iCount` bytes starting at `ucAddr`; the caller's buffer of
`uint8_t` receives what the transport returned. -/
def readMulti {σ : Type} (b : Bus σ) (h : vl53x) (w : World σ) (ucAddr iCount : Nat) :
    List Nat × World σ :=
  let r := b.iic_read_register w.dev h.iic_index h.baseAddr (ucAddr % 256) iCount
  ((List.range iCount).map (fun j => r.2.1.getD j 0 % 256),
    ⟨r.2.2, w.trace ++ [Ev.read h.iic_index h.baseAddr (ucAddr % 256) iCount r.2.1 r.1]⟩)

/-- Source `writeMulti`: the bytes of `pBuf` starting at `ucAddr`. -/
def writeMulti {σ : Type} (b : Bus σ) (h : vl53x) (w : World σ) (ucAddr : Nat)
    (pBuf : List Nat) : World σ :=
  let r := b.iic_write_register w.dev h.iic_index h.baseAddr (ucAddr % 256) pBuf
  ⟨r.2, w.trace ++ [Ev.write h.iic_index h.baseAddr (ucAddr % 256) pBuf r.1]⟩

/-- The `while (ucCount)` loop of `writeRegList`: one single-byte write per
register/value pair, `ucList` advancing by two. -/
def writeRegListLoop {σ : Type} (b : Bus σ) (h : vl53x) : Nat → List Nat → World σ → World σ
  | 0, _, w => w
  | ucCount + 1, ucList, w =>
    writeRegListLoop b h ucCount (ucList.drop 2)
      (writeReg b h w (ucList.getD 0 0) (ucList.getD 1 0))

/-- Source `writeRegList`: the first element of the list is the `uint8_t` count. -/
def writeRegList {σ : Type} (b : Bus σ) (h : vl53x) (w : World σ) (ucList : List Nat) :
    World σ :=
  writeRegListLoop b h (ucList.getD 0 0 % 256) (ucList.drop 1) w

def ucI2CMode : List Nat :=
  [4, 0x88, 0x00, 0x80, 0x01, 0xFF, 0x01, 0x00, 0x00]

def ucI2CMode2 : List Nat :=
  [3, 0x00, 0x01, 0xFF, 0x00, 0x80, 0x00]

def ucSPAD0 : List Nat :=
  [4, 0x80, 0x01, 0xFF, 0x01, 0x00, 0x00, 0xFF, 0x06]

def ucSPAD1 : List Nat :=
  [5, 0xFF, 0x07, 0x81, 0x01, 0x80, 0x01, 0x94, 0x6B, 0x83, 0x00]

def ucSPAD2 : List Nat :=
  [4, 0xFF, 0x01, 0x00, 0x01, 0xFF, 0x00, 0x80, 0x00]

def ucSPAD : List Nat :=
  [5, 0xFF, 0x01, 0x4F, 0x00, 0x4E, 0x2C, 0xFF, 0x00, 0xB6, 0xB4]

def ucDefTuning : List Nat :=
  [80, 0xFF, 0x01, 0x00, 0x00, 0xFF, 0x00, 0x09, 0x00, 0x10, 0x00, 0x11, 0x00, 0x24,
   0x01, 0x25, 0xFF, 0x75, 0x00, 0xFF, 0x01, 0x4E, 0x2C, 0x48, 0x00, 0x30, 0x20, 0xFF,
   0x00, 0x30, 0x09, 0x54, 0x00, 0x31, 0x04, 0x32, 0x03, 0x40, 0x83, 0x46, 0x25, 0x60,
   0x00, 0x27, 0x00, 0x50, 0x06, 0x51, 0x00, 0x52, 0x96, 0x56, 0x08, 0x57, 0x30, 0x61,
   0x00, 0x62, 0x00, 0x64, 0x00, 0x65, 0x00, 0x66, 0xA0, 0xFF, 0x01, 0x22, 0x32, 0x47,
   0x14, 0x49, 0xFF, 0x4A, 0x00, 0xFF, 0x00, 0x7A, 0x0A, 0x7B, 0x00, 0x78, 0x21, 0xFF,
   0x01, 0x23, 0x34, 0x42, 0x00, 0x44, 0xFF, 0x45, 0x26, 0x46, 0x05, 0x40, 0x40, 0x0E,
   0x06, 0x20, 0x1A, 0x43, 0x40, 0xFF, 0x00, 0x34, 0x03, 0x35, 0x44, 0xFF, 0x01, 0x31,
   0x04, 0x4B, 0x09, 0x4C, 0x05, 0x4D, 0x04, 0xFF, 0x00, 0x44, 0x00, 0x45, 0x20, 0x47,
   0x08, 0x48, 0x28, 0x67, 0x00, 0x70, 0x04, 0x71, 0x01, 0x72, 0xFE, 0x76, 0x00, 0x77,
   0x00, 0xFF, 0x01, 0x0D, 0x01, 0xFF, 0x00, 0x80, 0x01, 0x01, 0xF8, 0xFF, 0x01, 0x8E,
   0x01, 0x00, 0x01, 0xFF, 0x00, 0x80, 0x00]

/-! ## SPAD information (`vl53l0x.c` lines 228-259) -/

/-- The polling loop of `getSpadInfo`, entered with the current `iTimeout`; it returns
the value of `iTimeout` at which the loop was left. -/
def spadInfoLoop {σ : Type} (b : Bus σ) (h : vl53x) (iTimeout : Nat) (w : World σ) :
    Nat × World σ :=
  if hlt : iTimeout < 50 then
    let r := readReg b h w 0x83
    if r.1 ≠ 0x00 then (iTimeout, r.2)
    else spadInfoLoop b h (iTimeout + 1) r.2
  else (iTimeout, w)
termination_by 50 - iTimeout
decreasing_by omega

/-- Source `getSpadInfo`.  The result is the return value, then `*pCount` and
`*pTypeIsAperture` as they stand after the call (the caller's initial values when the
poll times out), then the world. -/
def getSpadInfo {σ : Type} (b : Bus σ) (h : vl53x) (w : World σ)
    (pCount pTypeIsAperture : Nat) : Nat × Nat × Nat × World σ :=
  let w1 := writeRegList b h w ucSPAD0
  let r1 := readReg b h w1 0x83
  let w2 := writeReg b h r1.2 0x83 (r1.1 ||| 0x04)
  let w3 := writeRegList b h w2 ucSPAD1
  let l := spadInfoLoop b h 0 w3
  if l.1 = 50 then (0, pCount, pTypeIsAperture, l.2)
  else
    let w4 := writeReg b h l.2 0x83 0x01
    let r2 := readReg b h w4 0x92
    let ucTemp := r2.1
    let w5 := writeReg b h r2.2 0x81 0x00
    let w6 := writeReg b h w5 0xFF 0x06
    let r3 := readReg b h w6 0x83
    let w7 := writeReg b h r3.2 0x83 (r3.1 &&& 0xFB)
    let w8 := writeRegList b h w7 ucSPAD2
    (1, ucTemp &&& 0x7F, ucTemp &&& 0x80, w8)

/-! ## Reading the timing budget (`vl53l0x.c` lines 626-671) -/

/-- The `budget_us` accumulation of `getMeasurementTimingBudget` (lines 640-667), every
`+=` in `uint32_t`. -/
def readBudgetSum (enables : Nat) (timeouts : SequenceStepTimeouts) : Nat :=
  let budget0 := 1910 + 960
  let budget1 :=
    if enables &&& VL53L0X_SEQUENCE_ENABLE_TCC ≠ 0 then
      (budget0 + (timeouts.msrc_dss_tcc_us + 590) % 4294967296) % 4294967296
    else budget0
  let budget2 :=
    if enables &&& VL53L0X_SEQUENCE_ENABLE_DSS ≠ 0 then
      (budget1 + (2 * ((timeouts.msrc_dss_tcc_us + 690) % 4294967296)) % 4294967296)
        % 4294967296
    else if enables &&& VL53L0X_SEQUENCE_ENABLE_MSRC ≠ 0 then
      (budget1 + (timeouts.msrc_dss_tcc_us + 660) % 4294967296) % 4294967296
    else budget1
  let budget3 :=
    if enables &&& VL53L0X_SEQUENCE_ENABLE_PRE_RANGE ≠ 0 then
      (budget2 + (timeouts.pre_range_us + 660) % 4294967296) % 4294967296
    else budget2
  if enables &&& VL53L0X_SEQUENCE_ENABLE_FINAL_RANGE ≠ 0 then
    (budget3 + (timeouts.final_range_us + 550) % 4294967296) % 4294967296
  else budget3

/-- Source `getMeasurementTimingBudget`: the value returned, the handle with the value
cached, and the world. -/
def getMeasurementTimingBudget {σ : Type} (b : Bus σ) (h : vl53x) (w : World σ) :
    Nat × vl53x × World σ :=
  let r := readReg b h w VL53L0X_SYSTEM_SEQUENCE_CONFIG
  let enables := r.1
  let g := getSequenceStepTimeouts b h r.2 enables
  let budget_us := readBudgetSum enables g.1
  (budget_us, { h with measurement_timing_budget_us := budget_us }, g.2)

/-! ## Ranging (`vl53l0x.c` lines 761-815) -/

/-- The polling loop of `readRangeContinuousMillimeters`, entered with the current
`iTimeout`; the flag is `true` when the loop left through `return -1`. -/
def readRangeLoop {σ : Type} (b : Bus σ) (h : vl53x) (iTimeout : Nat) (w : World σ) :
    Bool × World σ :=
  let r := readReg b h w VL53L0X_RESULT_INTERRUPT_STATUS
  if r.1 &&& 0x07 = 0 then
    if hlt : iTimeout + 1 > 50 then (true, r.2)
    else readRangeLoop b h (iTimeout + 1) r.2
  else (false, r.2)
termination_by 51 - iTimeout
decreasing_by omega

/-- Source `readRangeContinuousMillimeters`; the `return -1` of a `uint16_t` function
is 65535. -/
def readRangeContinuousMillimeters {σ : Type} (b : Bus σ) (h : vl53x) (w : World σ) :
    Nat × World σ :=
  let l := readRangeLoop b h 0 w
  if l.1 then (65535, l.2)
  else
    let r := readReg16 b h l.2 (VL53L0X_RESULT_RANGE_STATUS + 10)
    let w1 := writeReg b h r.2 VL53L0X_SYSTEM_INTERRUPT_CLEAR 0x01
    (r.1, w1)

/-- The start-bit polling loop of `tofReadDistance`, entered with the current
`iTimeout`; the flag is `true` when the loop left through `return -1`. -/
def startBitLoop {σ : Type} (b : Bus σ) (h : vl53x) (iTimeout : Nat) (w : World σ) :
    Bool × World σ :=
  let r := readReg b h w VL53L0X_SYSRANGE_START
  if r.1 &&& 0x01 ≠ 0 then
    if hlt : iTimeout + 1 > 50 then (true, r.2)
    else startBitLoop b h (iTimeout + 1) r.2
  else (false, r.2)
termination_by 51 - iTimeout
decreasing_by omega

/-- The eight register writes that open `tofReadDistance` (lines 791-799), ending with
the write of `0x01` to the start register. -/
def tofStartWrites {σ : Type} (b : Bus σ) (sensor : vl53x) (w : World σ) : World σ :=
  let w1 := writeReg b sensor w 0x80 0x01
  let w2 := writeReg b sensor w1 0xFF 0x01
  let w3 := writeReg b sensor w2 0x00 0x00
  let w4 := writeReg b sensor w3 0x91 sensor.stop_variable
  let w5 := writeReg b sensor w4 0x00 0x01
  let w6 := writeReg b sensor w5 0xFF 0x00
  let w7 := writeReg b sensor w6 0x80 0x00
  writeReg b sensor w7 VL53L0X_SYSRANGE_START 0x01

/-- Source `tofReadDistance`; the `return -1` of a `uint32_t` function is 4294967295. -/
def tofReadDistance {σ : Type} (b : Bus σ) (sensor : vl53x) (w : World σ) :
    Nat × World σ :=
  let w8 := tofStartWrites b sensor w
  let l := startBitLoop b sensor 0 w8
  if l.1 then (4294967295, l.2)
  else readRangeContinuousMillimeters b sensor l.2

/-! ## Reference SPAD map (`vl53l0x.c` lines 717-731) -/

/-- One iteration of the `for (i=0; i<48; i++)` loop of `initSensor` on the pair
`(ref_spad_map, ucSPADsEnabled)`.  `~(1<<(i & 7))` is taken on the eight bits that
survive the store into the `uint8_t` map entry. -/
def spadLoopStep (ucFirstSPAD spad_count : Nat) (st : List Nat × Nat) (i : Nat) :
    List Nat × Nat :=
  if i < ucFirstSPAD ∨ st.2 = spad_count then
    (st.1.set (i >>> 3) (st.1.getD (i >>> 3) 0 &&& (0xFF ^^^ (1 <<< (i &&& 7)))), st.2)
  else if st.1.getD (i >>> 3) 0 &&& (1 <<< (i &&& 7)) ≠ 0 then
    (st.1, (st.2 + 1) % 256)
  else st

/-- Lines 717-730 of `initSensor`: the map that `writeMulti` sends back, from the six
bytes read, the SPAD count and the aperture flag (`uint8_t` each). -/
def trimSpadMap (spad_count spad_type_is_aperture : Nat) (ref_spad_map : List Nat) :
    List Nat :=
  let ucFirstSPAD := if spad_type_is_aperture % 256 ≠ 0 then 12 else 0
  ((List.range 48).foldl (spadLoopStep ucFirstSPAD (spad_count % 256))
    (ref_spad_map, 0)).1

/-- The six `uint8_t` entries of `ref_spad_map` as filled by `readMulti` from the
buffer the transport returned. -/
def spadMapOfBuffer (data : List Nat) : List Nat :=
  (List.range 6).map (fun j => data.getD j 0 % 256)

/-! ## Initialisation (`vl53l0x.c` lines 119-129, 692-759) -/

/-- Source `initSensor`.  The result is `some 0` on success, `some 1` when a reference
calibration timed out, `none` when a division by zero trapped on the way.  The results of
`getSpadInfo`, `setVcselPulsePeriod` and `setMeasurementTimingBudget` are discarded by the
source; the model looks at them only to see whether the call trapped. -/
def initSensor {σ : Type} (b : Bus σ) (h : vl53x) (w : World σ) (bLongRangeMode : Nat) :
    Option Nat × vl53x × World σ :=
  let r1 := readReg b h w VL53L0X_VHV_CONFIG_PAD_SCL_SDA__EXTSUP_HV
  let w1 := writeReg b h r1.2 VL53L0X_VHV_CONFIG_PAD_SCL_SDA__EXTSUP_HV (r1.1 ||| 0x01)
  let w2 := writeRegList b h w1 ucI2CMode
  let r2 := readReg b h w2 0x91
  let h1 := { h with stop_variable := r2.1 }
  let w3 := writeRegList b h1 r2.2 ucI2CMode2
  let r3 := readReg b h1 w3 VL53L0X_REG_MSRC_CONFIG_CONTROL
  let w4 := writeReg b h1 r3.2 VL53L0X_REG_MSRC_CONFIG_CONTROL (r3.1 ||| 0x12)
  let w5 := writeReg16 b h1 w4 VL53L0X_FINAL_RANGE_CONFIG_MIN_COUNT_RATE_RTN_LIMIT 32
  let w6 := writeReg b h1 w5 VL53L0X_SYSTEM_SEQUENCE_CONFIG 0xFF
  let s := getSpadInfo b h1 w6 0 0
  let spad_count := s.2.1
  let spad_type_is_aperture := s.2.2.1
  let m := readMulti b h1 s.2.2.2 VL53L0X_GLOBAL_CONFIG_SPAD_ENABLES_REF_0 6
  let w7 := writeRegList b h1 m.2 ucSPAD
  let ref_spad_map := trimSpadMap spad_count spad_type_is_aperture m.1
  let w8 := writeMulti b h1 w7 VL53L0X_GLOBAL_CONFIG_SPAD_ENABLES_REF_0 ref_spad_map
  let w9 := writeRegList b h1 w8 ucDefTuning
  let lr : Option Nat × vl53x × World σ :=
    if bLongRangeMode ≠ 0 then
      let w10 := writeReg16 b h1 w9 VL53L0X_FINAL_RANGE_CONFIG_MIN_COUNT_RATE_RTN_LIMIT 13
      let p1 := setVcselPulsePeriod b h1 w10 vcselPeriodType.VcselPeriodPreRange 18
      match p1.1 with
      | none => (none, p1.2.1, p1.2.2)
      | some _ =>
        setVcselPulsePeriod b p1.2.1 p1.2.2 vcselPeriodType.VcselPeriodFinalRange 14
    else (some 1, h1, w9)
  match lr.1 with
  | none => (none, lr.2.1, lr.2.2)
  | some _ =>
    let h2 := lr.2.1
    let w11 := writeReg b h2 lr.2.2 VL53L0X_SYSTEM_INTERRUPT_CONFIG_GPIO 0x04
    let r4 := readReg b h2 w11 VL53L0X_GPIO_HV_MUX_ACTIVE_HIGH
    let w12 := writeReg b h2 r4.2 VL53L0X_GPIO_HV_MUX_ACTIVE_HIGH (r4.1 &&& 0xEF)
    let w13 := writeReg b h2 w12 VL53L0X_SYSTEM_INTERRUPT_CLEAR 0x01
    let gb := getMeasurementTimingBudget b h2 w13
    let h3 := { gb.2.1 with measurement_timing_budget_us := gb.1 }
    let w14 := writeReg b h3 gb.2.2 VL53L0X_SYSTEM_SEQUENCE_CONFIG 0xE8
    let sb := setMeasurementTimingBudget b h3 w14 h3.measurement_timing_budget_us
    match sb.1 with
    | none => (none, sb.2.1, sb.2.2)
    | some _ =>
      let h4 := sb.2.1
      let w15 := writeReg b h4 sb.2.2 VL53L0X_SYSTEM_SEQUENCE_CONFIG 0x01
      let c1 := performSingleRefCalibration b h4 w15 0x40
      if c1.1 = 0 then (some 1, h4, c1.2)
      else
        let w16 := writeReg b h4 c1.2 VL53L0X_SYSTEM_SEQUENCE_CONFIG 0x02
        let c2 := performSingleRefCalibration b h4 w16 0x00
        if c2.1 = 0 then (some 1, h4, c2.2)
        else
          let w17 := writeReg b h4 c2.2 VL53L0X_SYSTEM_SEQUENCE_CONFIG 0xE8
          (some 0, h4, w17)

/-- Source `tofInit`: record bus and address in the handle, then `initSensor`. -/
def tofInit {σ : Type} (b : Bus σ) (h : vl53x) (w : World σ) (iic addr bLongRange : Nat) :
    Option Nat × vl53x × World σ :=
  initSensor b { h with iic_index := iic, baseAddr := addr % 256 } w bLongRange

/-! ## Address, identification (`vl53l0x.c` lines 100-117, 817-839) -/

def VL53L0X_REG_IDENTIFICATION_MODEL_ID : Nat := 0xC0
def VL53L0X_EXPECTED_MODEL_ID : Nat := 0xEE
def VL53L0X_REG_IDENTIFICATION_REVISION_ID : Nat := 0xC2
def VL53L0X_REG_I2C_SLAVE_DEVICE_ADDRESS : Nat := 0x8A

/-- Source `tofSetAddress`: the status of the transport is the result. -/
def tofSetAddress {σ : Type} (b : Bus σ) (w : World σ) (iic addr newAddr : Nat) :
    Int × World σ :=
  let r := b.iic_write_register w.dev iic (addr % 256)
    VL53L0X_REG_I2C_SLAVE_DEVICE_ADDRESS [newAddr % 256]
  (r.1, ⟨r.2, w.trace ++ [Ev.write iic (addr % 256) VL53L0X_REG_I2C_SLAVE_DEVICE_ADDRESS
    [newAddr % 256] r.1]⟩)

/-- Source `tofPing`: 0 when the model register reads the expected identifier. -/
def tofPing {σ : Type} (b : Bus σ) (w : World σ) (iic addr : Nat) : Nat × World σ :=
  let r := b.iic_read_register w.dev iic (addr % 256) VL53L0X_REG_IDENTIFICATION_MODEL_ID 1
  (if r.2.1.getD 0 0 % 256 ≠ VL53L0X_EXPECTED_MODEL_ID then 1 else 0,
    ⟨r.2.2, w.trace ++ [Ev.read iic (addr % 256) VL53L0X_REG_IDENTIFICATION_MODEL_ID 1
      r.2.1 r.1]⟩)

/-- The second half of `tofGetModel` (lines 830-838): the revision read, entered with the
value `*model` has by then. -/
def tofGetModelRevision {σ : Type} (b : Bus σ) (sensor : vl53x) (w : World σ)
    (model revision : Option Nat) : Nat × Option Nat × Option Nat × World σ :=
  match revision with
  | none => (0, model, none, w)
  | some rev0 =>
    let r := b.iic_read_register w.dev sensor.iic_index sensor.baseAddr
      VL53L0X_REG_IDENTIFICATION_REVISION_ID 1
    let w1 : World σ := ⟨r.2.2, w.trace ++ [Ev.read sensor.iic_index sensor.baseAddr
      VL53L0X_REG_IDENTIFICATION_REVISION_ID 1 r.2.1 r.1]⟩
    if r.1 = 0 then (0, model, some (r.2.1.getD 0 0 % 256), w1)
    else (1, model, some rev0, w1)

/-- Source `tofGetModel`; `model` and `revision` hold the caller's current values when
the pointer is non-null, `none` for a null pointer.  The result is the return value and
the two outputs after the call. -/
def tofGetModel {σ : Type} (b : Bus σ) (sensor : vl53x) (w : World σ)
    (model revision : Option Nat) : Nat × Option Nat × Option Nat × World σ :=
  match model with
  | none => tofGetModelRevision b sensor w none revision
  | some model0 =>
    let r := b.iic_read_register w.dev sensor.iic_index sensor.baseAddr
      VL53L0X_REG_IDENTIFICATION_MODEL_ID 1
    let w1 : World σ := ⟨r.2.2, w.trace ++ [Ev.read sensor.iic_index sensor.baseAddr
      VL53L0X_REG_IDENTIFICATION_MODEL_ID 1 r.2.1 r.1]⟩
    if r.1 = 0 then tofGetModelRevision b sensor w1 (some (r.2.1.getD 0 0 % 256)) revision
    else (1, some model0, revision, w1)

/-! ## TCA9548A channel switch (`TCA9548A.h`, `TCA9548A.c`) -/

def TCA9548A_I2C_ADDR : Nat := 0x70
def TCA9548A_CHANNEL_COUNT : Nat := 8

/-- Source `struct tca9548a_mux`: the bus and the last-selected channel (0-7, `0xFF` for
none). -/
structure tca9548a where
  iic_index : Nat
  current_channel : Nat
deriving DecidableEq

/-- Source `write_control`: one byte to the control register (pointer `0x00`); the
status of the transport is the result. -/
def write_control {σ : Type} (b : Bus σ) (w : World σ) (iic ctrl : Nat) : Int × World σ :=
  let r := b.iic_write_register w.dev iic TCA9548A_I2C_ADDR 0x00 [ctrl % 256]
  (r.1, ⟨r.2, w.trace ++ [Ev.write iic TCA9548A_I2C_ADDR 0x00 [ctrl % 256] r.1]⟩)

/-- Source `tca9548a_init`; `mux` is `none` for a null pointer, otherwise the current
contents of the handle. -/
def tca9548a_init {σ : Type} (b : Bus σ) (w : World σ) (iic : Nat) (mux : Option tca9548a) :
    Int × Option tca9548a × World σ :=
  match mux with
  | none => (1, none, w)
  | some _ =>
    let r := write_control b w iic 0x00
    (r.1, some { iic_index := iic, current_channel := 0xFF }, r.2)

/-- Source `tca9548a_destroy`. -/
def tca9548a_destroy {σ : Type} (b : Bus σ) (w : World σ) (mux : Option tca9548a) :
    Int × Option tca9548a × World σ :=
  match mux with
  | none => (1, none, w)
  | some m =>
    let r := write_control b w m.iic_index 0x00
    (r.1, some { m with current_channel := 0xFF }, r.2)

/-- Source `tca9548a_select_channel` (`channel` is a `uint8_t`). -/
def tca9548a_select_channel {σ : Type} (b : Bus σ) (w : World σ) (mux : Option tca9548a)
    (channel : Nat) : Int × Option tca9548a × World σ :=
  match mux with
  | none => (1, none, w)
  | some m =>
    if channel % 256 ≥ TCA9548A_CHANNEL_COUNT then (1, some m, w)
    else
      let ctrl := (1 <<< (channel % 256)) % 256
      let r := write_control b w m.iic_index ctrl
      if r.1 = 0 then (r.1, some { m with current_channel := channel % 256 }, r.2)
      else (r.1, some m, r.2)

/-! ## Vocabulary for statements about bus behaviour -/

/-- The world after `n` consecutive single-byte reads of register `reg`. -/
def afterReads {σ : Type} (b : Bus σ) (h : vl53x) (reg : Nat) : Nat → World σ → World σ
  | 0, w => w
  | n + 1, w => afterReads b h reg n (readReg b h w reg).2

/-- The value the `k`-th consecutive poll (counted from 1) of register `reg` returns. -/
def pollValue {σ : Type} (b : Bus σ) (h : vl53x) (reg : Nat) (w : World σ) (k : Nat) : Nat :=
  (readReg b h (afterReads b h reg (k - 1) w) reg).1

/-- The transactions a call added to the trace of the world it started from. -/
def newEvents {σ : Type} (w w1 : World σ) : List Ev :=
  w1.trace.drop w.trace.length

/-- A scripted device for the ranging scenarios: the state counts the reads of the
interrupt-status register; the start register reads `0x00`, the interrupt-status register
reads `0x00` while fewer than `idle` polls were made and `0x01` afterwards, and the
distance register pair reads `hi, lo`. -/
def scriptedBus (idle hi lo : Nat) : Bus Nat where
  iic_read_register := fun n _ _ reg _ =>
    if reg = 0x13 then (0, [if n < idle then 0x00 else 0x01], n + 1)
    else if reg = 0x1E then (0, [hi, lo], n)
    else (0, [0x00], n)
  iic_write_register := fun n _ _ _ _ => (0, n)

/-- The register a transaction addresses. -/
def Ev.target : Ev → Nat
  | .write _ _ r _ _ => r
  | .read _ _ r _ _ _ => r

/-- The register writes among a list of transactions, as (register, bytes). -/
def writesOf (l : List Ev) : List (Nat × List Nat) :=
  (l.filter Ev.isWrite).map (fun e => (e.target, e.payload))

/-- The register writes among the transactions a call added, as (register, bytes). -/
def newWrites {σ : Type} (w w1 : World σ) : List (Nat × List Nat) :=
  writesOf (newEvents w w1)

/-- The legal pulse periods of the spec (section 4.4, step 1): {12,14,16,18} for
pre-range, {8,10,12,14} for final-range. -/
def legalPeriods : vcselPeriodType → List Nat
  | .VcselPeriodPreRange => [12, 14, 16, 18]
  | .VcselPeriodFinalRange => [8, 10, 12, 14]

/-- The accumulated overhead in the words of the spec (section 4.3, steps 3 and 4):
Start 1320 + End 960, + TCC timeout + 590 if TCC is enabled, + 2 x (DSS timeout + 690) if
DSS is enabled, else + MSRC timeout + 660 if MSRC is enabled, + pre-range timeout + 660 if
pre-range is enabled, + the fixed 550 of the final-range step; exact, unbounded
arithmetic. -/
def specUsedBudget (enables : Nat) (t : SequenceStepTimeouts) : Nat :=
  1320 + 960
    + (if enables &&& VL53L0X_SEQUENCE_ENABLE_TCC ≠ 0 then t.msrc_dss_tcc_us + 590 else 0)
    + (if enables &&& VL53L0X_SEQUENCE_ENABLE_DSS ≠ 0 then 2 * (t.msrc_dss_tcc_us + 690)
       else if enables &&& VL53L0X_SEQUENCE_ENABLE_MSRC ≠ 0 then t.msrc_dss_tcc_us + 660
       else 0)
    + (if enables &&& VL53L0X_SEQUENCE_ENABLE_PRE_RANGE ≠ 0 then t.pre_range_us + 660 else 0)
    + 550

/-- A device that answers every read with the single byte `0x00` and accepts every
write. -/
def silentBus : Bus Unit where
  iic_read_register := fun _ _ _ _ _ => (0, [0x00], ())
  iic_write_register := fun _ _ _ _ _ => (0, ())

/-- A handle on bus 0 at the default device address `0x29`. -/
def sampleHandle : vl53x :=
  { iic_index := 0, baseAddr := 0x29, stop_variable := 0x3C,
    measurement_timing_budget_us := 33000 }

/-- Bit `i` of a reference-SPAD map: bit `i % 8` of byte `i / 8`. -/
def spadBit (m : List Nat) (i : Nat) : Bool :=
  (m.getD (i / 8) 0).testBit (i % 8)

/-- The number of positions below `k` at which `f` holds. -/
def countBelow (f : Nat → Bool) (k : Nat) : Nat :=
  (List.range k).countP f

/-- The number of bits set among the 48 positions of a reference-SPAD map. -/
def spadBitsSet (m : List Nat) : Nat :=
  countBelow (spadBit m) 48

/-- The number of bits of a map set at usable positions below `k`, that is at indices
`i` with `first <= i < k`. -/
def usableBelow (first : Nat) (m : List Nat) (k : Nat) : Nat :=
  countBelow (fun i => decide (first ≤ i) && spadBit m i) k

/-- The loop invariant of the reference-SPAD trimming loop before iteration `k`, for the
state `st = (ref_spad_map, ucSPADsEnabled)` and the map `m0` the loop started from: the
map still has six bytes; positions from `k` on are untouched; a position below `k` is set
exactly when it was set in `m0`, is usable, and fewer than `count` usable bits of `m0`
precede it; the counter is the number of usable bits met so far, capped at `count`. -/
def SpadInv (first count : Nat) (m0 : List Nat) (k : Nat) (st : List Nat × Nat) : Prop :=
  st.1.length = 6 ∧
  (∀ x ∈ st.1, x < 256) ∧
  (∀ i, k ≤ i → spadBit st.1 i = spadBit m0 i) ∧
  (∀ i, i < k → spadBit st.1 i =
    (spadBit m0 i && decide (first ≤ i) && decide (usableBelow first m0 i < count))) ∧
  st.2 = min count (usableBelow first m0 k)

/-! ## A register-file device -/

/-- Update of a register file by a multi-byte write with auto-incrementing address. -/
def regStore (regs : Nat → Nat) (reg : Nat) : List Nat → Nat → Nat
  | [], a => regs a
  | d :: ds, a => if a = reg then d % 256 else regStore regs (reg + 1) ds a

/-- A bus whose device is a plain register file: a read of `len` bytes at `reg` returns
the stored bytes at `reg, reg+1, ...`, a write stores its bytes there, every transaction
succeeds. -/
def regBus : Bus (Nat → Nat) where
  iic_read_register := fun regs _ _ reg len =>
    (0, (List.range len).map (fun j => regs (reg + j)), regs)
  iic_write_register := fun regs _ _ reg data => (0, regStore regs reg data)

/-- A register file given by a list of (register, byte) pairs; 0 elsewhere. -/
def regsOfList (l : List (Nat × Nat)) (a : Nat) : Nat :=
  (l.lookup a).getD 0

/-- The timing registers as the default tuning table `ucDefTuning` leaves them
(pre-range period register 0x06, pre-range timeout 0x0096, MSRC timeout 0x25, final-range
period register 0x04, final-range timeout 0x01fe) with sequence configuration `0xe8`. -/
def tunedRegs : Nat → Nat :=
  regsOfList [(0x01, 0xE8), (0x50, 0x06), (0x51, 0x00), (0x52, 0x96), (0x46, 0x25),
    (0x70, 0x04), (0x71, 0x01), (0x72, 0xFE)]

/-- As `tunedRegs`, with the pre-range timeout register at `0x08ff` (65281 macro-clocks,
about 3.5 seconds). -/
def slowPreRangeRegs : Nat → Nat :=
  regsOfList [(0x01, 0xE8), (0x50, 0x06), (0x51, 0x08), (0x52, 0xFF), (0x46, 0x25),
    (0x70, 0x04), (0x71, 0x01), (0x72, 0xFE)]

/-- As `tunedRegs`, with the final-range period register at `0x7f`, which decodes to a
period of 256 and reaches the 8-bit period parameter as 0. -/
def zeroPeriodRegs : Nat → Nat :=
  regsOfList [(0x01, 0xE8), (0x50, 0x06), (0x51, 0x00), (0x52, 0x96), (0x46, 0x25),
    (0x70, 0x7F), (0x71, 0x01), (0x72, 0xFE)]

/-! ## Vocabulary for the later statements -/

/-- The budget `readBudget` reports, in the words of the spec (section 4.3): the same
accumulation as `applyBudget` with the Start overhead 1910 instead of 1320, and the
final-range duration + 550 if final-range is enabled; exact, unbounded arithmetic. -/
def specReadBudget (enables : Nat) (t : SequenceStepTimeouts) : Nat :=
  1910 + 960
    + (if enables &&& VL53L0X_SEQUENCE_ENABLE_TCC ≠ 0 then t.msrc_dss_tcc_us + 590 else 0)
    + (if enables &&& VL53L0X_SEQUENCE_ENABLE_DSS ≠ 0 then 2 * (t.msrc_dss_tcc_us + 690)
       else if enables &&& VL53L0X_SEQUENCE_ENABLE_MSRC ≠ 0 then t.msrc_dss_tcc_us + 660
       else 0)
    + (if enables &&& VL53L0X_SEQUENCE_ENABLE_PRE_RANGE ≠ 0 then t.pre_range_us + 660 else 0)
    + (if enables &&& VL53L0X_SEQUENCE_ENABLE_FINAL_RANGE ≠ 0 then t.final_range_us + 550
       else 0)

/-- As `tunedRegs`, with the final-range bit of the sequence configuration clear
(`0x68`). -/
def finalOffRegs : Nat → Nat :=
  regsOfList [(0x01, 0x68), (0x50, 0x06), (0x51, 0x00), (0x52, 0x96), (0x46, 0x25),
    (0x70, 0x04), (0x71, 0x01), (0x72, 0xFE)]

/-- The macro period of the spec (section 4.1): `((2304 * p * 1655) + 500) / 1000`, exact
arithmetic. -/
def specMacroPeriod (pulsePeriodTicks : Nat) : Nat :=
  (2304 * pulsePeriodTicks * 1655 + 500) / 1000

/-- The spec's `ticksToMicroseconds` (section 4.1):
`(ticks * macroPeriodNs + macroPeriodNs/2) / 1000`, exact arithmetic. -/
def specTicksToMicroseconds (ticks pulsePeriodTicks : Nat) : Nat :=
  (ticks * specMacroPeriod pulsePeriodTicks + specMacroPeriod pulsePeriodTicks / 2) / 1000

/-- The legal pulse periods of either target: {8,10,12,14,16,18}. -/
def allLegalPeriods : List Nat := [8, 10, 12, 14, 16, 18]

/-- A stateless device that answers every read of register `reg` with the single byte
`f reg` and accepts every write. -/
def constBus (f : Nat → Nat) : Bus Unit where
  iic_read_register := fun _ _ _ reg _ => (0, [f reg], ())
  iic_write_register := fun _ _ _ _ _ => (0, ())

/-- A device whose every register, the start register included, reads `0x01`: the start
bit never clears. -/
def stuckStartBus : Bus Unit := constBus (fun _ => 0x01)

/-- A device whose interrupt-status register always reads `0x01` (ready) and whose every
other register, the SPAD-info strobe `0x83` included, reads `0x00`. -/
def readyBus : Bus Unit := constBus (fun r => if r = 0x13 then 0x01 else 0x00)

/-! ## Vocabulary for statements about transport statuses -/

/-- The status the transport returned for a transaction. -/
def Ev.status : Ev → Int
  | .read _ _ _ _ _ s => s
  | .write _ _ _ _ s => s

/-- The transaction with its status replaced by 0 (success). -/
def Ev.clearStatus : Ev → Ev
  | .read i a r l d _ => .read i a r l d 0
  | .write i a r d _ => .write i a r d 0

/-- The world with every recorded status replaced by 0 (success). -/
def World.clearStatus {σ : Type} (w : World σ) : World σ :=
  ⟨w.dev, w.trace.map Ev.clearStatus⟩

/-- The bus that moves the same data and makes the same device transitions as `b` but
reports status 0 (success) on every transaction. -/
def okBus {σ : Type} (b : Bus σ) : Bus σ where
  iic_read_register := fun s i a r l => (0, (b.iic_read_register s i a r l).2)
  iic_write_register := fun s i a r d => (0, (b.iic_write_register s i a r d).2)

/-- The bus that moves the same data and makes the same device transitions as `b` but
reports status -1 (failure) on every transaction. -/
def failingBus {σ : Type} (b : Bus σ) : Bus σ where
  iic_read_register := fun s i a r l => (-1, (b.iic_read_register s i a r l).2)
  iic_write_register := fun s i a r d => (-1, (b.iic_write_register s i a r d).2)

/-! ## Vocabulary for the channel switch -/

/-- A call a client makes on a switch handle after `tca9548a_init`. -/
inductive MuxCall where
  | select (channel : Nat)
  | destroy
deriving DecidableEq

/-- One client call on the pair (handle, world); the status returned is dropped. -/
def muxStep {σ : Type} (b : Bus σ) (st : Option tca9548a × World σ) :
    MuxCall → Option tca9548a × World σ
  | .select channel => (tca9548a_select_channel b st.2 st.1 channel).2
  | .destroy => (tca9548a_destroy b st.2 st.1).2

/-- The handle and the world after `tca9548a_init` on a non-null handle followed by a
sequence of client calls. -/
def muxAfter {σ : Type} (b : Bus σ) (w : World σ) (iic : Nat) (m0 : tca9548a)
    (calls : List MuxCall) : Option tca9548a × World σ :=
  calls.foldl (muxStep b) (tca9548a_init b w iic (some m0)).2

/-! ## Vocabulary for frame statements on the register-file device -/

/-- From `w` to `w1` the registers listed in `S` are untouched: the transactions added to
the trace write none of them, and each of them holds what it held in `w`. -/
def Untouched (S : List Nat) (w w1 : World (Nat → Nat)) : Prop :=
  (∃ l : List Ev, w1.trace = w.trace ++ l ∧ ∀ x ∈ writesOf l, x.1 ∉ S) ∧
  ∀ a ∈ S, w1.dev a = w.dev a

/-- The register that holds the encoded pulse period of a target. -/
def periodRegister : vcselPeriodType → Nat
  | .VcselPeriodPreRange => VL53L0X_PRE_RANGE_CONFIG_VCSEL_PERIOD
  | .VcselPeriodFinalRange => VL53L0X_FINAL_RANGE_CONFIG_VCSEL_PERIOD

/-- The pulse period the sequence step model reports for a target. -/
def periodOf (type : vcselPeriodType) (t : SequenceStepTimeouts) : Nat :=
  match type with
  | .VcselPeriodPreRange => t.pre_range_vcsel_period_pclks
  | .VcselPeriodFinalRange => t.final_range_vcsel_period_pclks

end Venus28

/-! # Theorems -/

namespace Venus28

/-! ## Bit-level facts used by the codec -/

theorem shiftRight_and_distr (a c i : Nat) :
    (a &&& c) >>> i = (a >>> i) &&& (c >>> i) := by
  apply Nat.eq_of_testBit_eq
  intro j
  simp

theorem and_ff_eq_mod (x : Nat) : x &&& 0xFF = x % 256 :=
  Nat.and_pow_two_sub_one_eq_mod x 8

theorem and_ff00_shift (x : Nat) : (x &&& 0xFF00) >>> 8 = (x / 256) % 256 := by
  rw [shiftRight_and_distr]
  have h : (0xFF00 >>> 8 : Nat) = 2 ^ 8 - 1 := by decide
  rw [h, Nat.and_pow_two_sub_one_eq_mod, Nat.shiftRight_eq_div_pow]

theorem and_high24_pos_iff (x : Nat) (h : x < 4294967296) :
    (x &&& 0xFFFFFF00) > 0 ↔ 256 ≤ x := by
  have h1 : (x &&& 0xFFFFFF00) >>> 8 = (x / 256) % 16777216 := by
    rw [shiftRight_and_distr]
    have h3 : (0xFFFFFF00 >>> 8 : Nat) = 2 ^ 24 - 1 := by decide
    rw [h3, Nat.and_pow_two_sub_one_eq_mod, Nat.shiftRight_eq_div_pow]
  have h2 : (x &&& 0xFFFFFF00) % 256 = 0 := by
    have h3 := Nat.and_pow_two_sub_one_eq_mod (x &&& 0xFFFFFF00) 8
    rw [← h3, Nat.and_assoc]
    have h4 : (0xFFFFFF00 &&& (2 ^ 8 - 1) : Nat) = 0 := by decide
    rw [h4]; simp
  rw [Nat.shiftRight_eq_div_pow] at h1
  omega

theorem shl8_or_eq (e m : Nat) (hm : m < 256) : (e <<< 8) ||| m = e * 256 + m := by
  have h := Nat.mul_add_lt_is_or (i := 8) (b := m) (by simpa using hm) e
  rw [Nat.shiftLeft_eq, Nat.mul_comm, ← h]

/-! ## The encode loop -/

theorem encodeTimeoutLoop_small (ls ms : Nat) (h : ls < 256) :
    encodeTimeoutLoop ls ms = (ls, ms) := by
  rw [encodeTimeoutLoop]
  have hc : ¬ (ls &&& 0xFFFFFF00) > 0 := by
    rw [and_high24_pos_iff ls (by omega)]; omega
  simp only [hc, dite_false]

theorem encodeTimeoutLoop_large (ls ms : Nat) (h : 256 ≤ ls) (h32 : ls < 4294967296) :
    encodeTimeoutLoop ls ms = encodeTimeoutLoop (ls / 2) ((ms + 1) % 65536) := by
  rw [encodeTimeoutLoop]
  have hc : (ls &&& 0xFFFFFF00) > 0 := (and_high24_pos_iff ls h32).2 h
  simp only [hc, dite_true, Nat.shiftRight_eq_div_pow, pow_one]

/-- The loop ends after the least number `e` of halvings that brings `ls_byte` under 256,
with `ms_byte` advanced by `e`. -/
theorem encodeTimeoutLoop_spec (n : Nat) : ∀ ls ms : Nat, ls < 2 ^ (8 + n) → n ≤ 24 →
    ms + n < 65536 →
    ∃ e, e ≤ n ∧ encodeTimeoutLoop ls ms = (ls / 2 ^ e, ms + e) ∧ ls / 2 ^ e < 256 ∧
      (ls < 256 → e = 0) ∧ (0 < e → 128 ≤ ls / 2 ^ e) := by
  induction n with
  | zero =>
    intro ls ms h _ _
    have h256 : ls < 256 := by simpa using h
    exact ⟨0, le_refl 0, by simp [encodeTimeoutLoop_small ls ms h256], by simpa using h256,
      fun _ => rfl, fun h0 => absurd h0 (by omega)⟩
  | succ n ih =>
    intro ls ms h hn hms
    by_cases hs : ls < 256
    · exact ⟨0, Nat.zero_le _, by simp [encodeTimeoutLoop_small ls ms hs], by simpa using hs,
        fun _ => rfl, fun h0 => absurd h0 (by omega)⟩
    · have hge : 256 ≤ ls := by omega
      have h32 : ls < 4294967296 := by
        have h1 : (2 : Nat) ^ (8 + (n + 1)) ≤ 2 ^ 32 :=
          Nat.pow_le_pow_right (by decide) (by omega)
        have h2 : (2 : Nat) ^ 32 = 4294967296 := by norm_num
        omega
      have hhalf : ls / 2 < 2 ^ (8 + n) := by
        have h1 : (2 : Nat) ^ (8 + (n + 1)) = 2 ^ (8 + n) * 2 := by
          rw [← Nat.add_assoc, Nat.pow_succ]
        omega
      have hmod : (ms + 1) % 65536 = ms + 1 := Nat.mod_eq_of_lt (by omega)
      obtain ⟨e, he, hloop, hlt, _, hmin⟩ := ih (ls / 2) (ms + 1) hhalf (by omega) (by omega)
      have hdiv : ls / 2 / 2 ^ e = ls / 2 ^ (e + 1) := by
        rw [Nat.div_div_eq_div_mul, Nat.pow_succ, Nat.mul_comm]
      refine ⟨e + 1, by omega, ?_, ?_, fun h0 => absurd h0 hs, ?_⟩
      · rw [encodeTimeoutLoop_large ls ms hge h32, hmod, hloop, hdiv]
        simp only [Prod.mk.injEq, true_and]
        omega
      · rw [← hdiv]; exact hlt
      · intro _
        rw [← hdiv]
        by_cases he0 : e = 0
        · subst he0
          simp only [pow_zero, Nat.div_one]
          omega
        · exact hmin (by omega)

/-- What `encodeTimeout` and `decodeTimeout` compute on a non-zero 16-bit count: the
register holds exponent `e` (at most 8) and mantissa `(x-1) / 2^e` (under 256), and
decoding gives back `(x-1) / 2^e * 2^e + 1`. -/
theorem encodeTimeout_spec (x : Nat) (h1 : 1 ≤ x) (h2 : x ≤ 65535) :
    ∃ e, e ≤ 8 ∧ (x - 1) / 2 ^ e < 256 ∧
      encodeTimeout x = e * 256 + (x - 1) / 2 ^ e ∧
      decodeTimeout (encodeTimeout x) = (x - 1) / 2 ^ e * 2 ^ e + 1 ∧
      (x ≤ 256 → e = 0) ∧ (0 < e → 128 ≤ (x - 1) / 2 ^ e) := by
  obtain ⟨e, he, hloop, hlt, hsmall, hmin⟩ :=
    encodeTimeoutLoop_spec 8 (x - 1) 0 (by norm_num; omega) (by omega) (by omega)
  have hx : x % 65536 = x := Nat.mod_eq_of_lt (by omega)
  have henc : encodeTimeout x = e * 256 + (x - 1) / 2 ^ e := by
    unfold encodeTimeout
    rw [hx]
    have hpos : x > 0 := by omega
    simp only [hpos, if_true, hloop, and_ff_eq_mod, Nat.zero_add]
    rw [Nat.mod_eq_of_lt hlt, shl8_or_eq e _ hlt]
    exact Nat.mod_eq_of_lt (by omega)
  refine ⟨e, he, hlt, henc, ?_, fun hx256 => hsmall (by omega), hmin⟩
  rw [henc]
  unfold decodeTimeout
  have hr : (e * 256 + (x - 1) / 2 ^ e) % 65536 = e * 256 + (x - 1) / 2 ^ e :=
    Nat.mod_eq_of_lt (by omega)
  rw [hr, and_ff_eq_mod, and_ff00_shift]
  have hm : (e * 256 + (x - 1) / 2 ^ e) % 256 = (x - 1) / 2 ^ e := by omega
  have hq : (e * 256 + (x - 1) / 2 ^ e) / 256 % 256 = e := by omega
  rw [hm, hq, Nat.shiftLeft_eq]
  have hle : (x - 1) / 2 ^ e * 2 ^ e ≤ x - 1 := Nat.div_mul_le_self _ _
  rw [Nat.mod_eq_of_lt (by omega), Nat.mod_eq_of_lt (by omega)]

/-- C7. Timing codec round trip: `decodeTimeout (encodeTimeout x) = x` for every `x` in
[1, 256]; for every `x` in [257, 65535], with `e` the high byte of `encodeTimeout x`, the
round trip gives back `x` exactly when the low `e` bits of `x - 1` are all zero. -/
theorem timing_codec_round_trip :
    (∀ x : Nat, 1 ≤ x → x ≤ 256 → decodeTimeout (encodeTimeout x) = x) ∧
    (∀ x : Nat, 257 ≤ x → x ≤ 65535 →
      (decodeTimeout (encodeTimeout x) = x ↔ (x - 1) % 2 ^ (encodeTimeout x >>> 8) = 0)) := by
  constructor
  · intro x h1 h2
    obtain ⟨e, _, _, _, hdec, h0, _⟩ := encodeTimeout_spec x h1 (by omega)
    rw [hdec, h0 h2]
    simp only [pow_zero, Nat.div_one, Nat.mul_one]
    omega
  · intro x h1 h2
    obtain ⟨e, he, hlt, henc, hdec, _, _⟩ := encodeTimeout_spec x (by omega) h2
    have hexp : encodeTimeout x >>> 8 = e := by
      rw [henc, Nat.shiftRight_eq_div_pow]
      omega
    rw [hdec, hexp]
    have hdm := Nat.div_add_mod (x - 1) (2 ^ e)
    rw [Nat.mul_comm] at hdm
    constructor
    · intro h; omega
    · intro h; omega

/-- Witness for C7: 200 round-trips exactly, and for 513 the criterion of the second part
holds at a concrete value. -/
theorem timing_codec_round_trip_witness :
    decodeTimeout (encodeTimeout 200) = 200 ∧
    (decodeTimeout (encodeTimeout 513) = 513 ↔ (513 - 1) % 2 ^ (encodeTimeout 513 >>> 8) = 0) :=
  ⟨timing_codec_round_trip.1 200 (by decide) (by decide),
   timing_codec_round_trip.2 513 (by decide) (by decide)⟩

/-! ## Polling loops -/

theorem Ev.isWrite_of_isReadOf {reg : Nat} {e : Ev} (h : e.isReadOf reg = true) :
    e.isWrite = false := by
  cases e <;> simp_all [Ev.isReadOf, Ev.isWrite]

theorem Ev.isWriteTo_of_not_isWrite {reg : Nat} {e : Ev} (h : e.isWrite = false) :
    e.isWriteTo reg = false := by
  cases e <;> simp_all [Ev.isWriteTo, Ev.isWrite]

theorem pollValue_succ {σ : Type} (b : Bus σ) (h : vl53x) (reg : Nat) (w : World σ)
    (j : Nat) : pollValue b h reg w (j + 1) = (readReg b h (afterReads b h reg j w) reg).1 := by
  simp [pollValue]

theorem pollValue_shift {σ : Type} (b : Bus σ) (h : vl53x) (reg : Nat) (w : World σ)
    (j : Nat) :
    pollValue b h reg (readReg b h w reg).2 (j + 1) = pollValue b h reg w (j + 2) := by
  simp [pollValue, afterReads]

/-- The trace after `n` polls: the old trace followed by `n` reads of the register. -/
theorem afterReads_trace {σ : Type} (b : Bus σ) (h : vl53x) (reg : Nat) (n : Nat) :
    ∀ w : World σ, ∃ l : List Ev, (afterReads b h reg n w).trace = w.trace ++ l ∧
      l.length = n ∧ ∀ e ∈ l, e.isReadOf (reg % 256) = true := by
  induction n with
  | zero => intro w; exact ⟨[], by simp [afterReads], rfl, by simp⟩
  | succ n ih =>
    intro w
    obtain ⟨l, hl, hlen, hall⟩ := ih (readReg b h w reg).2
    refine ⟨Ev.read h.iic_index h.baseAddr (reg % 256) 1
      (b.iic_read_register w.dev h.iic_index h.baseAddr (reg % 256) 1).2.1
      (b.iic_read_register w.dev h.iic_index h.baseAddr (reg % 256) 1).1 :: l, ?_, ?_, ?_⟩
    · rw [afterReads, hl]
      simp [readReg]
    · simp [hlen]
    · intro e he
      rcases List.mem_cons.1 he with rfl | he
      · simp [Ev.isReadOf]
      · exact hall e he

/-- The start-bit loop leaves normally at the first poll that reads bit 0 clear, provided
that poll is among the first 51. -/
theorem startBitLoop_clear {σ : Type} (b : Bus σ) (h : vl53x) (n : Nat) :
    ∀ (i : Nat) (w : World σ), i + n ≤ 50 →
      (∀ j, j < n → pollValue b h VL53L0X_SYSRANGE_START w (j + 1) &&& 0x01 ≠ 0) →
      pollValue b h VL53L0X_SYSRANGE_START w (n + 1) &&& 0x01 = 0 →
      startBitLoop b h i w = (false, afterReads b h VL53L0X_SYSRANGE_START (n + 1) w) := by
  induction n with
  | zero =>
    intro i w _ _ hclear
    rw [startBitLoop]
    simp only [pollValue, Nat.add_sub_cancel, afterReads] at hclear
    simp [hclear, afterReads]
  | succ n ih =>
    intro i w hi hbusy hclear
    have h0 := hbusy 0 (by omega)
    simp only [pollValue, Nat.zero_add, Nat.sub_self, afterReads] at h0
    rw [startBitLoop]
    have hlt : ¬ (i + 1 > 50) := by omega
    simp only [ne_eq, h0, not_false_eq_true, if_true, hlt, dite_false]
    rw [ih (i + 1) _ (by omega)]
    · rfl
    · intro j hj
      rw [pollValue_shift]
      exact hbusy (j + 1) (by omega)
    · rw [pollValue_shift]
      exact hclear

/-- The interrupt loop of `readRangeContinuousMillimeters` leaves normally at the first
poll whose low three bits are non-zero, provided that poll is among the first 51. -/
theorem readRangeLoop_ready {σ : Type} (b : Bus σ) (h : vl53x) (n : Nat) :
    ∀ (i : Nat) (w : World σ), i + n ≤ 50 →
      (∀ j, j < n → pollValue b h VL53L0X_RESULT_INTERRUPT_STATUS w (j + 1) &&& 0x07 = 0) →
      pollValue b h VL53L0X_RESULT_INTERRUPT_STATUS w (n + 1) &&& 0x07 ≠ 0 →
      readRangeLoop b h i w =
        (false, afterReads b h VL53L0X_RESULT_INTERRUPT_STATUS (n + 1) w) := by
  induction n with
  | zero =>
    intro i w _ _ hready
    rw [readRangeLoop]
    simp only [pollValue, Nat.add_sub_cancel, afterReads] at hready
    simp [hready, afterReads]
  | succ n ih =>
    intro i w hi hidle hready
    have h0 := hidle 0 (by omega)
    simp only [pollValue, Nat.zero_add, Nat.sub_self, afterReads] at h0
    rw [readRangeLoop]
    have hlt : ¬ (i + 1 > 50) := by omega
    simp only [h0, if_true, hlt, dite_false]
    rw [ih (i + 1) _ (by omega)]
    · rfl
    · intro j hj
      rw [pollValue_shift]
      exact hidle (j + 1) (by omega)
    · rw [pollValue_shift]
      exact hready

/-- The interrupt loop of `readRangeContinuousMillimeters`, entered with counter `i`,
gives up only after `51 - i` polls that all read zero in the low three bits. -/
theorem readRangeLoop_timeout {σ : Type} (b : Bus σ) (h : vl53x) (n : Nat) :
    ∀ (i : Nat) (w : World σ), i + n = 50 →
      (∀ j, j < n + 1 → pollValue b h VL53L0X_RESULT_INTERRUPT_STATUS w (j + 1) &&& 0x07 = 0) →
      readRangeLoop b h i w =
        (true, afterReads b h VL53L0X_RESULT_INTERRUPT_STATUS (n + 1) w) := by
  induction n with
  | zero =>
    intro i w hi hidle
    have h0 := hidle 0 (by omega)
    simp only [pollValue, Nat.zero_add, Nat.sub_self, afterReads] at h0
    rw [readRangeLoop]
    have hlt : i + 1 > 50 := by omega
    simp [h0, hlt, afterReads]
  | succ n ih =>
    intro i w hi hidle
    have h0 := hidle 0 (by omega)
    simp only [pollValue, Nat.zero_add, Nat.sub_self, afterReads] at h0
    rw [readRangeLoop]
    have hlt : ¬ (i + 1 > 50) := by omega
    simp only [h0, if_true, hlt, dite_false]
    rw [ih (i + 1) _ (by omega)]
    · rfl
    · intro j hj
      rw [pollValue_shift]
      exact hidle (j + 1) (by omega)

/-! ## Ranging -/

theorem newEvents_append {σ : Type} (w w1 : World σ) (l : List Ev)
    (h : w1.trace = w.trace ++ l) : newEvents w w1 = l := by
  simp [newEvents, h]

/-- The opening writes of `tofReadDistance` add eight write events, none of them to the
interrupt-clear register. -/
theorem tofStartWrites_trace {σ : Type} (b : Bus σ) (sensor : vl53x) (w : World σ) :
    ∃ l : List Ev, (tofStartWrites b sensor w).trace = w.trace ++ l ∧
      l.filter (Ev.isWriteTo VL53L0X_SYSTEM_INTERRUPT_CLEAR) = [] ∧
      l.filter (Ev.isReadOf VL53L0X_RESULT_INTERRUPT_STATUS) = [] := by
  refine ⟨(tofStartWrites b sensor w).trace.drop w.trace.length, ?_, ?_, ?_⟩
  · simp [tofStartWrites, writeReg]
  · simp [tofStartWrites, writeReg, Ev.isWriteTo, VL53L0X_SYSTEM_INTERRUPT_CLEAR,
      VL53L0X_SYSRANGE_START]
  · simp [tofStartWrites, writeReg, Ev.isReadOf]

theorem filter_isWriteTo_reads (reg r : Nat) (l : List Ev)
    (h : ∀ e ∈ l, e.isReadOf r = true) : l.filter (Ev.isWriteTo reg) = [] := by
  rw [List.filter_eq_nil_iff]
  intro e he
  simp [Ev.isWriteTo_of_not_isWrite (Ev.isWrite_of_isReadOf (h e he))]

/-- C1. For every bus behaviour in which the start bit first reads clear on poll `m`
(1 ≤ m ≤ 50) and the interrupt-status register, masked to its low 3 bits, first reads
non-zero on poll `k` (1 ≤ k ≤ 50), `tofReadDistance` returns the 16-bit big-endian value
the bus delivers for the two-byte read at range-status + 10, and the call issues exactly
one write to the interrupt-clear register, with value `0x01`. -/
theorem measure_returns_distance {σ : Type} (b : Bus σ) (sensor : vl53x) (w : World σ)
    (m k : Nat) (hm1 : 1 ≤ m) (hm : m ≤ 50) (hk1 : 1 ≤ k) (hk : k ≤ 50)
    (hbusy : ∀ j, 1 ≤ j → j < m →
      pollValue b sensor VL53L0X_SYSRANGE_START (tofStartWrites b sensor w) j &&& 0x01 ≠ 0)
    (hclear :
      pollValue b sensor VL53L0X_SYSRANGE_START (tofStartWrites b sensor w) m &&& 0x01 = 0)
    (hidle : ∀ j, 1 ≤ j → j < k →
      pollValue b sensor VL53L0X_RESULT_INTERRUPT_STATUS
        (afterReads b sensor VL53L0X_SYSRANGE_START m (tofStartWrites b sensor w)) j
        &&& 0x07 = 0)
    (hready :
      pollValue b sensor VL53L0X_RESULT_INTERRUPT_STATUS
        (afterReads b sensor VL53L0X_SYSRANGE_START m (tofStartWrites b sensor w)) k
        &&& 0x07 ≠ 0) :
    (tofReadDistance b sensor w).1 =
      ((b.iic_read_register
          (afterReads b sensor VL53L0X_RESULT_INTERRUPT_STATUS k
            (afterReads b sensor VL53L0X_SYSRANGE_START m (tofStartWrites b sensor w))).dev
          sensor.iic_index sensor.baseAddr (VL53L0X_RESULT_RANGE_STATUS + 10) 2).2.1.getD 0 0
        % 256) * 256 +
      (b.iic_read_register
          (afterReads b sensor VL53L0X_RESULT_INTERRUPT_STATUS k
            (afterReads b sensor VL53L0X_SYSRANGE_START m (tofStartWrites b sensor w))).dev
          sensor.iic_index sensor.baseAddr (VL53L0X_RESULT_RANGE_STATUS + 10) 2).2.1.getD 1 0
        % 256 ∧
    ((newEvents w (tofReadDistance b sensor w).2).filter
        (Ev.isWriteTo VL53L0X_SYSTEM_INTERRUPT_CLEAR)).map Ev.payload = [[0x01]] := by
  obtain ⟨m, rfl⟩ : ∃ m0, m = m0 + 1 := ⟨m - 1, by omega⟩
  obtain ⟨k, rfl⟩ : ∃ k0, k = k0 + 1 := ⟨k - 1, by omega⟩
  have hS := startBitLoop_clear b sensor m 0 (tofStartWrites b sensor w) (by omega)
    (fun j hj => hbusy (j + 1) (by omega) (by omega)) hclear
  have hR := readRangeLoop_ready b sensor k 0
    (afterReads b sensor VL53L0X_SYSRANGE_START (m + 1) (tofStartWrites b sensor w))
    (by omega) (fun j hj => hidle (j + 1) (by omega) (by omega)) hready
  obtain ⟨l0, hl0, hl0w, _⟩ := tofStartWrites_trace b sensor w
  obtain ⟨l1, hl1, _, hl1r⟩ := afterReads_trace b sensor VL53L0X_SYSRANGE_START (m + 1)
    (tofStartWrites b sensor w)
  obtain ⟨l2, hl2, _, hl2r⟩ := afterReads_trace b sensor VL53L0X_RESULT_INTERRUPT_STATUS
    (k + 1) (afterReads b sensor VL53L0X_SYSRANGE_START (m + 1) (tofStartWrites b sensor w))
  have hval : tofReadDistance b sensor w = readRangeContinuousMillimeters b sensor
      (afterReads b sensor VL53L0X_SYSRANGE_START (m + 1) (tofStartWrites b sensor w)) := by
    simp only [tofReadDistance, hS]
    simp
  rw [hval]
  simp only [readRangeContinuousMillimeters, hR]
  constructor
  · simp only [Bool.false_eq_true, if_false, readReg16]
    have h256 : (VL53L0X_RESULT_RANGE_STATUS + 10) % 256 = VL53L0X_RESULT_RANGE_STATUS + 10 := by
      decide
    rw [h256, Nat.shiftLeft_eq]
    apply Nat.mod_eq_of_lt
    have h1 := Nat.mod_lt ((b.iic_read_register
      (afterReads b sensor VL53L0X_RESULT_INTERRUPT_STATUS (k + 1)
        (afterReads b sensor VL53L0X_SYSRANGE_START (m + 1) (tofStartWrites b sensor w))).dev
      sensor.iic_index sensor.baseAddr (VL53L0X_RESULT_RANGE_STATUS + 10) 2).2.1.getD 0 0)
      (by decide : 256 > 0)
    have h2 := Nat.mod_lt ((b.iic_read_register
      (afterReads b sensor VL53L0X_RESULT_INTERRUPT_STATUS (k + 1)
        (afterReads b sensor VL53L0X_SYSRANGE_START (m + 1) (tofStartWrites b sensor w))).dev
      sensor.iic_index sensor.baseAddr (VL53L0X_RESULT_RANGE_STATUS + 10) 2).2.1.getD 1 0)
      (by decide : 256 > 0)
    omega
  · simp only [Bool.false_eq_true, if_false]
    simp only [newEvents, writeReg, readReg16, hl2, hl1, hl0, List.append_assoc,
      List.drop_left, List.filter_append, hl0w, filter_isWriteTo_reads _ _ l1 hl1r,
      filter_isWriteTo_reads _ _ l2 hl2r, List.nil_append]
    simp [Ev.isWriteTo, Ev.payload, VL53L0X_SYSTEM_INTERRUPT_CLEAR]

/-- Witness for C1: the interrupt-status register reads `0x00` for 49 polls and `0x01` on
the 50th, the distance bytes are `0x01 0x90`; the reading is 400 and the only
interrupt-clear write carries `0x01`. -/
theorem measure_returns_distance_witness :
    (tofReadDistance (scriptedBus 49 0x01 0x90) sampleHandle ⟨0, []⟩).1 = 400 ∧
    ((newEvents ⟨0, []⟩
        (tofReadDistance (scriptedBus 49 0x01 0x90) sampleHandle ⟨0, []⟩).2).filter
      (Ev.isWriteTo VL53L0X_SYSTEM_INTERRUPT_CLEAR)).map Ev.payload = [[0x01]] :=
  have h := measure_returns_distance (scriptedBus 49 0x01 0x90) sampleHandle ⟨0, []⟩ 1 50
    (by decide) (by decide) (by decide) (by decide)
    (by intro j h1 h2; omega) (by decide) (by decide) (by decide)
  ⟨h.1.trans (by decide), h.2⟩

theorem Ev.isReadOf_ne {r r1 : Nat} {e : Ev} (h : e.isReadOf r = true) (hne : r ≠ r1) :
    e.isReadOf r1 = false := by
  cases e <;> simp_all [Ev.isReadOf]

theorem filter_isReadOf_other (r r1 : Nat) (l : List Ev) (hne : r ≠ r1)
    (h : ∀ e ∈ l, e.isReadOf r = true) : l.filter (Ev.isReadOf r1) = [] := by
  rw [List.filter_eq_nil_iff]
  intro e he
  simp [Ev.isReadOf_ne (h e he) hne]

theorem filter_isReadOf_same (r : Nat) (l : List Ev)
    (h : ∀ e ∈ l, e.isReadOf r = true) : l.filter (Ev.isReadOf r) = l := by
  rw [List.filter_eq_self]
  exact h

/-- What `tofReadDistance` does when the start bit clears on poll `m` (at most the 51st)
and the interrupt-status register reads zero in its low three bits on each of 51 polls:
it returns 65535, has read the interrupt-status register 51 times, and everything it put
on the bus after the opening writes is a read. -/
theorem tofReadDistance_interrupt_timeout {σ : Type} (b : Bus σ) (sensor : vl53x)
    (w : World σ) (m : Nat) (hm1 : 1 ≤ m) (hm : m ≤ 51)
    (hbusy : ∀ j, 1 ≤ j → j < m →
      pollValue b sensor VL53L0X_SYSRANGE_START (tofStartWrites b sensor w) j &&& 0x01 ≠ 0)
    (hclear :
      pollValue b sensor VL53L0X_SYSRANGE_START (tofStartWrites b sensor w) m &&& 0x01 = 0)
    (hidle : ∀ j, 1 ≤ j → j ≤ 51 →
      pollValue b sensor VL53L0X_RESULT_INTERRUPT_STATUS
        (afterReads b sensor VL53L0X_SYSRANGE_START m (tofStartWrites b sensor w)) j
        &&& 0x07 = 0) :
    (tofReadDistance b sensor w).1 = 65535 ∧
    ((newEvents w (tofReadDistance b sensor w).2).filter
      (Ev.isReadOf VL53L0X_RESULT_INTERRUPT_STATUS)).length = 51 ∧
    ∃ l : List Ev, (tofReadDistance b sensor w).2.trace =
        (tofStartWrites b sensor w).trace ++ l ∧ ∀ e ∈ l, e.isWrite = false := by
  obtain ⟨m, rfl⟩ : ∃ m0, m = m0 + 1 := ⟨m - 1, by omega⟩
  have hS := startBitLoop_clear b sensor m 0 (tofStartWrites b sensor w) (by omega)
    (fun j hj => hbusy (j + 1) (by omega) (by omega)) hclear
  have hR := readRangeLoop_timeout b sensor 50 0
    (afterReads b sensor VL53L0X_SYSRANGE_START (m + 1) (tofStartWrites b sensor w))
    (by omega) (fun j hj => hidle (j + 1) (by omega) (by omega))
  obtain ⟨l0, hl0, _, hl0r⟩ := tofStartWrites_trace b sensor w
  obtain ⟨l1, hl1, _, hl1r⟩ := afterReads_trace b sensor VL53L0X_SYSRANGE_START (m + 1)
    (tofStartWrites b sensor w)
  obtain ⟨l2, hl2, hlen2, hl2r⟩ := afterReads_trace b sensor VL53L0X_RESULT_INTERRUPT_STATUS
    51 (afterReads b sensor VL53L0X_SYSRANGE_START (m + 1) (tofStartWrites b sensor w))
  have hval : tofReadDistance b sensor w = (65535,
      afterReads b sensor VL53L0X_RESULT_INTERRUPT_STATUS 51
        (afterReads b sensor VL53L0X_SYSRANGE_START (m + 1) (tofStartWrites b sensor w))) := by
    simp only [tofReadDistance, hS, readRangeContinuousMillimeters, hR]
    simp
  rw [hval]
  refine ⟨rfl, ?_, l1 ++ l2, ?_, ?_⟩
  · simp only [newEvents, hl2, hl1, hl0, List.append_assoc, List.drop_left,
      List.filter_append, hl0r]
    have h13 : VL53L0X_RESULT_INTERRUPT_STATUS % 256 = VL53L0X_RESULT_INTERRUPT_STATUS := by
      decide
    rw [h13] at hl2r
    rw [filter_isReadOf_other _ _ l1 (by decide) hl1r, filter_isReadOf_same _ l2 hl2r]
    simpa using hlen2
  · simp only [hl2, hl1, List.append_assoc]
  · intro e he
    rcases List.mem_append.1 he with he | he
    · exact Ev.isWrite_of_isReadOf (hl1r e he)
    · exact Ev.isWrite_of_isReadOf (hl2r e he)

/-- C2 (the code at the failing input). On a device whose interrupt-status register reads
`0x00` on every poll, `tofReadDistance` returns the 65535 sentinel after reading the
interrupt-status register 51 times, not 50. -/
theorem measure_timeout_reads_51_times :
    (tofReadDistance silentBus sampleHandle ⟨(), []⟩).1 = 65535 ∧
    ((newEvents ⟨(), []⟩ (tofReadDistance silentBus sampleHandle ⟨(), []⟩).2).filter
      (Ev.isReadOf VL53L0X_RESULT_INTERRUPT_STATUS)).length = 51 :=
  have h := tofReadDistance_interrupt_timeout silentBus sampleHandle ⟨(), []⟩ 1
    (by decide) (by decide) (by intro j h1 h2; omega) (by decide) (by decide)
  ⟨h.1, h.2.1⟩

/-! ## Sequence step model and timing budget -/

theorem timeoutMclksToMicroseconds_le (t p : Nat) :
    timeoutMclksToMicroseconds t p ≤ 4294967 := by
  unfold timeoutMclksToMicroseconds
  simp only
  omega

/-- Reading the sequence step timeouts only reads. -/
theorem getSequenceStepTimeouts_trace {σ : Type} (b : Bus σ) (h : vl53x) (w : World σ)
    (enables : Nat) :
    ∃ l : List Ev, (getSequenceStepTimeouts b h w enables).2.trace = w.trace ++ l ∧
      l.filter Ev.isWrite = [] := by
  refine ⟨(getSequenceStepTimeouts b h w enables).2.trace.drop w.trace.length, ?_, ?_⟩
  · simp [getSequenceStepTimeouts, readReg, readReg16]
  · simp [getSequenceStepTimeouts, readReg, readReg16, Ev.isWrite]

theorem getSequenceStepTimeouts_us_le {σ : Type} (b : Bus σ) (h : vl53x) (w : World σ)
    (enables : Nat) :
    (getSequenceStepTimeouts b h w enables).1.msrc_dss_tcc_us ≤ 4294967 ∧
    (getSequenceStepTimeouts b h w enables).1.pre_range_us ≤ 4294967 ∧
    (getSequenceStepTimeouts b h w enables).1.final_range_us ≤ 4294967 := by
  simp only [getSequenceStepTimeouts]
  exact ⟨timeoutMclksToMicroseconds_le _ _, timeoutMclksToMicroseconds_le _ _,
    timeoutMclksToMicroseconds_le _ _⟩

/-- With step durations in the range `timeoutMclksToMicroseconds` produces, the 32-bit
accumulation of the source never wraps and equals the spec's formula. -/
theorem usedBudget_eq_spec (enables : Nat) (t : SequenceStepTimeouts)
    (h1 : t.msrc_dss_tcc_us ≤ 4294967) (h2 : t.pre_range_us ≤ 4294967) :
    (usedBudgetBeforeFinal enables t + 550) % 4294967296 = specUsedBudget enables t := by
  unfold usedBudgetBeforeFinal specUsedBudget
  simp only
  split_ifs <;> omega

/-- C3. For every bus, handle and `budget_us < 20000`, `setMeasurementTimingBudget`
returns failure, puts nothing on the bus (in particular no register write) and leaves the
handle, with its cached budget, as it was. -/
theorem applyBudget_rejects_below_minimum {σ : Type} (b : Bus σ) (h : vl53x) (w : World σ)
    (budget_us : Nat) (hlow : budget_us < 20000) :
    (setMeasurementTimingBudget b h w budget_us).1 = some 0 ∧
    newEvents w (setMeasurementTimingBudget b h w budget_us).2.2 = [] ∧
    newWrites w (setMeasurementTimingBudget b h w budget_us).2.2 = [] ∧
    (setMeasurementTimingBudget b h w budget_us).2.1.measurement_timing_budget_us =
      h.measurement_timing_budget_us := by
  have hmod : budget_us % 4294967296 < 20000 := by omega
  simp [setMeasurementTimingBudget, hmod, newEvents, newWrites, writesOf]

/-- Witness for C3: a budget of 19999 microseconds on the register file of all zeros. -/
theorem applyBudget_rejects_below_minimum_witness :
    (setMeasurementTimingBudget regBus sampleHandle ⟨fun _ => 0, []⟩ 19999).1 = some 0 ∧
    newEvents ⟨fun _ => 0, []⟩
      (setMeasurementTimingBudget regBus sampleHandle ⟨fun _ => 0, []⟩ 19999).2.2 = [] ∧
    newWrites ⟨fun _ => 0, []⟩
      (setMeasurementTimingBudget regBus sampleHandle ⟨fun _ => 0, []⟩ 19999).2.2 = [] ∧
    (setMeasurementTimingBudget regBus sampleHandle
      ⟨fun _ => 0, []⟩ 19999).2.1.measurement_timing_budget_us = 33000 :=
  applyBudget_rejects_below_minimum regBus sampleHandle ⟨fun _ => 0, []⟩ 19999 (by decide)

/-- C4. For every bus behaviour in which the sequence configuration reads with the
final-range bit set, and every `budget_us >= 20000` strictly below the accumulated
overhead of the enabled steps (the fixed 550 of final-range included), the call returns
failure, issues no register write and leaves the cached budget unchanged. -/
theorem applyBudget_budget_exceeded {σ : Type} (b : Bus σ) (h : vl53x) (w : World σ)
    (budget_us : Nat) (hmin : 20000 ≤ budget_us)
    (hfinal : (readReg b h w VL53L0X_SYSTEM_SEQUENCE_CONFIG).1
      &&& VL53L0X_SEQUENCE_ENABLE_FINAL_RANGE ≠ 0)
    (hover : specUsedBudget (readReg b h w VL53L0X_SYSTEM_SEQUENCE_CONFIG).1
        (getSequenceStepTimeouts b h (readReg b h w VL53L0X_SYSTEM_SEQUENCE_CONFIG).2
          (readReg b h w VL53L0X_SYSTEM_SEQUENCE_CONFIG).1).1 > budget_us) :
    (setMeasurementTimingBudget b h w budget_us).1 = some 0 ∧
    newWrites w (setMeasurementTimingBudget b h w budget_us).2.2 = [] ∧
    (setMeasurementTimingBudget b h w budget_us).2.1.measurement_timing_budget_us =
      h.measurement_timing_budget_us := by
  obtain ⟨hu1, hu2, _⟩ := getSequenceStepTimeouts_us_le b h
    (readReg b h w VL53L0X_SYSTEM_SEQUENCE_CONFIG).2
    (readReg b h w VL53L0X_SYSTEM_SEQUENCE_CONFIG).1
  have hspec := usedBudget_eq_spec (readReg b h w VL53L0X_SYSTEM_SEQUENCE_CONFIG).1 _ hu1 hu2
  have hlt : specUsedBudget (readReg b h w VL53L0X_SYSTEM_SEQUENCE_CONFIG).1
      (getSequenceStepTimeouts b h (readReg b h w VL53L0X_SYSTEM_SEQUENCE_CONFIG).2
        (readReg b h w VL53L0X_SYSTEM_SEQUENCE_CONFIG).1).1 < 4294967296 := by
    rw [← hspec]; exact Nat.mod_lt _ (by decide)
  have hb : budget_us % 4294967296 = budget_us := Nat.mod_eq_of_lt (by omega)
  obtain ⟨l, hl, hlw⟩ := getSequenceStepTimeouts_trace b h
    (readReg b h w VL53L0X_SYSTEM_SEQUENCE_CONFIG).2
    (readReg b h w VL53L0X_SYSTEM_SEQUENCE_CONFIG).1
  have hnot : ¬ budget_us < 20000 := by omega
  simp only [setMeasurementTimingBudget, hb, hnot, if_false, hfinal, ne_eq, not_false_eq_true,
    if_true, hspec, hover, newWrites, writesOf, newEvents, hl]
  refine ⟨trivial, ?_, trivial⟩
  simp [readReg, List.filter_append, hlw, Ev.isWrite]

/-- Witness for C4: with the pre-range timeout at 65281 macro-clocks the overhead is far
above a budget of 20000 microseconds. -/
theorem applyBudget_budget_exceeded_witness :
    (setMeasurementTimingBudget regBus sampleHandle ⟨slowPreRangeRegs, []⟩ 20000).1 = some 0 ∧
    newWrites ⟨slowPreRangeRegs, []⟩
      (setMeasurementTimingBudget regBus sampleHandle ⟨slowPreRangeRegs, []⟩ 20000).2.2 = [] ∧
    (setMeasurementTimingBudget regBus sampleHandle
      ⟨slowPreRangeRegs, []⟩ 20000).2.1.measurement_timing_budget_us = 33000 :=
  applyBudget_budget_exceeded regBus sampleHandle ⟨slowPreRangeRegs, []⟩ 20000
    (by decide) (by decide) (by decide)

theorem encodeTimeout_lt (x : Nat) : encodeTimeout x < 65536 := by
  unfold encodeTimeout
  split_ifs
  · exact Nat.mod_lt _ (by decide)
  · decide

theorem encodeTimeout_mod (x : Nat) : encodeTimeout (x % 65536) = encodeTimeout x := by
  simp [encodeTimeout, Nat.mod_mod]

/-- Truncating the converted count to 16 bits before adding, and the sum again, is
invisible to `encodeTimeout`, whose parameter is 16 bits wide. -/
theorem encodeTimeout_add_mod (T P : Nat) :
    encodeTimeout ((T % 65536 + P) % 65536) = encodeTimeout (T + P) := by
  rw [encodeTimeout_mod, ← encodeTimeout_mod (T % 65536 + P), ← encodeTimeout_mod (T + P)]
  have h : (T % 65536 + P) % 65536 = (T + P) % 65536 := by omega
  rw [h]

/-- The two bytes `writeReg16` puts on the bus for the result of `encodeTimeout`. -/
theorem writeReg16_encodeTimeout_bytes (x : Nat) :
    [((encodeTimeout x % 65536) >>> 8) % 256, (encodeTimeout x % 65536) % 256] =
      [encodeTimeout x / 256, encodeTimeout x % 256] := by
  have h := encodeTimeout_lt x
  rw [Nat.shiftRight_eq_div_pow]
  simp only [List.cons.injEq, and_true]
  constructor <;> omega

/-- C5 (the code at the failing input). With the final-range period register at `0x7f`
the register state has final-range enabled and the overhead (17067) fits the budget of
33000, yet the call does not return success and writes nothing: the conversion to
macro-clocks divides by a macro period of zero and the call traps. -/
theorem applyBudget_success_path_traps :
    (readReg regBus sampleHandle ⟨zeroPeriodRegs, []⟩ VL53L0X_SYSTEM_SEQUENCE_CONFIG).1
      &&& VL53L0X_SEQUENCE_ENABLE_FINAL_RANGE ≠ 0 ∧
    specUsedBudget
      (readReg regBus sampleHandle ⟨zeroPeriodRegs, []⟩ VL53L0X_SYSTEM_SEQUENCE_CONFIG).1
      (getSequenceStepTimeouts regBus sampleHandle
        (readReg regBus sampleHandle ⟨zeroPeriodRegs, []⟩ VL53L0X_SYSTEM_SEQUENCE_CONFIG).2
        (readReg regBus sampleHandle ⟨zeroPeriodRegs, []⟩ VL53L0X_SYSTEM_SEQUENCE_CONFIG).1).1
      ≤ 33000 ∧
    (setMeasurementTimingBudget regBus sampleHandle ⟨zeroPeriodRegs, []⟩ 33000).1 ≠ some 1 ∧
    (setMeasurementTimingBudget regBus sampleHandle ⟨zeroPeriodRegs, []⟩ 33000).1 = none ∧
    newWrites ⟨zeroPeriodRegs, []⟩
      (setMeasurementTimingBudget regBus sampleHandle ⟨zeroPeriodRegs, []⟩ 33000).2.2 = [] := by
  decide

theorem readReg_trace {σ : Type} (b : Bus σ) (h : vl53x) (w : World σ) (a : Nat) :
    (readReg b h w a).2.trace = w.trace ++
      [Ev.read h.iic_index h.baseAddr (a % 256) 1
        (b.iic_read_register w.dev h.iic_index h.baseAddr (a % 256) 1).2.1
        (b.iic_read_register w.dev h.iic_index h.baseAddr (a % 256) 1).1] := rfl

/-- A 16-bit register write that follows only reads is the single write of the call. -/
theorem newWrites_writeReg16 {σ : Type} (b : Bus σ) (h : vl53x) (w w1 : World σ)
    (a v : Nat) (l : List Ev) (hl : w1.trace = w.trace ++ l)
    (hlw : l.filter Ev.isWrite = []) :
    newWrites w (writeReg16 b h w1 a v) =
      [(a % 256, [((v % 65536) >>> 8) % 256, (v % 65536) % 256])] := by
  simp [newWrites, writesOf, newEvents, writeReg16, hl, List.filter_append, hlw, Ev.isWrite,
    Ev.target, Ev.payload]

theorem timeoutMicrosecondsToMclks_isSome (us p : Nat)
    (hmp : calcMacroPeriod (p % 256) ≠ 0) :
    ∃ T, timeoutMicrosecondsToMclks us p = some T := by
  unfold timeoutMicrosecondsToMclks
  simp only [hmp, if_false]
  exact ⟨_, rfl⟩

/-- The success path where the division is defined. For every bus behaviour in which the
sequence configuration reads with
the final-range bit set and the final-range period read back has a non-zero macro period,
and every 32-bit `budget_us >= 20000` with `used <= budget_us` (`used` the spec's overhead
formula), the call makes exactly one register write, to the final-range timeout register,
of `encodeTimeout (T + P)` (high byte first) with `T` the macro-clock conversion of
`budget_us - used` at the current final-range period and `P` the pre-range macro-clock
timeout if pre-range is enabled, else 0; it caches `budget_us` and returns success. -/
theorem applyBudget_success {σ : Type} (b : Bus σ) (h : vl53x) (w : World σ)
    (budget_us : Nat) (hmin : 20000 ≤ budget_us) (h32 : budget_us < 4294967296)
    (hfinal : (readReg b h w VL53L0X_SYSTEM_SEQUENCE_CONFIG).1
      &&& VL53L0X_SEQUENCE_ENABLE_FINAL_RANGE ≠ 0)
    (hfit : specUsedBudget (readReg b h w VL53L0X_SYSTEM_SEQUENCE_CONFIG).1
        (getSequenceStepTimeouts b h (readReg b h w VL53L0X_SYSTEM_SEQUENCE_CONFIG).2
          (readReg b h w VL53L0X_SYSTEM_SEQUENCE_CONFIG).1).1 ≤ budget_us)
    (hmp : calcMacroPeriod
        ((getSequenceStepTimeouts b h (readReg b h w VL53L0X_SYSTEM_SEQUENCE_CONFIG).2
          (readReg b h w VL53L0X_SYSTEM_SEQUENCE_CONFIG).1).1.final_range_vcsel_period_pclks
          % 256) ≠ 0) :
    ∃ T,
      timeoutMicrosecondsToMclks
        (budget_us - specUsedBudget (readReg b h w VL53L0X_SYSTEM_SEQUENCE_CONFIG).1
          (getSequenceStepTimeouts b h (readReg b h w VL53L0X_SYSTEM_SEQUENCE_CONFIG).2
            (readReg b h w VL53L0X_SYSTEM_SEQUENCE_CONFIG).1).1)
        (getSequenceStepTimeouts b h (readReg b h w VL53L0X_SYSTEM_SEQUENCE_CONFIG).2
          (readReg b h w VL53L0X_SYSTEM_SEQUENCE_CONFIG).1).1.final_range_vcsel_period_pclks
        = some T ∧
      (setMeasurementTimingBudget b h w budget_us).1 = some 1 ∧
      newWrites w (setMeasurementTimingBudget b h w budget_us).2.2 =
        [(VL53L0X_FINAL_RANGE_CONFIG_TIMEOUT_MACROP_HI,
          [encodeTimeout (T +
              (if (readReg b h w VL53L0X_SYSTEM_SEQUENCE_CONFIG).1
                  &&& VL53L0X_SEQUENCE_ENABLE_PRE_RANGE ≠ 0
               then (getSequenceStepTimeouts b h
                 (readReg b h w VL53L0X_SYSTEM_SEQUENCE_CONFIG).2
                 (readReg b h w VL53L0X_SYSTEM_SEQUENCE_CONFIG).1).1.pre_range_mclks
               else 0)) / 256,
           encodeTimeout (T +
              (if (readReg b h w VL53L0X_SYSTEM_SEQUENCE_CONFIG).1
                  &&& VL53L0X_SEQUENCE_ENABLE_PRE_RANGE ≠ 0
               then (getSequenceStepTimeouts b h
                 (readReg b h w VL53L0X_SYSTEM_SEQUENCE_CONFIG).2
                 (readReg b h w VL53L0X_SYSTEM_SEQUENCE_CONFIG).1).1.pre_range_mclks
               else 0)) % 256])] ∧
      (setMeasurementTimingBudget b h w budget_us).2.1.measurement_timing_budget_us =
        budget_us := by
  obtain ⟨hu1, hu2, _⟩ := getSequenceStepTimeouts_us_le b h
    (readReg b h w VL53L0X_SYSTEM_SEQUENCE_CONFIG).2
    (readReg b h w VL53L0X_SYSTEM_SEQUENCE_CONFIG).1
  have hspec := usedBudget_eq_spec (readReg b h w VL53L0X_SYSTEM_SEQUENCE_CONFIG).1 _ hu1 hu2
  have hb : budget_us % 4294967296 = budget_us := Nat.mod_eq_of_lt h32
  obtain ⟨l, hl, hlw⟩ := getSequenceStepTimeouts_trace b h
    (readReg b h w VL53L0X_SYSTEM_SEQUENCE_CONFIG).2
    (readReg b h w VL53L0X_SYSTEM_SEQUENCE_CONFIG).1
  obtain ⟨T, hT⟩ := timeoutMicrosecondsToMclks_isSome
    (budget_us - specUsedBudget (readReg b h w VL53L0X_SYSTEM_SEQUENCE_CONFIG).1
      (getSequenceStepTimeouts b h (readReg b h w VL53L0X_SYSTEM_SEQUENCE_CONFIG).2
        (readReg b h w VL53L0X_SYSTEM_SEQUENCE_CONFIG).1).1) _ hmp
  have hnot : ¬ budget_us < 20000 := by omega
  have hnot2 : ¬ specUsedBudget (readReg b h w VL53L0X_SYSTEM_SEQUENCE_CONFIG).1
      (getSequenceStepTimeouts b h (readReg b h w VL53L0X_SYSTEM_SEQUENCE_CONFIG).2
        (readReg b h w VL53L0X_SYSTEM_SEQUENCE_CONFIG).1).1 > budget_us := by omega
  refine ⟨T, hT, ?_⟩
  simp only [setMeasurementTimingBudget, hb, hnot, if_false, hfinal, ne_eq, not_false_eq_true,
    if_true, hspec, hnot2, hT]
  refine ⟨trivial, ?_, trivial⟩
  have hv : encodeTimeout
      (if (readReg b h w VL53L0X_SYSTEM_SEQUENCE_CONFIG).1
          &&& VL53L0X_SEQUENCE_ENABLE_PRE_RANGE = 0 then T % 65536
       else (T % 65536 + (getSequenceStepTimeouts b h
          (readReg b h w VL53L0X_SYSTEM_SEQUENCE_CONFIG).2
          (readReg b h w VL53L0X_SYSTEM_SEQUENCE_CONFIG).1).1.pre_range_mclks) % 65536) =
      encodeTimeout (T +
        (if (readReg b h w VL53L0X_SYSTEM_SEQUENCE_CONFIG).1
            &&& VL53L0X_SEQUENCE_ENABLE_PRE_RANGE = 0 then 0
         else (getSequenceStepTimeouts b h
          (readReg b h w VL53L0X_SYSTEM_SEQUENCE_CONFIG).2
          (readReg b h w VL53L0X_SYSTEM_SEQUENCE_CONFIG).1).1.pre_range_mclks)) := by
    split_ifs
    · rw [encodeTimeout_mod, Nat.add_zero]
    · exact encodeTimeout_add_mod T _
  simp only [ite_not, hv]
  rw [newWrites_writeReg16 b h w _ _ _ _
    ((hl.trans (by rw [readReg_trace, List.append_assoc])))
    (by simp [List.filter_append, hlw, Ev.isWrite]),
    writeReg16_encodeTimeout_bytes]
  rfl

theorem encodeTimeout_569 : encodeTimeout 569 = 0x028E := by
  obtain ⟨e, he, hlt, henc, _, _, hmin⟩ := encodeTimeout_spec 569 (by decide) (by decide)
  have he2 : e = 2 := by
    interval_cases e <;> simp_all
  subst he2
  simpa using henc

/-- An instance of `applyBudget_success`: the tuned register file and a budget of 33000
microseconds;
the overhead is 17067, the remaining 15933 microseconds are 418 macro-clocks at period
10, and with the pre-range timeout of 151 the register receives `encodeTimeout 569`,
that is `0x028e`. -/
theorem applyBudget_success_witness :
    (setMeasurementTimingBudget regBus sampleHandle ⟨tunedRegs, []⟩ 33000).1 = some 1 ∧
    newWrites ⟨tunedRegs, []⟩
      (setMeasurementTimingBudget regBus sampleHandle ⟨tunedRegs, []⟩ 33000).2.2 =
      [(0x71, [0x02, 0x8E])] ∧
    (setMeasurementTimingBudget regBus sampleHandle
      ⟨tunedRegs, []⟩ 33000).2.1.measurement_timing_budget_us = 33000 := by
  obtain ⟨T, hT, h1, h2, h3⟩ := applyBudget_success regBus sampleHandle ⟨tunedRegs, []⟩ 33000
    (by decide) (by decide) (by decide) (by decide) (by decide)
  have hT418 : T = 418 := Option.some.inj (hT.symm.trans (by decide))
  subst hT418
  have hsum : 418 + (if (readReg regBus sampleHandle ⟨tunedRegs, []⟩
        VL53L0X_SYSTEM_SEQUENCE_CONFIG).1 &&& VL53L0X_SEQUENCE_ENABLE_PRE_RANGE ≠ 0
      then (getSequenceStepTimeouts regBus sampleHandle
        (readReg regBus sampleHandle ⟨tunedRegs, []⟩ VL53L0X_SYSTEM_SEQUENCE_CONFIG).2
        (readReg regBus sampleHandle ⟨tunedRegs, []⟩
          VL53L0X_SYSTEM_SEQUENCE_CONFIG).1).1.pre_range_mclks
      else 0) = 569 := by decide
  rw [hsum, encodeTimeout_569] at h2
  exact ⟨h1, h2, h3⟩

/-! ## Traces only grow -/

theorem writesOf_append (l1 l2 : List Ev) : writesOf (l1 ++ l2) = writesOf l1 ++ writesOf l2 := by
  simp [writesOf, List.filter_append]

theorem writesOf_reads (l : List Ev) (h : l.filter Ev.isWrite = []) : writesOf l = [] := by
  simp [writesOf, h]

theorem newWrites_eq {σ : Type} (w w1 : World σ) (l : List Ev)
    (h : w1.trace = w.trace ++ l) : newWrites w w1 = writesOf l := by
  simp [newWrites, newEvents, h]

theorem writeReg_trace {σ : Type} (b : Bus σ) (h : vl53x) (w : World σ) (a v : Nat) :
    (writeReg b h w a v).trace = w.trace ++
      [Ev.write h.iic_index h.baseAddr (a % 256) [v % 256]
        (b.iic_write_register w.dev h.iic_index h.baseAddr (a % 256) [v % 256]).1] := rfl

theorem writeReg16_trace {σ : Type} (b : Bus σ) (h : vl53x) (w : World σ) (a v : Nat) :
    (writeReg16 b h w a v).trace = w.trace ++
      [Ev.write h.iic_index h.baseAddr (a % 256)
        [((v % 65536) >>> 8) % 256, (v % 65536) % 256]
        (b.iic_write_register w.dev h.iic_index h.baseAddr (a % 256)
          [((v % 65536) >>> 8) % 256, (v % 65536) % 256]).1] := rfl

theorem setMeasurementTimingBudget_extends {σ : Type} (b : Bus σ) (h : vl53x) (w : World σ)
    (budget_us : Nat) :
    ∃ l : List Ev, (setMeasurementTimingBudget b h w budget_us).2.2.trace = w.trace ++ l := by
  obtain ⟨l, hl, _⟩ := getSequenceStepTimeouts_trace b h
    (readReg b h w VL53L0X_SYSTEM_SEQUENCE_CONFIG).2
    (readReg b h w VL53L0X_SYSTEM_SEQUENCE_CONFIG).1
  obtain ⟨lg, hg⟩ : ∃ lg, (getSequenceStepTimeouts b h
      (readReg b h w VL53L0X_SYSTEM_SEQUENCE_CONFIG).2
      (readReg b h w VL53L0X_SYSTEM_SEQUENCE_CONFIG).1).2.trace = w.trace ++ lg :=
    ⟨_, by rw [hl, readReg_trace, List.append_assoc]⟩
  unfold setMeasurementTimingBudget
  simp only
  by_cases h1 : budget_us % 4294967296 < 20000
  · simp only [h1, if_true]
    exact ⟨[], by simp⟩
  · simp only [h1, if_false]
    by_cases h2 : (readReg b h w VL53L0X_SYSTEM_SEQUENCE_CONFIG).1
        &&& VL53L0X_SEQUENCE_ENABLE_FINAL_RANGE ≠ 0
    · rw [if_pos h2]
      by_cases h3 : (usedBudgetBeforeFinal (readReg b h w VL53L0X_SYSTEM_SEQUENCE_CONFIG).1
          (getSequenceStepTimeouts b h (readReg b h w VL53L0X_SYSTEM_SEQUENCE_CONFIG).2
            (readReg b h w VL53L0X_SYSTEM_SEQUENCE_CONFIG).1).1 + 550) % 4294967296
          > budget_us % 4294967296
      · rw [if_pos h3]
        exact ⟨_, hg⟩
      · rw [if_neg h3]
        split
        · exact ⟨_, hg⟩
        · exact ⟨_, by rw [writeReg16_trace, hg, List.append_assoc]⟩
    · rw [if_neg h2]
      exact ⟨_, hg⟩

theorem refCalibrationLoop_extends {σ : Type} (b : Bus σ) (h : vl53x) (n : Nat) :
    ∀ (i : Nat) (w : World σ), 101 ≤ i + n →
      ∃ l : List Ev, (refCalibrationLoop b h i w).2.trace = w.trace ++ l := by
  induction n with
  | zero =>
    intro i w hi
    rw [refCalibrationLoop]
    split_ifs with h0 hlt
    · exact ⟨_, readReg_trace b h w _⟩
    · omega
    · exact ⟨_, readReg_trace b h w _⟩
  | succ n ih =>
    intro i w hi
    rw [refCalibrationLoop]
    split_ifs with h0 hlt
    · exact ⟨_, readReg_trace b h w _⟩
    · obtain ⟨l, hl⟩ := ih (i + 1) (readReg b h w VL53L0X_RESULT_INTERRUPT_STATUS).2 (by omega)
      exact ⟨_, by rw [hl, readReg_trace, List.append_assoc]⟩
    · exact ⟨_, readReg_trace b h w _⟩

theorem performSingleRefCalibration_extends {σ : Type} (b : Bus σ) (h : vl53x) (w : World σ)
    (vhv_init_byte : Nat) :
    ∃ l : List Ev, (performSingleRefCalibration b h w vhv_init_byte).2.trace = w.trace ++ l := by
  obtain ⟨l, hl⟩ := refCalibrationLoop_extends b h 101 0
    (writeReg b h w VL53L0X_SYSRANGE_START (0x01 ||| (vhv_init_byte % 256))) (by omega)
  unfold performSingleRefCalibration
  simp only
  split_ifs
  · exact ⟨_, by rw [hl, writeReg_trace, List.append_assoc]⟩
  · exact ⟨_, by rw [writeReg_trace, writeReg_trace, hl, writeReg_trace, List.append_assoc,
      List.append_assoc, List.append_assoc]⟩

theorem vcselReapplyAndCalibrate_extends {σ : Type} (b : Bus σ) (h : vl53x) (w : World σ) :
    ∃ l : List Ev, (vcselReapplyAndCalibrate b h w).2.2.trace = w.trace ++ l := by
  obtain ⟨l1, hl1⟩ := setMeasurementTimingBudget_extends b h w h.measurement_timing_budget_us
  unfold vcselReapplyAndCalibrate
  simp only
  split
  · exact ⟨l1, hl1⟩
  · obtain ⟨l2, hl2⟩ := performSingleRefCalibration_extends b
      (setMeasurementTimingBudget b h w h.measurement_timing_budget_us).2.1
      (writeReg b (setMeasurementTimingBudget b h w h.measurement_timing_budget_us).2.1
        (readReg b (setMeasurementTimingBudget b h w h.measurement_timing_budget_us).2.1
          (setMeasurementTimingBudget b h w h.measurement_timing_budget_us).2.2
          VL53L0X_SYSTEM_SEQUENCE_CONFIG).2 VL53L0X_SYSTEM_SEQUENCE_CONFIG 0x02) 0x0
    exact ⟨_, by rw [writeReg_trace, hl2, writeReg_trace, readReg_trace, hl1,
      List.append_assoc, List.append_assoc, List.append_assoc, List.append_assoc]⟩

/-! ## VCSEL pulse period -/

/-- C6. For each target and every `uint8_t` period outside the target's legal set,
`setVcselPulsePeriod` returns failure, the call's trace contains no register write, and
the handle's cached budget is unchanged. -/
theorem setPulsePeriod_rejects_invalid {σ : Type} (b : Bus σ) (h : vl53x) (w : World σ)
    (type : vcselPeriodType) (period_pclks : Nat) (hp : period_pclks < 256)
    (hinv : period_pclks ∉ legalPeriods type) :
    (setVcselPulsePeriod b h w type period_pclks).1 = some 0 ∧
    newWrites w (setVcselPulsePeriod b h w type period_pclks).2.2 = [] ∧
    (setVcselPulsePeriod b h w type period_pclks).2.1.measurement_timing_budget_us =
      h.measurement_timing_budget_us := by
  obtain ⟨l, hl, hlw⟩ := getSequenceStepTimeouts_trace b h
    (readReg b h w VL53L0X_SYSTEM_SEQUENCE_CONFIG).2
    (readReg b h w VL53L0X_SYSTEM_SEQUENCE_CONFIG).1
  have hmod : period_pclks % 256 = period_pclks := Nat.mod_eq_of_lt hp
  have htr : newWrites w (getSequenceStepTimeouts b h
      (readReg b h w VL53L0X_SYSTEM_SEQUENCE_CONFIG).2
      (readReg b h w VL53L0X_SYSTEM_SEQUENCE_CONFIG).1).2 = [] := by
    rw [newWrites_eq w _ _ (hl.trans (by rw [readReg_trace, List.append_assoc])),
      writesOf_append, writesOf_reads l hlw]
    simp [writesOf, Ev.isWrite]
  cases type with
  | VcselPeriodPreRange =>
    simp only [legalPeriods, List.mem_cons, List.mem_singleton, List.not_mem_nil, or_false,
      not_or] at hinv
    have hnone : preRangePhaseHigh period_pclks = none := by
      simp [preRangePhaseHigh, hinv.1, hinv.2.1, hinv.2.2.1, hinv.2.2.2]
    simp only [setVcselPulsePeriod, hmod, hnone]
    exact ⟨trivial, htr, trivial⟩
  | VcselPeriodFinalRange =>
    simp only [legalPeriods, List.mem_cons, List.mem_singleton, List.not_mem_nil, or_false,
      not_or] at hinv
    have hnone : finalRangePhaseTable period_pclks = none := by
      simp [finalRangePhaseTable, hinv.1, hinv.2.1, hinv.2.2.1, hinv.2.2.2]
    simp only [setVcselPulsePeriod, hmod, hnone]
    exact ⟨trivial, htr, trivial⟩

/-- Witness for C6: period 13 for the pre-range target on the tuned register file. -/
theorem setPulsePeriod_rejects_invalid_witness :
    (setVcselPulsePeriod regBus sampleHandle ⟨tunedRegs, []⟩
      vcselPeriodType.VcselPeriodPreRange 13).1 = some 0 ∧
    newWrites ⟨tunedRegs, []⟩ (setVcselPulsePeriod regBus sampleHandle ⟨tunedRegs, []⟩
      vcselPeriodType.VcselPeriodPreRange 13).2.2 = [] ∧
    (setVcselPulsePeriod regBus sampleHandle ⟨tunedRegs, []⟩
      vcselPeriodType.VcselPeriodPreRange 13).2.1.measurement_timing_budget_us = 33000 :=
  setPulsePeriod_rejects_invalid regBus sampleHandle ⟨tunedRegs, []⟩
    vcselPeriodType.VcselPeriodPreRange 13 (by decide) (by decide)

theorem writesOf_write (i a r : Nat) (d : List Nat) (s : Int) :
    writesOf [Ev.write i a r d s] = [(r, d)] := by
  simp [writesOf, Ev.isWrite, Ev.target, Ev.payload]

theorem writesOf_read (i a r n : Nat) (d : List Nat) (s : Int) :
    writesOf [Ev.read i a r n d s] = [] := by
  simp [writesOf, Ev.isWrite]

theorem readReg_ext {σ : Type} (b : Bus σ) (h : vl53x) (w : World σ) (a : Nat) :
    ∃ e : Ev, (readReg b h w a).2.trace = w.trace ++ [e] ∧ writesOf [e] = [] :=
  ⟨_, readReg_trace b h w a, writesOf_read _ _ _ _ _ _⟩

theorem writeReg_ext {σ : Type} (b : Bus σ) (h : vl53x) (w : World σ) (a v : Nat) :
    ∃ e : Ev, (writeReg b h w a v).trace = w.trace ++ [e] ∧
      writesOf [e] = [(a % 256, [v % 256])] :=
  ⟨_, writeReg_trace b h w a v, writesOf_write _ _ _ _ _⟩

theorem writeReg16_ext {σ : Type} (b : Bus σ) (h : vl53x) (w : World σ) (a v : Nat) :
    ∃ e : Ev, (writeReg16 b h w a v).trace = w.trace ++ [e] ∧
      writesOf [e] = [(a % 256, [((v % 65536) >>> 8) % 256, (v % 65536) % 256])] :=
  ⟨_, writeReg16_trace b h w a v, writesOf_write _ _ _ _ _⟩

theorem finalRangePhaseWrites_trace {σ : Type} (b : Bus σ) (h : vl53x) (w : World σ)
    (t : Nat × Nat × Nat × Nat) :
    ∃ l : List Ev, (finalRangePhaseWrites b h w t).trace = w.trace ++ l ∧
      writesOf l = [(0x48, [t.1 % 256]), (0x47, [0x08]), (0x32, [t.2.1 % 256]),
        (0x30, [t.2.2.1 % 256]), (0xFF, [0x01]), (0x30, [t.2.2.2 % 256]), (0xFF, [0x00])] := by
  refine ⟨(finalRangePhaseWrites b h w t).trace.drop w.trace.length, ?_, ?_⟩
  · simp [finalRangePhaseWrites, writeReg]
  · simp [finalRangePhaseWrites, writeReg, writesOf, Ev.isWrite, Ev.target, Ev.payload,
      VL53L0X_FINAL_RANGE_CONFIG_VALID_PHASE_HIGH, VL53L0X_FINAL_RANGE_CONFIG_VALID_PHASE_LOW,
      VL53L0X_GLOBAL_CONFIG_VCSEL_WIDTH, VL53L0X_ALGO_PHASECAL_CONFIG_TIMEOUT,
      VL53L0X_ALGO_PHASECAL_LIM]

/-- The register writes of a final-range `setVcselPulsePeriod` call up to and including
the write of the final-range timeout, for a period the phase table knows and whose macro
period is non-zero. -/
theorem setVcselPulsePeriod_final_writes {σ : Type} (b : Bus σ) (h : vl53x) (w : World σ)
    (p : Nat) (t : Nat × Nat × Nat × Nat) (hp : p < 256)
    (ht : finalRangePhaseTable p = some t) (hmp : calcMacroPeriod (p % 256) ≠ 0) :
    ∃ T post,
      timeoutMicrosecondsToMclks
        (getSequenceStepTimeouts b h (readReg b h w VL53L0X_SYSTEM_SEQUENCE_CONFIG).2
          (readReg b h w VL53L0X_SYSTEM_SEQUENCE_CONFIG).1).1.final_range_us p = some T ∧
      newWrites w (setVcselPulsePeriod b h w vcselPeriodType.VcselPeriodFinalRange p).2.2 =
        [(0x48, [t.1 % 256]), (0x47, [0x08]), (0x32, [t.2.1 % 256]),
          (0x30, [t.2.2.1 % 256]), (0xFF, [0x01]), (0x30, [t.2.2.2 % 256]), (0xFF, [0x00]),
          (0x70, [encodeVcselPeriod p % 256])] ++
        [(0x71,
          [encodeTimeout (T +
              (if (readReg b h w VL53L0X_SYSTEM_SEQUENCE_CONFIG).1
                  &&& VL53L0X_SEQUENCE_ENABLE_PRE_RANGE ≠ 0
               then (getSequenceStepTimeouts b h
                 (readReg b h w VL53L0X_SYSTEM_SEQUENCE_CONFIG).2
                 (readReg b h w VL53L0X_SYSTEM_SEQUENCE_CONFIG).1).1.pre_range_mclks
               else 0)) / 256,
           encodeTimeout (T +
              (if (readReg b h w VL53L0X_SYSTEM_SEQUENCE_CONFIG).1
                  &&& VL53L0X_SEQUENCE_ENABLE_PRE_RANGE ≠ 0
               then (getSequenceStepTimeouts b h
                 (readReg b h w VL53L0X_SYSTEM_SEQUENCE_CONFIG).2
                 (readReg b h w VL53L0X_SYSTEM_SEQUENCE_CONFIG).1).1.pre_range_mclks
               else 0)) % 256])] ++ post := by
  have hmod : p % 256 = p := Nat.mod_eq_of_lt hp
  obtain ⟨T, hT⟩ := timeoutMicrosecondsToMclks_isSome
    (getSequenceStepTimeouts b h (readReg b h w VL53L0X_SYSTEM_SEQUENCE_CONFIG).2
      (readReg b h w VL53L0X_SYSTEM_SEQUENCE_CONFIG).1).1.final_range_us p hmp
  obtain ⟨l, hl, hlw⟩ := getSequenceStepTimeouts_trace b h
    (readReg b h w VL53L0X_SYSTEM_SEQUENCE_CONFIG).2
    (readReg b h w VL53L0X_SYSTEM_SEQUENCE_CONFIG).1
  obtain ⟨l7, hl7, hw7⟩ := finalRangePhaseWrites_trace b h
    (getSequenceStepTimeouts b h (readReg b h w VL53L0X_SYSTEM_SEQUENCE_CONFIG).2
      (readReg b h w VL53L0X_SYSTEM_SEQUENCE_CONFIG).1).2 t
  have hv : encodeTimeout
      (if (readReg b h w VL53L0X_SYSTEM_SEQUENCE_CONFIG).1
          &&& VL53L0X_SEQUENCE_ENABLE_PRE_RANGE ≠ 0
       then (T % 65536 + (getSequenceStepTimeouts b h
          (readReg b h w VL53L0X_SYSTEM_SEQUENCE_CONFIG).2
          (readReg b h w VL53L0X_SYSTEM_SEQUENCE_CONFIG).1).1.pre_range_mclks) % 65536
       else T % 65536) =
      encodeTimeout (T +
        (if (readReg b h w VL53L0X_SYSTEM_SEQUENCE_CONFIG).1
            &&& VL53L0X_SEQUENCE_ENABLE_PRE_RANGE ≠ 0
         then (getSequenceStepTimeouts b h
          (readReg b h w VL53L0X_SYSTEM_SEQUENCE_CONFIG).2
          (readReg b h w VL53L0X_SYSTEM_SEQUENCE_CONFIG).1).1.pre_range_mclks
         else 0)) := by
    split_ifs
    · exact encodeTimeout_add_mod T _
    · rw [encodeTimeout_mod, Nat.add_zero]
  have hval : setVcselPulsePeriod b h w vcselPeriodType.VcselPeriodFinalRange p =
      vcselReapplyAndCalibrate b h
        (writeReg16 b h
          (writeReg b h
            (finalRangePhaseWrites b h
              (getSequenceStepTimeouts b h (readReg b h w VL53L0X_SYSTEM_SEQUENCE_CONFIG).2
                (readReg b h w VL53L0X_SYSTEM_SEQUENCE_CONFIG).1).2 t)
            VL53L0X_FINAL_RANGE_CONFIG_VCSEL_PERIOD (encodeVcselPeriod p))
          VL53L0X_FINAL_RANGE_CONFIG_TIMEOUT_MACROP_HI
          (encodeTimeout (T +
            (if (readReg b h w VL53L0X_SYSTEM_SEQUENCE_CONFIG).1
                &&& VL53L0X_SEQUENCE_ENABLE_PRE_RANGE ≠ 0
             then (getSequenceStepTimeouts b h
              (readReg b h w VL53L0X_SYSTEM_SEQUENCE_CONFIG).2
              (readReg b h w VL53L0X_SYSTEM_SEQUENCE_CONFIG).1).1.pre_range_mclks
             else 0)))) := by
    simp only [setVcselPulsePeriod, hmod, ht, hT, hv]
  obtain ⟨post0, hpost⟩ := vcselReapplyAndCalibrate_extends b h
    (writeReg16 b h
      (writeReg b h
        (finalRangePhaseWrites b h
          (getSequenceStepTimeouts b h (readReg b h w VL53L0X_SYSTEM_SEQUENCE_CONFIG).2
            (readReg b h w VL53L0X_SYSTEM_SEQUENCE_CONFIG).1).2 t)
        VL53L0X_FINAL_RANGE_CONFIG_VCSEL_PERIOD (encodeVcselPeriod p))
      VL53L0X_FINAL_RANGE_CONFIG_TIMEOUT_MACROP_HI
      (encodeTimeout (T +
        (if (readReg b h w VL53L0X_SYSTEM_SEQUENCE_CONFIG).1
            &&& VL53L0X_SEQUENCE_ENABLE_PRE_RANGE ≠ 0
         then (getSequenceStepTimeouts b h
          (readReg b h w VL53L0X_SYSTEM_SEQUENCE_CONFIG).2
          (readReg b h w VL53L0X_SYSTEM_SEQUENCE_CONFIG).1).1.pre_range_mclks
         else 0))))
  obtain ⟨e1, he1, hw1⟩ := readReg_ext b h w VL53L0X_SYSTEM_SEQUENCE_CONFIG
  obtain ⟨e2, he2, hw2⟩ := writeReg_ext b h
    (finalRangePhaseWrites b h
      (getSequenceStepTimeouts b h (readReg b h w VL53L0X_SYSTEM_SEQUENCE_CONFIG).2
        (readReg b h w VL53L0X_SYSTEM_SEQUENCE_CONFIG).1).2 t)
    VL53L0X_FINAL_RANGE_CONFIG_VCSEL_PERIOD (encodeVcselPeriod p)
  obtain ⟨e3, he3, hw3⟩ := writeReg16_ext b h
    (writeReg b h
      (finalRangePhaseWrites b h
        (getSequenceStepTimeouts b h (readReg b h w VL53L0X_SYSTEM_SEQUENCE_CONFIG).2
          (readReg b h w VL53L0X_SYSTEM_SEQUENCE_CONFIG).1).2 t)
      VL53L0X_FINAL_RANGE_CONFIG_VCSEL_PERIOD (encodeVcselPeriod p))
    VL53L0X_FINAL_RANGE_CONFIG_TIMEOUT_MACROP_HI
    (encodeTimeout (T +
      (if (readReg b h w VL53L0X_SYSTEM_SEQUENCE_CONFIG).1
          &&& VL53L0X_SEQUENCE_ENABLE_PRE_RANGE ≠ 0
       then (getSequenceStepTimeouts b h
        (readReg b h w VL53L0X_SYSTEM_SEQUENCE_CONFIG).2
        (readReg b h w VL53L0X_SYSTEM_SEQUENCE_CONFIG).1).1.pre_range_mclks
       else 0)))
  have htr : (setVcselPulsePeriod b h w vcselPeriodType.VcselPeriodFinalRange p).2.2.trace =
      w.trace ++ ([e1] ++ (l ++ (l7 ++ ([e2] ++ ([e3] ++ post0))))) := by
    rw [hval, hpost, he3, he2, hl7, hl, he1]
    simp only [List.append_assoc]
  refine ⟨T, writesOf post0, hT, ?_⟩
  rw [newWrites_eq w _ _ htr]
  simp only [writesOf_append, hw1, writesOf_reads l hlw, hw7, hw2, hw3,
    List.nil_append, writeReg16_encodeTimeout_bytes, List.append_assoc]
  rfl

/-- C8. For every legal final-range period `p`, with `final_us` the final-range duration
the sequence step model reads at the old period before any write and `P` the pre-range
macro-clock timeout, the first write of the call to the final-range timeout register
carries `encodeTimeout (T + P)` when pre-range is enabled and `encodeTimeout T` when it is
not (`T` the macro-clock conversion of `final_us` at the new period `p`), and the write of
the new pulse-period register (`p / 2 - 1` to `0x70`) comes before it. -/
theorem setPulsePeriod_final_first_timeout_write {σ : Type} (b : Bus σ) (h : vl53x)
    (w : World σ) (p : Nat) (hp : p ∈ legalPeriods vcselPeriodType.VcselPeriodFinalRange) :
    ∃ (T : Nat) (pre post : List (Nat × List Nat)),
      timeoutMicrosecondsToMclks
        (getSequenceStepTimeouts b h (readReg b h w VL53L0X_SYSTEM_SEQUENCE_CONFIG).2
          (readReg b h w VL53L0X_SYSTEM_SEQUENCE_CONFIG).1).1.final_range_us p = some T ∧
      newWrites w (setVcselPulsePeriod b h w vcselPeriodType.VcselPeriodFinalRange p).2.2 =
        pre ++
        [(VL53L0X_FINAL_RANGE_CONFIG_TIMEOUT_MACROP_HI,
          [encodeTimeout (T +
              (if (readReg b h w VL53L0X_SYSTEM_SEQUENCE_CONFIG).1
                  &&& VL53L0X_SEQUENCE_ENABLE_PRE_RANGE ≠ 0
               then (getSequenceStepTimeouts b h
                 (readReg b h w VL53L0X_SYSTEM_SEQUENCE_CONFIG).2
                 (readReg b h w VL53L0X_SYSTEM_SEQUENCE_CONFIG).1).1.pre_range_mclks
               else 0)) / 256,
           encodeTimeout (T +
              (if (readReg b h w VL53L0X_SYSTEM_SEQUENCE_CONFIG).1
                  &&& VL53L0X_SEQUENCE_ENABLE_PRE_RANGE ≠ 0
               then (getSequenceStepTimeouts b h
                 (readReg b h w VL53L0X_SYSTEM_SEQUENCE_CONFIG).2
                 (readReg b h w VL53L0X_SYSTEM_SEQUENCE_CONFIG).1).1.pre_range_mclks
               else 0)) % 256])] ++ post ∧
      (∀ x ∈ pre, x.1 ≠ VL53L0X_FINAL_RANGE_CONFIG_TIMEOUT_MACROP_HI) ∧
      (VL53L0X_FINAL_RANGE_CONFIG_VCSEL_PERIOD, [p / 2 - 1]) ∈ pre := by
  simp only [legalPeriods, List.mem_cons, List.mem_singleton, List.not_mem_nil, or_false]
    at hp
  rcases hp with rfl | rfl | rfl | rfl
  · obtain ⟨T, post, hT, hW⟩ := setVcselPulsePeriod_final_writes b h w 8
      (0x10, 0x02, 0x0C, 0x30) (by decide) (by decide) (by decide)
    exact ⟨T, _, post, hT, hW, by decide, by decide⟩
  · obtain ⟨T, post, hT, hW⟩ := setVcselPulsePeriod_final_writes b h w 10
      (0x28, 0x03, 0x09, 0x20) (by decide) (by decide) (by decide)
    exact ⟨T, _, post, hT, hW, by decide, by decide⟩
  · obtain ⟨T, post, hT, hW⟩ := setVcselPulsePeriod_final_writes b h w 12
      (0x38, 0x03, 0x08, 0x20) (by decide) (by decide) (by decide)
    exact ⟨T, _, post, hT, hW, by decide, by decide⟩
  · obtain ⟨T, post, hT, hW⟩ := setVcselPulsePeriod_final_writes b h w 14
      (0x48, 0x03, 0x07, 0x20) (by decide) (by decide) (by decide)
    exact ⟨T, _, post, hT, hW, by decide, by decide⟩

theorem encodeTimeout_509 : encodeTimeout 509 = 0x01FE := by
  obtain ⟨e, he, hlt, henc, _, _, hmin⟩ := encodeTimeout_spec 509 (by decide) (by decide)
  have he1 : e = 1 := by
    interval_cases e <;> simp_all
  subst he1
  simpa using henc

/-- Witness for C8: `p = 10` on the tuned register file, pre-range enabled with a
pre-range timeout of 151 macro-clocks; the final-range duration of 13669 microseconds is
358 macro-clocks at period 10 and the register receives `encodeTimeout (358 + 151)`, that
is `0x01fe`, after the period register received 4. -/
theorem setPulsePeriod_final_first_timeout_write_witness :
    ∃ pre post : List (Nat × List Nat),
      newWrites ⟨tunedRegs, []⟩ (setVcselPulsePeriod regBus sampleHandle ⟨tunedRegs, []⟩
        vcselPeriodType.VcselPeriodFinalRange 10).2.2 = pre ++ [(0x71, [0x01, 0xFE])] ++ post ∧
      (∀ x ∈ pre, x.1 ≠ 0x71) ∧ (0x70, [4]) ∈ pre := by
  obtain ⟨T, pre, post, hT, hW, hpre, hmem⟩ :=
    setPulsePeriod_final_first_timeout_write regBus sampleHandle ⟨tunedRegs, []⟩ 10
      (by decide)
  have hT358 : T = 358 := Option.some.inj (hT.symm.trans (by decide))
  subst hT358
  have hsum : 358 + (if (readReg regBus sampleHandle ⟨tunedRegs, []⟩
        VL53L0X_SYSTEM_SEQUENCE_CONFIG).1 &&& VL53L0X_SEQUENCE_ENABLE_PRE_RANGE ≠ 0
      then (getSequenceStepTimeouts regBus sampleHandle
        (readReg regBus sampleHandle ⟨tunedRegs, []⟩ VL53L0X_SYSTEM_SEQUENCE_CONFIG).2
        (readReg regBus sampleHandle ⟨tunedRegs, []⟩
          VL53L0X_SYSTEM_SEQUENCE_CONFIG).1).1.pre_range_mclks
      else 0) = 509 := by decide
  rw [hsum, encodeTimeout_509] at hW
  exact ⟨pre, post, hW, hpre, hmem⟩

/-! ## Reference SPAD map -/

theorem countBelow_succ (f : Nat → Bool) (k : Nat) :
    countBelow f (k + 1) = countBelow f k + (if f k then 1 else 0) := by
  simp [countBelow, List.range_succ, List.countP_singleton]

theorem countBelow_le (f : Nat → Bool) (k : Nat) : countBelow f k ≤ k := by
  induction k with
  | zero => simp [countBelow]
  | succ k ih =>
    rw [countBelow_succ]
    split_ifs <;> omega

theorem countBelow_congr (f g : Nat → Bool) (k : Nat) (h : ∀ i, i < k → f i = g i) :
    countBelow f k = countBelow g k := by
  induction k with
  | zero => simp [countBelow]
  | succ k ih =>
    rw [countBelow_succ, countBelow_succ, ih (fun i hi => h i (by omega)), h k (by omega)]

theorem and_one_shiftLeft_ne_zero (x k : Nat) : x &&& (1 <<< k) ≠ 0 ↔ x.testBit k = true := by
  rw [Nat.one_shiftLeft]
  constructor
  · intro hne
    by_contra hb
    apply hne
    apply Nat.eq_of_testBit_eq
    intro j
    rw [Nat.testBit_and, Nat.testBit_two_pow, Nat.zero_testBit]
    by_cases hkj : k = j
    · subst hkj; simp [hb]
    · simp [hkj]
  · intro hb h0
    have h1 : (x &&& 2 ^ k).testBit k = true := by
      rw [Nat.testBit_and, Nat.testBit_two_pow_self, hb]; rfl
    rw [h0, Nat.zero_testBit] at h1
    exact Bool.false_ne_true h1

/-- Clearing with the mask `0xFF ^ (1 << k)` removes bit `k` and keeps the other bits of
a byte. -/
theorem testBit_clear (x k j : Nat) (hk : k < 8) (hj : j < 8) :
    (x &&& (0xFF ^^^ (1 <<< k))).testBit j = (x.testBit j && decide (j ≠ k)) := by
  have hff : (0xFF : Nat) = 2 ^ 8 - 1 := by decide
  rw [Nat.testBit_and, Nat.testBit_xor, hff, Nat.testBit_two_pow_sub_one, Nat.one_shiftLeft,
    Nat.testBit_two_pow]
  by_cases hjk : j = k
  · subst hjk; simp [hj]
  · have hkj : ¬ k = j := fun h => hjk h.symm
    simp [hj, hjk, hkj]

theorem clear_lt_256 (x k : Nat) (hk : k < 8) : x &&& (0xFF ^^^ (1 <<< k)) < 256 := by
  have h1 : x &&& (0xFF ^^^ (1 <<< k)) ≤ 0xFF ^^^ (1 <<< k) := Nat.and_le_right
  have h2 : 0xFF ^^^ (1 <<< k) < 256 := by
    interval_cases k <;> decide
  omega

/-- Bits of the map after the clearing store of the loop body. -/
theorem spadBit_set_clear (m : List Nat) (i j : Nat) (hlen : m.length = 6) (hi : i < 48) :
    spadBit (m.set (i >>> 3) (m.getD (i >>> 3) 0 &&& (0xFF ^^^ (1 <<< (i &&& 7))))) j =
      (spadBit m j && decide (j ≠ i)) := by
  have h3 : i >>> 3 = i / 8 := by rw [Nat.shiftRight_eq_div_pow]
  have h7 : i &&& 7 = i % 8 := Nat.and_pow_two_sub_one_eq_mod i 3
  rw [h3, h7]
  unfold spadBit
  by_cases hbyte : j / 8 = i / 8
  · have hlt : i / 8 < m.length := by omega
    rw [hbyte]
    simp only [List.getD_eq_getElem?_getD, List.getElem?_set_self hlt, Option.getD_some]
    rw [testBit_clear _ _ _ (Nat.mod_lt _ (by decide)) (Nat.mod_lt _ (by decide))]
    have hiff : (j % 8 ≠ i % 8) ↔ (j ≠ i) := by omega
    simp only [hiff]
  · have hne : i / 8 ≠ j / 8 := fun h => hbyte h.symm
    have hji : j ≠ i := fun h => hbyte (by rw [h])
    simp [List.getD_eq_getElem?_getD, List.getElem?_set_ne hne, hji]
theorem usableBelow_succ (first : Nat) (m : List Nat) (k : Nat) :
    usableBelow first m (k + 1) =
      usableBelow first m k + (if (decide (first ≤ k) && spadBit m k) = true then 1 else 0) := by
  unfold usableBelow
  rw [countBelow_succ]

theorem spadLoop_test_iff (m : List Nat) (k : Nat) :
    m.getD (k >>> 3) 0 &&& (1 <<< (k &&& 7)) ≠ 0 ↔ spadBit m k = true := by
  have h3 : k >>> 3 = k / 8 := by rw [Nat.shiftRight_eq_div_pow]
  have h7 : k &&& 7 = k % 8 := Nat.and_pow_two_sub_one_eq_mod k 3
  rw [h3, h7, and_one_shiftLeft_ne_zero]
  rfl

/-- One iteration of the trimming loop carries the invariant from `k` to `k + 1`. -/
theorem spadLoopStep_preserves (first count : Nat) (m0 : List Nat) (k : Nat)
    (st : List Nat × Nat) (hc : count < 256) (hk : k < 48)
    (hinv : SpadInv first count m0 k st) :
    SpadInv first count m0 (k + 1) (spadLoopStep first count st k) := by
  obtain ⟨I1, I2, I3, I4, I5⟩ := hinv
  have hub := usableBelow_succ first m0 k
  unfold spadLoopStep
  by_cases hA : k < first ∨ st.2 = count
  · rw [if_pos hA]
    refine ⟨by simp [I1], ?_, ?_, ?_, ?_⟩
    · intro x hx
      rcases List.mem_or_eq_of_mem_set hx with hx | hx
      · exact I2 x hx
      · rw [hx]
        have h7 : k &&& 7 = k % 8 := Nat.and_pow_two_sub_one_eq_mod k 3
        rw [h7]
        exact clear_lt_256 _ _ (Nat.mod_lt _ (by decide))
    · intro i hi
      simp only
      rw [spadBit_set_clear st.1 k i I1 hk, I3 i (by omega)]
      have hne : i ≠ k := by omega
      simp [hne]
    · intro i hi
      simp only
      rw [spadBit_set_clear st.1 k i I1 hk]
      by_cases hik : i = k
      · subst hik
        rcases hA with hA | hA
        · have hf : ¬ first ≤ i := by omega
          simp [hf]
        · have hu : ¬ usableBelow first m0 i < count := by
            rw [hA] at I5
            omega
          simp [hu]
      · rw [I4 i (by omega)]
        simp [hik]
    · simp only
      rcases hA with hA | hA
      · have hf : ¬ first ≤ k := by omega
        rw [hub, I5]
        simp [hf]
      · rw [hub]
        rw [hA] at I5
        omega
  · rw [if_neg hA]
    have hfirst : first ≤ k := by omega
    have hne : st.2 ≠ count := fun h => hA (Or.inr h)
    have hlt : usableBelow first m0 k < count := by omega
    by_cases hB : st.1.getD (k >>> 3) 0 &&& (1 <<< (k &&& 7)) ≠ 0
    · rw [if_pos hB]
      have hbit : spadBit st.1 k = true := (spadLoop_test_iff st.1 k).1 hB
      have hbit0 : spadBit m0 k = true := by rw [← I3 k (le_refl k)]; exact hbit
      refine ⟨I1, I2, fun i hi => I3 i (by omega), ?_, ?_⟩
      · intro i hi
        by_cases hik : i = k
        · subst hik
          simp [hbit, hbit0, hfirst, hlt]
        · exact I4 i (by omega)
      · simp only
        rw [hub]
        simp only [hbit0, hfirst, decide_True, Bool.and_self, if_true]
        omega
    · rw [if_neg hB]
      have hbit : spadBit st.1 k = false := by
        by_contra hb
        exact hB ((spadLoop_test_iff st.1 k).2 (by simpa using hb))
      have hbit0 : spadBit m0 k = false := by rw [← I3 k (le_refl k)]; exact hbit
      refine ⟨I1, I2, fun i hi => I3 i (by omega), ?_, ?_⟩
      · intro i hi
        by_cases hik : i = k
        · subst hik
          simp [hbit, hbit0]
        · exact I4 i (by omega)
      · rw [hub, I5]
        simp [hbit0]

/-- The invariant holds after any number `k <= 48` of iterations. -/
theorem spadLoop_invariant (first count : Nat) (m0 : List Nat) (hlen : m0.length = 6)
    (hbytes : ∀ x ∈ m0, x < 256) (hc : count < 256) :
    ∀ k, k ≤ 48 →
      SpadInv first count m0 k ((List.range k).foldl (spadLoopStep first count) (m0, 0)) := by
  intro k
  induction k with
  | zero =>
    intro _
    refine ⟨hlen, hbytes, fun i _ => rfl, fun i hi => absurd hi (by omega), ?_⟩
    simp [usableBelow, countBelow]
  | succ k ih =>
    intro hk
    rw [List.range_succ, List.foldl_append]
    exact spadLoopStep_preserves first count m0 k _ hc (by omega) (ih (by omega))
/-- Keeping a flagged position only while fewer than `count` flagged positions precede it
keeps `min count n` of `n` flagged positions. -/
theorem countBelow_capped (f : Nat → Bool) (count k : Nat) :
    countBelow (fun i => f i && decide (countBelow f i < count)) k =
      min count (countBelow f k) := by
  induction k with
  | zero => simp [countBelow]
  | succ k ih =>
    rw [countBelow_succ, countBelow_succ, ih]
    by_cases hf : f k = true
    · by_cases hlt : countBelow f k < count
      · simp only [hf, hlt, decide_True, Bool.and_self, if_true]
        omega
      · simp only [hf, hlt, decide_False, Bool.and_false, Bool.false_eq_true, if_false,
          if_true]
        omega
    · simp only [hf, Bool.false_and, Bool.false_eq_true, if_false]
      omega

theorem spadMapOfBuffer_length (data : List Nat) : (spadMapOfBuffer data).length = 6 := by
  simp [spadMapOfBuffer]

theorem spadMapOfBuffer_bytes (data : List Nat) : ∀ x ∈ spadMapOfBuffer data, x < 256 := by
  intro x hx
  simp only [spadMapOfBuffer, List.mem_map] at hx
  obtain ⟨j, _, rfl⟩ := hx
  exact Nat.mod_lt _ (by decide)

/-- What the trimming loop leaves: six bytes, each under 256; position `i < 48` is set
exactly when it was set before, is usable, and fewer than `count` usable set positions
precede it; the number of set positions is `min count n`, with `n` the number of usable
set positions of the initial map. -/
theorem trimSpadMap_spec (count first : Nat) (m0 : List Nat) (hlen : m0.length = 6)
    (hbytes : ∀ x ∈ m0, x < 256) (hc : count < 256) :
    ((List.range 48).foldl (spadLoopStep first count) (m0, 0)).1.length = 6 ∧
    (∀ x ∈ ((List.range 48).foldl (spadLoopStep first count) (m0, 0)).1, x < 256) ∧
    (∀ i, i < 48 → spadBit ((List.range 48).foldl (spadLoopStep first count) (m0, 0)).1 i =
      (spadBit m0 i && decide (first ≤ i) && decide (usableBelow first m0 i < count))) ∧
    spadBitsSet ((List.range 48).foldl (spadLoopStep first count) (m0, 0)).1 =
      min count (usableBelow first m0 48) := by
  obtain ⟨I1, I2, _, I4, _⟩ := spadLoop_invariant first count m0 hlen hbytes hc 48 (le_refl 48)
  refine ⟨I1, I2, I4, ?_⟩
  unfold spadBitsSet
  rw [countBelow_congr _ (fun i => (decide (first ≤ i) && spadBit m0 i) &&
    decide (countBelow (fun i => decide (first ≤ i) && spadBit m0 i) i < count)) 48
    (fun i hi => by rw [I4 i hi, Bool.and_comm (spadBit m0 i)]; rfl)]
  exact countBelow_capped _ count 48

/-- The buffer `initSensor` hands to the trimming loop is `spadMapOfBuffer` of what the
transport returned for the six-byte read at `0xB0`. -/
theorem readMulti_spadMap {σ : Type} (b : Bus σ) (h : vl53x) (w : World σ) :
    (readMulti b h w VL53L0X_GLOBAL_CONFIG_SPAD_ENABLES_REF_0 6).1 =
      spadMapOfBuffer (b.iic_read_register w.dev h.iic_index h.baseAddr
        (VL53L0X_GLOBAL_CONFIG_SPAD_ENABLES_REF_0 % 256) 6).2.1 := rfl

set_option maxRecDepth 100000 in
/-- C9 (counterexample). A map with 16 bits set (bytes `ff ff 00 00 00 00`), count 24 and
standard type: the map written back has 16 bits set, not 24. -/
theorem applySpadMap_count_counterexample :
    spadBitsSet (trimSpadMap 24 0 (spadMapOfBuffer [0xFF, 0xFF, 0, 0, 0, 0])) = 16 ∧
    spadBitsSet (trimSpadMap 24 0 (spadMapOfBuffer [0xFF, 0xFF, 0, 0, 0, 0])) ≠ 24 := by
  decide

/-- C9 (amended). For every buffer read as the initial reference-SPAD map, every count
and either type, if at least `count` bits of the initial map are set at usable indices
(from the first usable index, 0 or 12, up to 47), the map written back has exactly
`count` bits set, it consists of six bytes (so every set bit has index below 48), and no
bit below the first usable index is set. -/
theorem applySpadMap_exact_count (data : List Nat) (count aperture : Nat)
    (hn : count ≤ usableBelow (if aperture % 256 ≠ 0 then 12 else 0)
      (spadMapOfBuffer data) 48) :
    spadBitsSet (trimSpadMap count aperture (spadMapOfBuffer data)) = count ∧
    (trimSpadMap count aperture (spadMapOfBuffer data)).length = 6 ∧
    (∀ x ∈ trimSpadMap count aperture (spadMapOfBuffer data), x < 256) ∧
    (∀ i, i < (if aperture % 256 ≠ 0 then 12 else 0) →
      spadBit (trimSpadMap count aperture (spadMapOfBuffer data)) i = false) := by
  unfold trimSpadMap
  simp only
  have hfirst : (if aperture % 256 ≠ 0 then 12 else 0) ≤ 12 := by
    split_ifs <;> omega
  generalize (if aperture % 256 ≠ 0 then 12 else 0) = first at hn hfirst ⊢
  have hle : usableBelow first (spadMapOfBuffer data) 48 ≤ 48 := countBelow_le _ 48
  have hc : count % 256 = count := Nat.mod_eq_of_lt (by omega)
  obtain ⟨h1, h2, h3, h4⟩ := trimSpadMap_spec count first
    (spadMapOfBuffer data) (spadMapOfBuffer_length data) (spadMapOfBuffer_bytes data)
    (by omega)
  rw [hc]
  refine ⟨?_, h1, h2, ?_⟩
  · rw [h4]
    omega
  · intro i hi
    rw [h3 i (by omega)]
    have hf : decide (first ≤ i) = false := by
      rw [decide_eq_false_iff_not]
      omega
    rw [hf, Bool.and_false, Bool.false_and]

/-- Witness for C9 (amended): all 48 bits set initially, count 24, standard type; exactly
24 bits remain. -/
theorem applySpadMap_exact_count_witness :
    spadBitsSet (trimSpadMap 24 0
      (spadMapOfBuffer [0xFF, 0xFF, 0xFF, 0xFF, 0xFF, 0xFF])) = 24 :=
  (applySpadMap_exact_count [0xFF, 0xFF, 0xFF, 0xFF, 0xFF, 0xFF] 24 0 (by decide)).1

/-! ## Register-file device -/

theorem readReg_lt {σ : Type} (b : Bus σ) (h : vl53x) (w : World σ) (a : Nat) :
    (readReg b h w a).1 < 256 :=
  Nat.mod_lt _ (by decide)

theorem readReg_regBus_val (h : vl53x) (w : World (Nat → Nat)) (a : Nat) :
    (readReg regBus h w a).1 = w.dev (a % 256) % 256 := by
  simp [readReg, regBus, List.range_succ]

theorem readReg_regBus_dev (h : vl53x) (w : World (Nat → Nat)) (a : Nat) :
    (readReg regBus h w a).2.dev = w.dev := rfl

theorem readReg16_regBus_val (h : vl53x) (w : World (Nat → Nat)) (a : Nat) :
    (readReg16 regBus h w a).1 =
      (((w.dev (a % 256) % 256) <<< 8) + w.dev (a % 256 + 1) % 256) % 65536 := by
  simp [readReg16, regBus, List.range_succ]

theorem readReg16_regBus_dev (h : vl53x) (w : World (Nat → Nat)) (a : Nat) :
    (readReg16 regBus h w a).2.dev = w.dev := rfl

theorem getSequenceStepTimeouts_regBus_dev (h : vl53x) (w : World (Nat → Nat)) (e : Nat) :
    (getSequenceStepTimeouts regBus h w e).2.dev = w.dev := rfl

theorem getSequenceStepTimeouts_regBus_pre (h : vl53x) (w : World (Nat → Nat)) (e : Nat) :
    (getSequenceStepTimeouts regBus h w e).1.pre_range_mclks =
      decodeTimeout ((((w.dev 0x51 % 256) <<< 8) + w.dev 0x52 % 256) % 65536) := by
  simp only [getSequenceStepTimeouts, readReg16_regBus_val, readReg16_regBus_dev,
    readReg_regBus_dev, VL53L0X_PRE_RANGE_CONFIG_TIMEOUT_MACROP_HI]

theorem getSequenceStepTimeouts_regBus_final (h : vl53x) (w : World (Nat → Nat)) (e : Nat) :
    (getSequenceStepTimeouts regBus h w e).1.final_range_mclks =
      if (e % 256) &&& VL53L0X_SEQUENCE_ENABLE_PRE_RANGE ≠ 0 then
        (decodeTimeout ((((w.dev 0x71 % 256) <<< 8) + w.dev 0x72 % 256) % 65536) + 65536
          - decodeTimeout ((((w.dev 0x51 % 256) <<< 8) + w.dev 0x52 % 256) % 65536)) % 65536
      else decodeTimeout ((((w.dev 0x71 % 256) <<< 8) + w.dev 0x72 % 256) % 65536) := by
  simp only [getSequenceStepTimeouts, readReg16_regBus_val, readReg16_regBus_dev,
    readReg_regBus_dev, VL53L0X_PRE_RANGE_CONFIG_TIMEOUT_MACROP_HI,
    VL53L0X_FINAL_RANGE_CONFIG_TIMEOUT_MACROP_HI]

theorem writeReg16_regBus_dev (h : vl53x) (w : World (Nat → Nat)) (a v : Nat) :
    (writeReg16 regBus h w a v).dev =
      regStore w.dev (a % 256) [((v % 65536) >>> 8) % 256, (v % 65536) % 256] := rfl
/-- The complete result of `setMeasurementTimingBudget` on its success path with
final-range enabled. -/
theorem setMeasurementTimingBudget_success_eq {σ : Type} (b : Bus σ) (h : vl53x)
    (w : World σ) (budget_us T : Nat) (hmin : 20000 ≤ budget_us)
    (h32 : budget_us < 4294967296)
    (hfinal : (readReg b h w VL53L0X_SYSTEM_SEQUENCE_CONFIG).1
      &&& VL53L0X_SEQUENCE_ENABLE_FINAL_RANGE ≠ 0)
    (hfit : specUsedBudget (readReg b h w VL53L0X_SYSTEM_SEQUENCE_CONFIG).1
        (getSequenceStepTimeouts b h (readReg b h w VL53L0X_SYSTEM_SEQUENCE_CONFIG).2
          (readReg b h w VL53L0X_SYSTEM_SEQUENCE_CONFIG).1).1 ≤ budget_us)
    (hT : timeoutMicrosecondsToMclks
        (budget_us - specUsedBudget (readReg b h w VL53L0X_SYSTEM_SEQUENCE_CONFIG).1
          (getSequenceStepTimeouts b h (readReg b h w VL53L0X_SYSTEM_SEQUENCE_CONFIG).2
            (readReg b h w VL53L0X_SYSTEM_SEQUENCE_CONFIG).1).1)
        (getSequenceStepTimeouts b h (readReg b h w VL53L0X_SYSTEM_SEQUENCE_CONFIG).2
          (readReg b h w VL53L0X_SYSTEM_SEQUENCE_CONFIG).1).1.final_range_vcsel_period_pclks
        = some T) :
    setMeasurementTimingBudget b h w budget_us =
      (some 1, { h with measurement_timing_budget_us := budget_us },
        writeReg16 b h
          (getSequenceStepTimeouts b h (readReg b h w VL53L0X_SYSTEM_SEQUENCE_CONFIG).2
            (readReg b h w VL53L0X_SYSTEM_SEQUENCE_CONFIG).1).2
          VL53L0X_FINAL_RANGE_CONFIG_TIMEOUT_MACROP_HI
          (encodeTimeout (T +
            (if (readReg b h w VL53L0X_SYSTEM_SEQUENCE_CONFIG).1
                &&& VL53L0X_SEQUENCE_ENABLE_PRE_RANGE ≠ 0
             then (getSequenceStepTimeouts b h
              (readReg b h w VL53L0X_SYSTEM_SEQUENCE_CONFIG).2
              (readReg b h w VL53L0X_SYSTEM_SEQUENCE_CONFIG).1).1.pre_range_mclks
             else 0)))) := by
  obtain ⟨hu1, hu2, _⟩ := getSequenceStepTimeouts_us_le b h
    (readReg b h w VL53L0X_SYSTEM_SEQUENCE_CONFIG).2
    (readReg b h w VL53L0X_SYSTEM_SEQUENCE_CONFIG).1
  have hspec := usedBudget_eq_spec (readReg b h w VL53L0X_SYSTEM_SEQUENCE_CONFIG).1 _ hu1 hu2
  have hb : budget_us % 4294967296 = budget_us := Nat.mod_eq_of_lt h32
  have hnot : ¬ budget_us < 20000 := by omega
  have hnot2 : ¬ specUsedBudget (readReg b h w VL53L0X_SYSTEM_SEQUENCE_CONFIG).1
      (getSequenceStepTimeouts b h (readReg b h w VL53L0X_SYSTEM_SEQUENCE_CONFIG).2
        (readReg b h w VL53L0X_SYSTEM_SEQUENCE_CONFIG).1).1 > budget_us := by omega
  have hv : encodeTimeout
      (if (readReg b h w VL53L0X_SYSTEM_SEQUENCE_CONFIG).1
          &&& VL53L0X_SEQUENCE_ENABLE_PRE_RANGE ≠ 0
       then (T % 65536 + (getSequenceStepTimeouts b h
          (readReg b h w VL53L0X_SYSTEM_SEQUENCE_CONFIG).2
          (readReg b h w VL53L0X_SYSTEM_SEQUENCE_CONFIG).1).1.pre_range_mclks) % 65536
       else T % 65536) =
      encodeTimeout (T +
        (if (readReg b h w VL53L0X_SYSTEM_SEQUENCE_CONFIG).1
            &&& VL53L0X_SEQUENCE_ENABLE_PRE_RANGE ≠ 0
         then (getSequenceStepTimeouts b h
          (readReg b h w VL53L0X_SYSTEM_SEQUENCE_CONFIG).2
          (readReg b h w VL53L0X_SYSTEM_SEQUENCE_CONFIG).1).1.pre_range_mclks
         else 0)) := by
    split_ifs
    · exact encodeTimeout_add_mod T _
    · rw [encodeTimeout_mod, Nat.add_zero]
  unfold setMeasurementTimingBudget
  simp only [hb, hnot, if_false]
  rw [if_pos hfinal, hspec, if_neg hnot2, hT]
  simp only [hv]

/-- Below the minimum budget `setMeasurementTimingBudget` returns 0 at once. -/
theorem setMeasurementTimingBudget_low_eq {σ : Type} (b : Bus σ) (h : vl53x) (w : World σ)
    (budget_us : Nat) (hlow : budget_us < 20000) :
    setMeasurementTimingBudget b h w budget_us = (some 0, h, w) := by
  have hmod : budget_us % 4294967296 < 20000 := by omega
  simp [setMeasurementTimingBudget, hmod]

/-- With final-range enabled and an overhead above the budget `setMeasurementTimingBudget`
returns 0. -/
theorem setMeasurementTimingBudget_exceeded_ret {σ : Type} (b : Bus σ) (h : vl53x)
    (w : World σ) (budget_us : Nat) (hmin : 20000 ≤ budget_us)
    (hfinal : (readReg b h w VL53L0X_SYSTEM_SEQUENCE_CONFIG).1
      &&& VL53L0X_SEQUENCE_ENABLE_FINAL_RANGE ≠ 0)
    (hover : specUsedBudget (readReg b h w VL53L0X_SYSTEM_SEQUENCE_CONFIG).1
        (getSequenceStepTimeouts b h (readReg b h w VL53L0X_SYSTEM_SEQUENCE_CONFIG).2
          (readReg b h w VL53L0X_SYSTEM_SEQUENCE_CONFIG).1).1 > budget_us) :
    (setMeasurementTimingBudget b h w budget_us).1 = some 0 := by
  obtain ⟨hu1, hu2, _⟩ := getSequenceStepTimeouts_us_le b h
    (readReg b h w VL53L0X_SYSTEM_SEQUENCE_CONFIG).2
    (readReg b h w VL53L0X_SYSTEM_SEQUENCE_CONFIG).1
  have hspec := usedBudget_eq_spec (readReg b h w VL53L0X_SYSTEM_SEQUENCE_CONFIG).1 _ hu1 hu2
  have hlt : specUsedBudget (readReg b h w VL53L0X_SYSTEM_SEQUENCE_CONFIG).1
      (getSequenceStepTimeouts b h (readReg b h w VL53L0X_SYSTEM_SEQUENCE_CONFIG).2
        (readReg b h w VL53L0X_SYSTEM_SEQUENCE_CONFIG).1).1 < 4294967296 := by
    rw [← hspec]; exact Nat.mod_lt _ (by decide)
  have hb : budget_us % 4294967296 = budget_us := Nat.mod_eq_of_lt (by omega)
  have hnot : ¬ budget_us < 20000 := by omega
  unfold setMeasurementTimingBudget
  simp only [hb, hnot, if_false]
  rw [if_pos hfinal, hspec, if_pos hover]

/-- On a register-file device, after a successful `setMeasurementTimingBudget` with
final-range enabled, the sequence step model reads back the macro-clock count `T` the
writer converted, provided `T + P` fits 16 bits and `encodeTimeout` is lossless on it. -/
theorem final_range_mclks_after_success (regs : Nat → Nat) (h : vl53x) (tr : List Ev)
    (budget_us T : Nat) (h32 : budget_us < 4294967296)
    (hfinal : (readReg regBus h ⟨regs, tr⟩ VL53L0X_SYSTEM_SEQUENCE_CONFIG).1
      &&& VL53L0X_SEQUENCE_ENABLE_FINAL_RANGE ≠ 0)
    (hsucc : (setMeasurementTimingBudget regBus h ⟨regs, tr⟩ budget_us).1 = some 1)
    (hT : timeoutMicrosecondsToMclks
        (budget_us - specUsedBudget
          (readReg regBus h ⟨regs, tr⟩ VL53L0X_SYSTEM_SEQUENCE_CONFIG).1
          (getSequenceStepTimeouts regBus h
            (readReg regBus h ⟨regs, tr⟩ VL53L0X_SYSTEM_SEQUENCE_CONFIG).2
            (readReg regBus h ⟨regs, tr⟩ VL53L0X_SYSTEM_SEQUENCE_CONFIG).1).1)
        (getSequenceStepTimeouts regBus h
          (readReg regBus h ⟨regs, tr⟩ VL53L0X_SYSTEM_SEQUENCE_CONFIG).2
          (readReg regBus h ⟨regs, tr⟩
            VL53L0X_SYSTEM_SEQUENCE_CONFIG).1).1.final_range_vcsel_period_pclks = some T)
    (hsum : T +
        (if (readReg regBus h ⟨regs, tr⟩ VL53L0X_SYSTEM_SEQUENCE_CONFIG).1
            &&& VL53L0X_SEQUENCE_ENABLE_PRE_RANGE ≠ 0
         then (getSequenceStepTimeouts regBus h
          (readReg regBus h ⟨regs, tr⟩ VL53L0X_SYSTEM_SEQUENCE_CONFIG).2
          (readReg regBus h ⟨regs, tr⟩ VL53L0X_SYSTEM_SEQUENCE_CONFIG).1).1.pre_range_mclks
         else 0) ≤ 65535)
    (hlossless : decodeTimeout (encodeTimeout (T +
        (if (readReg regBus h ⟨regs, tr⟩ VL53L0X_SYSTEM_SEQUENCE_CONFIG).1
            &&& VL53L0X_SEQUENCE_ENABLE_PRE_RANGE ≠ 0
         then (getSequenceStepTimeouts regBus h
          (readReg regBus h ⟨regs, tr⟩ VL53L0X_SYSTEM_SEQUENCE_CONFIG).2
          (readReg regBus h ⟨regs, tr⟩ VL53L0X_SYSTEM_SEQUENCE_CONFIG).1).1.pre_range_mclks
         else 0))) =
      T + (if (readReg regBus h ⟨regs, tr⟩ VL53L0X_SYSTEM_SEQUENCE_CONFIG).1
            &&& VL53L0X_SEQUENCE_ENABLE_PRE_RANGE ≠ 0
         then (getSequenceStepTimeouts regBus h
          (readReg regBus h ⟨regs, tr⟩ VL53L0X_SYSTEM_SEQUENCE_CONFIG).2
          (readReg regBus h ⟨regs, tr⟩ VL53L0X_SYSTEM_SEQUENCE_CONFIG).1).1.pre_range_mclks
         else 0)) :
    (getSequenceStepTimeouts regBus h
      (setMeasurementTimingBudget regBus h ⟨regs, tr⟩ budget_us).2.2
      (readReg regBus h ⟨regs, tr⟩ VL53L0X_SYSTEM_SEQUENCE_CONFIG).1).1.final_range_mclks
      = T := by
  have hmin : 20000 ≤ budget_us := by
    by_contra hlow
    rw [setMeasurementTimingBudget_low_eq regBus h ⟨regs, tr⟩ budget_us (by omega)] at hsucc
    exact absurd (Option.some.inj hsucc) (by decide)
  have hfit : specUsedBudget (readReg regBus h ⟨regs, tr⟩ VL53L0X_SYSTEM_SEQUENCE_CONFIG).1
      (getSequenceStepTimeouts regBus h
        (readReg regBus h ⟨regs, tr⟩ VL53L0X_SYSTEM_SEQUENCE_CONFIG).2
        (readReg regBus h ⟨regs, tr⟩ VL53L0X_SYSTEM_SEQUENCE_CONFIG).1).1 ≤ budget_us := by
    by_contra hover
    have h0 := setMeasurementTimingBudget_exceeded_ret regBus h ⟨regs, tr⟩ budget_us hmin
      hfinal (by omega)
    rw [h0] at hsucc
    exact absurd hsucc (by decide)
  rw [setMeasurementTimingBudget_success_eq regBus h ⟨regs, tr⟩ budget_us T hmin h32 hfinal
    hfit hT]
  have he : (readReg regBus h ⟨regs, tr⟩ VL53L0X_SYSTEM_SEQUENCE_CONFIG).1 % 256 =
      (readReg regBus h ⟨regs, tr⟩ VL53L0X_SYSTEM_SEQUENCE_CONFIG).1 :=
    Nat.mod_eq_of_lt (readReg_lt _ _ _ _)
  have hpre := getSequenceStepTimeouts_regBus_pre h
    (readReg regBus h ⟨regs, tr⟩ VL53L0X_SYSTEM_SEQUENCE_CONFIG).2
    (readReg regBus h ⟨regs, tr⟩ VL53L0X_SYSTEM_SEQUENCE_CONFIG).1
  rw [readReg_regBus_dev] at hpre
  simp only at hpre
  rw [getSequenceStepTimeouts_regBus_final, he]
  simp only [writeReg16_regBus_dev, getSequenceStepTimeouts_regBus_dev, readReg_regBus_dev]
  have hlt := encodeTimeout_lt (T +
    (if (readReg regBus h ⟨regs, tr⟩ VL53L0X_SYSTEM_SEQUENCE_CONFIG).1
        &&& VL53L0X_SEQUENCE_ENABLE_PRE_RANGE ≠ 0
     then (getSequenceStepTimeouts regBus h
      (readReg regBus h ⟨regs, tr⟩ VL53L0X_SYSTEM_SEQUENCE_CONFIG).2
      (readReg regBus h ⟨regs, tr⟩ VL53L0X_SYSTEM_SEQUENCE_CONFIG).1).1.pre_range_mclks
     else 0))
  generalize encodeTimeout (T +
    (if (readReg regBus h ⟨regs, tr⟩ VL53L0X_SYSTEM_SEQUENCE_CONFIG).1
        &&& VL53L0X_SEQUENCE_ENABLE_PRE_RANGE ≠ 0
     then (getSequenceStepTimeouts regBus h
      (readReg regBus h ⟨regs, tr⟩ VL53L0X_SYSTEM_SEQUENCE_CONFIG).2
      (readReg regBus h ⟨regs, tr⟩ VL53L0X_SYSTEM_SEQUENCE_CONFIG).1).1.pre_range_mclks
     else 0)) = v at hlossless hlt ⊢
  have h71 : regStore regs (VL53L0X_FINAL_RANGE_CONFIG_TIMEOUT_MACROP_HI % 256)
      [((v % 65536) >>> 8) % 256, (v % 65536) % 256] 0x71 = v / 256 := by
    simp only [regStore, VL53L0X_FINAL_RANGE_CONFIG_TIMEOUT_MACROP_HI,
      Nat.shiftRight_eq_div_pow]
    norm_num
    omega
  have h72 : regStore regs (VL53L0X_FINAL_RANGE_CONFIG_TIMEOUT_MACROP_HI % 256)
      [((v % 65536) >>> 8) % 256, (v % 65536) % 256] 0x72 = v % 256 := by
    simp only [regStore, VL53L0X_FINAL_RANGE_CONFIG_TIMEOUT_MACROP_HI]
    norm_num
  have h51 : regStore regs (VL53L0X_FINAL_RANGE_CONFIG_TIMEOUT_MACROP_HI % 256)
      [((v % 65536) >>> 8) % 256, (v % 65536) % 256] 0x51 = regs 0x51 := by
    simp [regStore, VL53L0X_FINAL_RANGE_CONFIG_TIMEOUT_MACROP_HI]
  have h52 : regStore regs (VL53L0X_FINAL_RANGE_CONFIG_TIMEOUT_MACROP_HI % 256)
      [((v % 65536) >>> 8) % 256, (v % 65536) % 256] 0x52 = regs 0x52 := by
    simp [regStore, VL53L0X_FINAL_RANGE_CONFIG_TIMEOUT_MACROP_HI]
  have hback : (((v / 256 % 256) <<< 8) + v % 256 % 256) % 65536 = v := by
    rw [Nat.shiftLeft_eq]
    omega
  rw [h71, h72, h51, h52, hback, ← hpre, hlossless]
  split_ifs with hp
  · rw [if_pos hp] at hsum
    omega
  · rw [if_neg hp] at hsum
    omega

/-- C10. On a register-file device with final-range enabled, for every 32-bit budget for
which `setMeasurementTimingBudget` succeeds: with `T` the macro-clock conversion of
`budget_us - used` at the final-range period and `P` the pre-range macro-clock timeout if
pre-range is enabled, else 0, if `T + P <= 65535` and `encodeTimeout` is lossless on
`T + P`, then `getSequenceStepTimeouts` run on the resulting registers under the same
enable mask reports `final_range_mclks = T`. -/
theorem cumulative_storage_symmetry (regs : Nat → Nat) (h : vl53x) (tr : List Ev)
    (budget_us T : Nat) (h32 : budget_us < 4294967296)
    (hfinal : (readReg regBus h ⟨regs, tr⟩ VL53L0X_SYSTEM_SEQUENCE_CONFIG).1
      &&& VL53L0X_SEQUENCE_ENABLE_FINAL_RANGE ≠ 0)
    (hsucc : (setMeasurementTimingBudget regBus h ⟨regs, tr⟩ budget_us).1 = some 1)
    (hT : timeoutMicrosecondsToMclks
        (budget_us - specUsedBudget
          (readReg regBus h ⟨regs, tr⟩ VL53L0X_SYSTEM_SEQUENCE_CONFIG).1
          (getSequenceStepTimeouts regBus h
            (readReg regBus h ⟨regs, tr⟩ VL53L0X_SYSTEM_SEQUENCE_CONFIG).2
            (readReg regBus h ⟨regs, tr⟩ VL53L0X_SYSTEM_SEQUENCE_CONFIG).1).1)
        (getSequenceStepTimeouts regBus h
          (readReg regBus h ⟨regs, tr⟩ VL53L0X_SYSTEM_SEQUENCE_CONFIG).2
          (readReg regBus h ⟨regs, tr⟩
            VL53L0X_SYSTEM_SEQUENCE_CONFIG).1).1.final_range_vcsel_period_pclks = some T)
    (hsum : T +
        (if (readReg regBus h ⟨regs, tr⟩ VL53L0X_SYSTEM_SEQUENCE_CONFIG).1
            &&& VL53L0X_SEQUENCE_ENABLE_PRE_RANGE ≠ 0
         then (getSequenceStepTimeouts regBus h
          (readReg regBus h ⟨regs, tr⟩ VL53L0X_SYSTEM_SEQUENCE_CONFIG).2
          (readReg regBus h ⟨regs, tr⟩ VL53L0X_SYSTEM_SEQUENCE_CONFIG).1).1.pre_range_mclks
         else 0) ≤ 65535)
    (hlossless : decodeTimeout (encodeTimeout (T +
        (if (readReg regBus h ⟨regs, tr⟩ VL53L0X_SYSTEM_SEQUENCE_CONFIG).1
            &&& VL53L0X_SEQUENCE_ENABLE_PRE_RANGE ≠ 0
         then (getSequenceStepTimeouts regBus h
          (readReg regBus h ⟨regs, tr⟩ VL53L0X_SYSTEM_SEQUENCE_CONFIG).2
          (readReg regBus h ⟨regs, tr⟩ VL53L0X_SYSTEM_SEQUENCE_CONFIG).1).1.pre_range_mclks
         else 0))) =
      T + (if (readReg regBus h ⟨regs, tr⟩ VL53L0X_SYSTEM_SEQUENCE_CONFIG).1
            &&& VL53L0X_SEQUENCE_ENABLE_PRE_RANGE ≠ 0
         then (getSequenceStepTimeouts regBus h
          (readReg regBus h ⟨regs, tr⟩ VL53L0X_SYSTEM_SEQUENCE_CONFIG).2
          (readReg regBus h ⟨regs, tr⟩ VL53L0X_SYSTEM_SEQUENCE_CONFIG).1).1.pre_range_mclks
         else 0)) :
    (getSequenceStepTimeouts regBus h
      (setMeasurementTimingBudget regBus h ⟨regs, tr⟩ budget_us).2.2
      (readReg regBus h ⟨regs, tr⟩ VL53L0X_SYSTEM_SEQUENCE_CONFIG).1).1.final_range_mclks
      = T :=
  final_range_mclks_after_success regs h tr budget_us T h32 hfinal hsucc hT hsum hlossless

/-- Witness for C10: the tuned register file and a budget of 33000 microseconds; the
writer stores `encodeTimeout (418 + 151)` and the reader reports 418 macro-clocks. -/
theorem cumulative_storage_symmetry_witness :
    (getSequenceStepTimeouts regBus sampleHandle
      (setMeasurementTimingBudget regBus sampleHandle ⟨tunedRegs, []⟩ 33000).2.2
      (readReg regBus sampleHandle ⟨tunedRegs, []⟩
        VL53L0X_SYSTEM_SEQUENCE_CONFIG).1).1.final_range_mclks = 418 :=
  have hsum : 418 + (if (readReg regBus sampleHandle ⟨tunedRegs, []⟩
        VL53L0X_SYSTEM_SEQUENCE_CONFIG).1 &&& VL53L0X_SEQUENCE_ENABLE_PRE_RANGE ≠ 0
      then (getSequenceStepTimeouts regBus sampleHandle
        (readReg regBus sampleHandle ⟨tunedRegs, []⟩ VL53L0X_SYSTEM_SEQUENCE_CONFIG).2
        (readReg regBus sampleHandle ⟨tunedRegs, []⟩
          VL53L0X_SYSTEM_SEQUENCE_CONFIG).1).1.pre_range_mclks
      else 0) = 569 := by decide
  cumulative_storage_symmetry tunedRegs sampleHandle [] 33000 418 (by decide) (by decide)
    (by decide) (by decide) (by decide)
    (by rw [hsum, encodeTimeout_569]; decide)

/-! ## Reading the timing budget -/

/-- With step durations in the range `timeoutMclksToMicroseconds` produces, the 32-bit
accumulation of `getMeasurementTimingBudget` never wraps and equals the spec's formula. -/
theorem readBudgetSum_eq_spec (enables : Nat) (t : SequenceStepTimeouts)
    (h1 : t.msrc_dss_tcc_us ≤ 4294967) (h2 : t.pre_range_us ≤ 4294967)
    (h3 : t.final_range_us ≤ 4294967) :
    readBudgetSum enables t = specReadBudget enables t := by
  unfold readBudgetSum specReadBudget
  simp only
  split_ifs <;> omega

/-- C11. For every bus behaviour, `getMeasurementTimingBudget` returns
1910 + 960 + [TCC](msrc_us + 590) + ([DSS] 2*(msrc_us + 690), else [MSRC](msrc_us + 660))
+ [pre-range](pre_range_us + 660) + [final-range](final_range_us + 550) with the step
durations of the sequence step model; it always returns a value (there is no failure
path), issues no register write, and caches the returned value in the handle. -/
theorem readBudget_spec {σ : Type} (b : Bus σ) (h : vl53x) (w : World σ) :
    (getMeasurementTimingBudget b h w).1 =
      specReadBudget (readReg b h w VL53L0X_SYSTEM_SEQUENCE_CONFIG).1
        (getSequenceStepTimeouts b h (readReg b h w VL53L0X_SYSTEM_SEQUENCE_CONFIG).2
          (readReg b h w VL53L0X_SYSTEM_SEQUENCE_CONFIG).1).1 ∧
    newWrites w (getMeasurementTimingBudget b h w).2.2 = [] ∧
    (getMeasurementTimingBudget b h w).2.1.measurement_timing_budget_us =
      (getMeasurementTimingBudget b h w).1 := by
  obtain ⟨hu1, hu2, hu3⟩ := getSequenceStepTimeouts_us_le b h
    (readReg b h w VL53L0X_SYSTEM_SEQUENCE_CONFIG).2
    (readReg b h w VL53L0X_SYSTEM_SEQUENCE_CONFIG).1
  obtain ⟨l, hl, hlw⟩ := getSequenceStepTimeouts_trace b h
    (readReg b h w VL53L0X_SYSTEM_SEQUENCE_CONFIG).2
    (readReg b h w VL53L0X_SYSTEM_SEQUENCE_CONFIG).1
  obtain ⟨e1, he1, hw1⟩ := readReg_ext b h w VL53L0X_SYSTEM_SEQUENCE_CONFIG
  refine ⟨?_, ?_, rfl⟩
  · simp only [getMeasurementTimingBudget]
    exact readBudgetSum_eq_spec _ _ hu1 hu2 hu3
  · simp only [getMeasurementTimingBudget]
    rw [newWrites_eq w _ ([e1] ++ l) (by rw [hl, he1, List.append_assoc]), writesOf_append,
      hw1, writesOf_reads l hlw]
    rfl

/-- C13. For every bus behaviour in which the sequence configuration reads with the
final-range bit clear, and every 32-bit `budget_us >= 20000`, `setMeasurementTimingBudget`
returns success, issues no register write and leaves the handle, with its cached budget,
as it was. -/
theorem applyBudget_final_disabled {σ : Type} (b : Bus σ) (h : vl53x) (w : World σ)
    (budget_us : Nat) (hmin : 20000 ≤ budget_us) (h32 : budget_us < 4294967296)
    (hoff : (readReg b h w VL53L0X_SYSTEM_SEQUENCE_CONFIG).1
      &&& VL53L0X_SEQUENCE_ENABLE_FINAL_RANGE = 0) :
    (setMeasurementTimingBudget b h w budget_us).1 = some 1 ∧
    newWrites w (setMeasurementTimingBudget b h w budget_us).2.2 = [] ∧
    (setMeasurementTimingBudget b h w budget_us).2.1 = h := by
  obtain ⟨l, hl, hlw⟩ := getSequenceStepTimeouts_trace b h
    (readReg b h w VL53L0X_SYSTEM_SEQUENCE_CONFIG).2
    (readReg b h w VL53L0X_SYSTEM_SEQUENCE_CONFIG).1
  obtain ⟨e1, he1, hw1⟩ := readReg_ext b h w VL53L0X_SYSTEM_SEQUENCE_CONFIG
  have hb : budget_us % 4294967296 = budget_us := Nat.mod_eq_of_lt h32
  have hnot : ¬ budget_us < 20000 := by omega
  have hoff2 : ¬ (readReg b h w VL53L0X_SYSTEM_SEQUENCE_CONFIG).1
      &&& VL53L0X_SEQUENCE_ENABLE_FINAL_RANGE ≠ 0 := by
    rw [hoff]; exact fun hne => hne rfl
  have hval : setMeasurementTimingBudget b h w budget_us = (some 1, h,
      (getSequenceStepTimeouts b h (readReg b h w VL53L0X_SYSTEM_SEQUENCE_CONFIG).2
        (readReg b h w VL53L0X_SYSTEM_SEQUENCE_CONFIG).1).2) := by
    unfold setMeasurementTimingBudget
    simp only [hb, hnot, if_false]
    rw [if_neg hoff2]
  rw [hval]
  refine ⟨rfl, ?_, rfl⟩
  rw [newWrites_eq w _ ([e1] ++ l) (by rw [hl, he1, List.append_assoc]), writesOf_append,
    hw1, writesOf_reads l hlw]
  rfl

/-- Witness for C13: sequence configuration `0x68` (final-range off) and a budget of
33000 microseconds. -/
theorem applyBudget_final_disabled_witness :
    (setMeasurementTimingBudget regBus sampleHandle ⟨finalOffRegs, []⟩ 33000).1 = some 1 ∧
    newWrites ⟨finalOffRegs, []⟩
      (setMeasurementTimingBudget regBus sampleHandle ⟨finalOffRegs, []⟩ 33000).2.2 = [] ∧
    (setMeasurementTimingBudget regBus sampleHandle ⟨finalOffRegs, []⟩ 33000).2.1 =
      sampleHandle :=
  applyBudget_final_disabled regBus sampleHandle ⟨finalOffRegs, []⟩ 33000
    (by decide) (by decide) (by decide)

/-! ## Conversions between macro-clocks and microseconds -/

theorem calcMacroPeriod_legal (p : Nat) (hp : p ∈ allLegalPeriods) :
    calcMacroPeriod (p % 256) = specMacroPeriod p ∧
    (specMacroPeriod p = 30505 ∨ specMacroPeriod p = 38131 ∨ specMacroPeriod p = 45757 ∨
     specMacroPeriod p = 53384 ∨ specMacroPeriod p = 61010 ∨ specMacroPeriod p = 68636) := by
  simp only [allLegalPeriods, List.mem_cons, List.mem_singleton, List.not_mem_nil, or_false]
    at hp
  rcases hp with rfl | rfl | rfl | rfl | rfl | rfl <;> decide

/-- When the 32-bit intermediate `t * mp + mp/2` does not wrap, the source conversion is
the exact one of the spec. -/
theorem timeoutMclksToMicroseconds_exact (t p : Nat) (hp : p ∈ allLegalPeriods)
    (ht : t ≤ 65535)
    (hfit : t * specMacroPeriod p + specMacroPeriod p / 2 ≤ 4294967295) :
    timeoutMclksToMicroseconds t p = specTicksToMicroseconds t p := by
  obtain ⟨hmp, hcases⟩ := calcMacroPeriod_legal p hp
  unfold timeoutMclksToMicroseconds specTicksToMicroseconds
  simp only [hmp]
  have ht' : t % 65536 = t := Nat.mod_eq_of_lt (by omega)
  rw [ht']
  have hmul : t * specMacroPeriod p % 4294967296 = t * specMacroPeriod p :=
    Nat.mod_eq_of_lt (by omega)
  rw [hmul, Nat.mod_eq_of_lt (by omega)]

/-- For the periods 8 to 16 the 32-bit intermediate never wraps on 16-bit tick counts. -/
theorem timeoutMclksToMicroseconds_exact_upto16 (t p : Nat) (hp : p ∈ [8, 10, 12, 14, 16])
    (ht : t ≤ 65535) :
    timeoutMclksToMicroseconds t p = specTicksToMicroseconds t p := by
  simp only [List.mem_cons, List.mem_singleton, List.not_mem_nil, or_false] at hp
  rcases hp with rfl | rfl | rfl | rfl | rfl
  · exact timeoutMclksToMicroseconds_exact t 8 (by decide) ht (by
      have h : specMacroPeriod 8 = 30505 := by decide
      rw [h]; omega)
  · exact timeoutMclksToMicroseconds_exact t 10 (by decide) ht (by
      have h : specMacroPeriod 10 = 38131 := by decide
      rw [h]; omega)
  · exact timeoutMclksToMicroseconds_exact t 12 (by decide) ht (by
      have h : specMacroPeriod 12 = 45757 := by decide
      rw [h]; omega)
  · exact timeoutMclksToMicroseconds_exact t 14 (by decide) ht (by
      have h : specMacroPeriod 14 = 53384 := by decide
      rw [h]; omega)
  · exact timeoutMclksToMicroseconds_exact t 16 (by decide) ht (by
      have h : specMacroPeriod 16 = 61010 := by decide
      rw [h]; omega)

/-- C18 (the code at the failing input). For period 18 the macro period is 68636 ns and
`t * 68636 + 34318` passes 2^32 from `t = 62576` on: for `t = 65281` (what `decodeTimeout`
gives for register value `0x08ff`) the source returns 185693 instead of the exact
4480661, and for `t = 65535` it returns 203127 instead of 4498094. -/
theorem ticksToMicroseconds_wraps_at_period_18 :
    timeoutMclksToMicroseconds 65281 18 = 185693 ∧
    specTicksToMicroseconds 65281 18 = 4480661 ∧
    decodeTimeout 0x08FF = 65281 ∧
    timeoutMclksToMicroseconds 65535 18 = 203127 ∧
    specTicksToMicroseconds 65535 18 = 4498094 := by
  decide

theorem roundtrip_arith (mp t : Nat)
    (hmp : mp = 30505 ∨ mp = 38131 ∨ mp = 45757 ∨ mp = 53384 ∨ mp = 61010 ∨ mp = 68636) :
    ((t * mp + mp / 2) / 1000 * 1000 + mp / 2) / mp = t := by
  rcases hmp with rfl | rfl | rfl | rfl | rfl | rfl <;> omega

/-- C19. For every legal pulse period `p` and every 16-bit tick count `t` for which
neither conversion's 32-bit intermediate (`t * mp + mp/2`, and `us * 1000 + mp/2`) exceeds
2^32 - 1, converting `t` to microseconds and back at the same period gives `t`. -/
theorem microsecondsToTicks_inverts_ticksToMicroseconds (t p : Nat)
    (hp : p ∈ allLegalPeriods) (ht : t ≤ 65535)
    (h1 : t * specMacroPeriod p + specMacroPeriod p / 2 ≤ 4294967295)
    (h2 : timeoutMclksToMicroseconds t p * 1000 + specMacroPeriod p / 2 ≤ 4294967295) :
    timeoutMicrosecondsToMclks (timeoutMclksToMicroseconds t p) p = some t := by
  obtain ⟨hmp, hcases⟩ := calcMacroPeriod_legal p hp
  have hexact := timeoutMclksToMicroseconds_exact t p hp ht h1
  rw [hexact] at h2 ⊢
  unfold timeoutMicrosecondsToMclks
  simp only [hmp]
  have hne : specMacroPeriod p ≠ 0 := by
    rcases hcases with h | h | h | h | h | h <;> rw [h] <;> decide
  rw [if_neg hne]
  have hus : specTicksToMicroseconds t p % 4294967296 = specTicksToMicroseconds t p :=
    Nat.mod_eq_of_lt (by omega)
  rw [hus, Nat.mod_eq_of_lt (a := specTicksToMicroseconds t p * 1000) (by omega),
    Nat.mod_eq_of_lt (by omega)]
  unfold specTicksToMicroseconds
  rw [roundtrip_arith (specMacroPeriod p) t hcases]

/-- Witness for C19: 358 macro-clocks at period 10 are 13669 microseconds, which convert
back to 358 macro-clocks. -/
theorem microsecondsToTicks_inverts_ticksToMicroseconds_witness :
    timeoutMicrosecondsToMclks (timeoutMclksToMicroseconds 358 10) 10 = some 358 :=
  microsecondsToTicks_inverts_ticksToMicroseconds 358 10 (by decide) (by decide)
    (by decide) (by decide)

/-! ## Reference calibration -/

/-- The calibration loop leaves normally at the first poll whose low three bits are
non-zero, provided that poll is among the first 101. -/
theorem refCalibrationLoop_ready {σ : Type} (b : Bus σ) (h : vl53x) (n : Nat) :
    ∀ (i : Nat) (w : World σ), i + n ≤ 100 →
      (∀ j, j < n → pollValue b h VL53L0X_RESULT_INTERRUPT_STATUS w (j + 1) &&& 0x07 = 0) →
      pollValue b h VL53L0X_RESULT_INTERRUPT_STATUS w (n + 1) &&& 0x07 ≠ 0 →
      refCalibrationLoop b h i w =
        (false, afterReads b h VL53L0X_RESULT_INTERRUPT_STATUS (n + 1) w) := by
  induction n with
  | zero =>
    intro i w _ _ hready
    rw [refCalibrationLoop]
    simp only [pollValue, Nat.add_sub_cancel, afterReads] at hready
    simp [hready, afterReads]
  | succ n ih =>
    intro i w hi hidle hready
    have h0 := hidle 0 (by omega)
    simp only [pollValue, Nat.zero_add, Nat.sub_self, afterReads] at h0
    rw [refCalibrationLoop]
    have hlt : ¬ (i + 1 > 100) := by omega
    simp only [h0, if_true, hlt, dite_false]
    rw [ih (i + 1) _ (by omega)]
    · rfl
    · intro j hj
      rw [pollValue_shift]
      exact hidle (j + 1) (by omega)
    · rw [pollValue_shift]
      exact hready

/-- The calibration loop, entered with counter `i`, gives up only after `101 - i` polls
that all read zero in the low three bits. -/
theorem refCalibrationLoop_timeout {σ : Type} (b : Bus σ) (h : vl53x) (n : Nat) :
    ∀ (i : Nat) (w : World σ), i + n = 100 →
      (∀ j, j < n + 1 →
        pollValue b h VL53L0X_RESULT_INTERRUPT_STATUS w (j + 1) &&& 0x07 = 0) →
      refCalibrationLoop b h i w =
        (true, afterReads b h VL53L0X_RESULT_INTERRUPT_STATUS (n + 1) w) := by
  induction n with
  | zero =>
    intro i w hi hidle
    have h0 := hidle 0 (by omega)
    simp only [pollValue, Nat.zero_add, Nat.sub_self, afterReads] at h0
    rw [refCalibrationLoop]
    have hlt : i + 1 > 100 := by omega
    simp [h0, hlt, afterReads]
  | succ n ih =>
    intro i w hi hidle
    have h0 := hidle 0 (by omega)
    simp only [pollValue, Nat.zero_add, Nat.sub_self, afterReads] at h0
    rw [refCalibrationLoop]
    have hlt : ¬ (i + 1 > 100) := by omega
    simp only [h0, if_true, hlt, dite_false]
    rw [ih (i + 1) _ (by omega)]
    · rfl
    · intro j hj
      rw [pollValue_shift]
      exact hidle (j + 1) (by omega)

/-- When the interrupt status first reads non-zero on poll `k` (at most the 101st),
`performSingleRefCalibration` writes `0x01 | init` to the start register, polls `k`
times, writes `0x01` to interrupt-clear, then `0x00` to the start register, and returns
1. -/
theorem performSingleRefCalibration_ready {σ : Type} (b : Bus σ) (h : vl53x) (w : World σ)
    (vhv_init_byte k : Nat) (hk1 : 1 ≤ k) (hk : k ≤ 101)
    (hidle : ∀ j, 1 ≤ j → j < k →
      pollValue b h VL53L0X_RESULT_INTERRUPT_STATUS
        (writeReg b h w VL53L0X_SYSRANGE_START (0x01 ||| (vhv_init_byte % 256))) j
        &&& 0x07 = 0)
    (hready : pollValue b h VL53L0X_RESULT_INTERRUPT_STATUS
        (writeReg b h w VL53L0X_SYSRANGE_START (0x01 ||| (vhv_init_byte % 256))) k
        &&& 0x07 ≠ 0) :
    performSingleRefCalibration b h w vhv_init_byte =
      (1, writeReg b h
        (writeReg b h
          (afterReads b h VL53L0X_RESULT_INTERRUPT_STATUS k
            (writeReg b h w VL53L0X_SYSRANGE_START (0x01 ||| (vhv_init_byte % 256))))
          VL53L0X_SYSTEM_INTERRUPT_CLEAR 0x01)
        VL53L0X_SYSRANGE_START 0x00) := by
  obtain ⟨k, rfl⟩ : ∃ k0, k = k0 + 1 := ⟨k - 1, by omega⟩
  have hL := refCalibrationLoop_ready b h k 0
    (writeReg b h w VL53L0X_SYSRANGE_START (0x01 ||| (vhv_init_byte % 256))) (by omega)
    (fun j hj => hidle (j + 1) (by omega) (by omega)) hready
  simp only [performSingleRefCalibration, hL]
  simp

/-- When the interrupt status reads zero in its low three bits on each of 101 polls,
`performSingleRefCalibration` returns 0 after the start write and those 101 reads. -/
theorem performSingleRefCalibration_timeout {σ : Type} (b : Bus σ) (h : vl53x)
    (w : World σ) (vhv_init_byte : Nat)
    (hidle : ∀ j, 1 ≤ j → j ≤ 101 →
      pollValue b h VL53L0X_RESULT_INTERRUPT_STATUS
        (writeReg b h w VL53L0X_SYSRANGE_START (0x01 ||| (vhv_init_byte % 256))) j
        &&& 0x07 = 0) :
    performSingleRefCalibration b h w vhv_init_byte =
      (0, afterReads b h VL53L0X_RESULT_INTERRUPT_STATUS 101
        (writeReg b h w VL53L0X_SYSRANGE_START (0x01 ||| (vhv_init_byte % 256)))) := by
  have hL := refCalibrationLoop_timeout b h 100 0
    (writeReg b h w VL53L0X_SYSRANGE_START (0x01 ||| (vhv_init_byte % 256))) (by omega)
    (fun j hj => hidle (j + 1) (by omega) (by omega))
  simp only [performSingleRefCalibration, hL]
  simp

/-- On the silent device every poll reads zero. -/
theorem pollValue_silentBus (h : vl53x) (reg : Nat) (w : World Unit) (k : Nat) :
    pollValue silentBus h reg w k = 0 := by
  simp [pollValue, readReg, silentBus]

/-- On the silent device every reference calibration times out. -/
theorem performSingleRefCalibration_silentBus (h : vl53x) (w : World Unit) (v : Nat) :
    performSingleRefCalibration silentBus h w v =
      (0, afterReads silentBus h VL53L0X_RESULT_INTERRUPT_STATUS 101
        (writeReg silentBus h w VL53L0X_SYSRANGE_START (0x01 ||| (v % 256)))) :=
  performSingleRefCalibration_timeout silentBus h w v
    (fun j _ _ => by rw [pollValue_silentBus]; rfl)

/-- C20 (the code at the failing input). On a device whose interrupt-status register
reads `0x00` on every poll, `performSingleRefCalibration` returns 0 (timeout) after
reading the interrupt-status register 101 times, not at most 100; its only write is the
opening `0x01 | init` to the start register. -/
theorem refCalibration_timeout_reads_101_times :
    (performSingleRefCalibration silentBus sampleHandle ⟨(), []⟩ 0x40).1 = 0 ∧
    ((newEvents ⟨(), []⟩
      (performSingleRefCalibration silentBus sampleHandle ⟨(), []⟩ 0x40).2).filter
      (Ev.isReadOf VL53L0X_RESULT_INTERRUPT_STATUS)).length = 101 ∧
    newWrites ⟨(), []⟩ (performSingleRefCalibration silentBus sampleHandle ⟨(), []⟩ 0x40).2 =
      [(VL53L0X_SYSRANGE_START, [0x41])] := by
  rw [performSingleRefCalibration_silentBus]
  obtain ⟨l, hl, hlen, hlr⟩ := afterReads_trace silentBus sampleHandle
    VL53L0X_RESULT_INTERRUPT_STATUS 101
    (writeReg silentBus sampleHandle ⟨(), []⟩ VL53L0X_SYSRANGE_START (0x01 ||| (0x40 % 256)))
  obtain ⟨e, he, hwe⟩ := writeReg_ext silentBus sampleHandle ⟨(), []⟩ VL53L0X_SYSRANGE_START
    (0x01 ||| (0x40 % 256))
  have h13 : VL53L0X_RESULT_INTERRUPT_STATUS % 256 = VL53L0X_RESULT_INTERRUPT_STATUS := by
    decide
  rw [h13] at hlr
  have htr : (afterReads silentBus sampleHandle VL53L0X_RESULT_INTERRUPT_STATUS 101
      (writeReg silentBus sampleHandle ⟨(), []⟩ VL53L0X_SYSRANGE_START
        (0x01 ||| (0x40 % 256)))).trace = ([] : List Ev) ++ ([e] ++ l) := by
    rw [hl, he, List.append_assoc]
  refine ⟨rfl, ?_, ?_⟩
  · have hre : [e].filter (Ev.isReadOf VL53L0X_RESULT_INTERRUPT_STATUS) = [] := by
      have h1 : e = Ev.write sampleHandle.iic_index sampleHandle.baseAddr
          (VL53L0X_SYSRANGE_START % 256) [(0x01 ||| (0x40 % 256)) % 256] 0 := by
        have h2 := he
        rw [writeReg_trace] at h2
        simpa [silentBus] using (List.append_cancel_left h2).symm
      rw [h1]; rfl
    simp only [newEvents, htr, List.nil_append, List.length_nil, List.drop_zero,
      List.filter_append, hre, filter_isReadOf_same _ l hlr]
    exact hlen
  · rw [newWrites_eq _ _ _ htr, writesOf_append, hwe,
      writesOf_reads l (by
        rw [List.filter_eq_nil_iff]
        intro x hx
        simp [Ev.isWrite_of_isReadOf (hlr x hx)])]
    decide

/-! ## The tail of `setVcselPulsePeriod` -/

/-- The re-apply and calibrate tail returns 1 whenever the budget re-application does not
trap, whatever the calibration returned. -/
theorem vcselReapplyAndCalibrate_ret {σ : Type} (b : Bus σ) (h : vl53x) (w : World σ)
    (hs : (setMeasurementTimingBudget b h w h.measurement_timing_budget_us).1 ≠ none) :
    (vcselReapplyAndCalibrate b h w).1 = some 1 := by
  unfold vcselReapplyAndCalibrate
  simp only
  split
  · rename_i heq
    exact absurd heq hs
  · rfl

/-- For a legal period `setVcselPulsePeriod` ends in the re-apply and calibrate tail. -/
theorem setVcselPulsePeriod_legal_tail {σ : Type} (b : Bus σ) (h : vl53x) (w : World σ)
    (type : vcselPeriodType) (p : Nat) (hp : p ∈ legalPeriods type) :
    ∃ w3 : World σ, setVcselPulsePeriod b h w type p = vcselReapplyAndCalibrate b h w3 := by
  have key1 : ∀ hi : Nat, p < 256 → preRangePhaseHigh p = some hi →
      calcMacroPeriod (p % 256) ≠ 0 →
      ∃ w3 : World σ, setVcselPulsePeriod b h w vcselPeriodType.VcselPeriodPreRange p =
        vcselReapplyAndCalibrate b h w3 := by
    intro hi hlt hhi hmp
    have hmod : p % 256 = p := Nat.mod_eq_of_lt hlt
    obtain ⟨m1, hm1⟩ := timeoutMicrosecondsToMclks_isSome
      (getSequenceStepTimeouts b h (readReg b h w VL53L0X_SYSTEM_SEQUENCE_CONFIG).2
        (readReg b h w VL53L0X_SYSTEM_SEQUENCE_CONFIG).1).1.pre_range_us p hmp
    obtain ⟨m2, hm2⟩ := timeoutMicrosecondsToMclks_isSome
      (getSequenceStepTimeouts b h (readReg b h w VL53L0X_SYSTEM_SEQUENCE_CONFIG).2
        (readReg b h w VL53L0X_SYSTEM_SEQUENCE_CONFIG).1).1.msrc_dss_tcc_us p hmp
    simp only [setVcselPulsePeriod, hmod, hhi, hm1, hm2]
    exact ⟨_, rfl⟩
  have key2 : ∀ t : Nat × Nat × Nat × Nat, p < 256 → finalRangePhaseTable p = some t →
      calcMacroPeriod (p % 256) ≠ 0 →
      ∃ w3 : World σ, setVcselPulsePeriod b h w vcselPeriodType.VcselPeriodFinalRange p =
        vcselReapplyAndCalibrate b h w3 := by
    intro t hlt ht hmp
    have hmod : p % 256 = p := Nat.mod_eq_of_lt hlt
    obtain ⟨m, hm⟩ := timeoutMicrosecondsToMclks_isSome
      (getSequenceStepTimeouts b h (readReg b h w VL53L0X_SYSTEM_SEQUENCE_CONFIG).2
        (readReg b h w VL53L0X_SYSTEM_SEQUENCE_CONFIG).1).1.final_range_us p hmp
    simp only [setVcselPulsePeriod, hmod, ht, hm]
    exact ⟨_, rfl⟩
  cases type with
  | VcselPeriodPreRange =>
    simp only [legalPeriods, List.mem_cons, List.mem_singleton, List.not_mem_nil, or_false]
      at hp
    rcases hp with rfl | rfl | rfl | rfl
    · exact key1 0x18 (by decide) (by decide) (by decide)
    · exact key1 0x30 (by decide) (by decide) (by decide)
    · exact key1 0x40 (by decide) (by decide) (by decide)
    · exact key1 0x50 (by decide) (by decide) (by decide)
  | VcselPeriodFinalRange =>
    simp only [legalPeriods, List.mem_cons, List.mem_singleton, List.not_mem_nil, or_false]
      at hp
    rcases hp with rfl | rfl | rfl | rfl
    · exact key2 (0x10, 0x02, 0x0C, 0x30) (by decide) (by decide) (by decide)
    · exact key2 (0x28, 0x03, 0x09, 0x20) (by decide) (by decide) (by decide)
    · exact key2 (0x38, 0x03, 0x08, 0x20) (by decide) (by decide) (by decide)
    · exact key2 (0x48, 0x03, 0x07, 0x20) (by decide) (by decide) (by decide)

/-- For every target and legal period `setVcselPulsePeriod` returns 1 or traps; it has no
path that reports a calibration timeout. -/
theorem setVcselPulsePeriod_legal_ret {σ : Type} (b : Bus σ) (h : vl53x) (w : World σ)
    (type : vcselPeriodType) (p : Nat) (hp : p ∈ legalPeriods type) :
    (setVcselPulsePeriod b h w type p).1 = some 1 ∨
    (setVcselPulsePeriod b h w type p).1 = none := by
  obtain ⟨w3, hw3⟩ := setVcselPulsePeriod_legal_tail b h w type p hp
  rw [hw3]
  by_cases hs : (setMeasurementTimingBudget b h w3 h.measurement_timing_budget_us).1 = none
  · right
    unfold vcselReapplyAndCalibrate
    simp only
    split
    · rfl
    · rename_i v heq
      rw [hs] at heq
      exact absurd heq (by simp)
  · left
    exact vcselReapplyAndCalibrate_ret b h w3 hs

/-- With final-range disabled the budget call never traps. -/
theorem setMeasurementTimingBudget_final_off_ne_none {σ : Type} (b : Bus σ) (h : vl53x)
    (w : World σ) (budget_us : Nat)
    (hoff : (readReg b h w VL53L0X_SYSTEM_SEQUENCE_CONFIG).1
      &&& VL53L0X_SEQUENCE_ENABLE_FINAL_RANGE = 0) :
    (setMeasurementTimingBudget b h w budget_us).1 ≠ none := by
  have hoff2 : ¬ ((readReg b h w VL53L0X_SYSTEM_SEQUENCE_CONFIG).1
      &&& VL53L0X_SEQUENCE_ENABLE_FINAL_RANGE ≠ 0) := fun hne => hne hoff
  unfold setMeasurementTimingBudget
  by_cases hlow : budget_us % 4294967296 < 20000
  · rw [if_pos hlow]
    exact Option.some_ne_none 0
  · rw [if_neg hlow]
    simp only []
    rw [if_neg hoff2]
    exact Option.some_ne_none 1

/-- The silent device answers every register read with 0. -/
theorem readReg_silentBus_val (h : vl53x) (w : World Unit) (reg : Nat) :
    (readReg silentBus h w reg).1 = 0 := by
  simp [readReg, silentBus]

/-- On the silent device the sequence configuration reads 0, so the budget call never
traps. -/
theorem setMeasurementTimingBudget_silentBus (h : vl53x) (w : World Unit) (budget_us : Nat) :
    (setMeasurementTimingBudget silentBus h w budget_us).1 ≠ none :=
  setMeasurementTimingBudget_final_off_ne_none silentBus h w budget_us
    (by rw [readReg_silentBus_val]; decide)

/-- C14 (the code at the failing input). On a device whose interrupt-status register
reads `0x00` on every poll every reference calibration times out (returns 0), and yet
`setVcselPulsePeriod` returns 1 for a legal final-range and a legal pre-range period. -/
theorem setPulsePeriod_ignores_calibration_timeout :
    (∀ w : World Unit, (performSingleRefCalibration silentBus sampleHandle w 0x0).1 = 0) ∧
    (setVcselPulsePeriod silentBus sampleHandle ⟨(), []⟩
      vcselPeriodType.VcselPeriodFinalRange 10).1 = some 1 ∧
    (setVcselPulsePeriod silentBus sampleHandle ⟨(), []⟩
      vcselPeriodType.VcselPeriodPreRange 14).1 = some 1 := by
  refine ⟨fun w => by rw [performSingleRefCalibration_silentBus], ?_, ?_⟩
  · obtain ⟨w3, hw3⟩ := setVcselPulsePeriod_legal_tail silentBus sampleHandle ⟨(), []⟩
      vcselPeriodType.VcselPeriodFinalRange 10 (by decide)
    rw [hw3]
    exact vcselReapplyAndCalibrate_ret _ _ _ (setMeasurementTimingBudget_silentBus _ _ _)
  · obtain ⟨w3, hw3⟩ := setVcselPulsePeriod_legal_tail silentBus sampleHandle ⟨(), []⟩
      vcselPeriodType.VcselPeriodPreRange 14 (by decide)
    rw [hw3]
    exact vcselReapplyAndCalibrate_ret _ _ _ (setMeasurementTimingBudget_silentBus _ _ _)

/-! ## Timeout sentinels of `tofReadDistance` -/

/-- The start-bit loop of `tofReadDistance`, entered with counter `i`, gives up only after
`51 - i` polls that all read the start bit set. -/
theorem startBitLoop_timeout {σ : Type} (b : Bus σ) (h : vl53x) (n : Nat) :
    ∀ (i : Nat) (w : World σ), i + n = 50 →
      (∀ j, j < n + 1 → pollValue b h VL53L0X_SYSRANGE_START w (j + 1) &&& 0x01 ≠ 0) →
      startBitLoop b h i w = (true, afterReads b h VL53L0X_SYSRANGE_START (n + 1) w) := by
  induction n with
  | zero =>
    intro i w hi hbusy
    have h0 := hbusy 0 (by omega)
    simp only [pollValue, Nat.zero_add, Nat.sub_self, afterReads] at h0
    rw [startBitLoop]
    have hlt : i + 1 > 50 := by omega
    simp only [ne_eq, h0, not_false_eq_true, if_true, hlt, dite_true, Nat.zero_add,
      afterReads]
  | succ n ih =>
    intro i w hi hbusy
    have h0 := hbusy 0 (by omega)
    simp only [pollValue, Nat.zero_add, Nat.sub_self, afterReads] at h0
    rw [startBitLoop]
    have hlt : ¬ (i + 1 > 50) := by omega
    simp only [ne_eq, h0, not_false_eq_true, if_true, hlt, dite_false]
    rw [ih (i + 1) _ (by omega)]
    · rfl
    · intro j hj
      rw [pollValue_shift]
      exact hbusy (j + 1) (by omega)

/-- When the start bit reads set on each of 51 polls `tofReadDistance` leaves through
the first `return -1`, which is 4294967295 in its `uint32_t` result. -/
theorem tofReadDistance_start_timeout {σ : Type} (b : Bus σ) (sensor : vl53x)
    (w : World σ)
    (hbusy : ∀ j, 1 ≤ j → j ≤ 51 →
      pollValue b sensor VL53L0X_SYSRANGE_START (tofStartWrites b sensor w) j &&& 0x01 ≠ 0) :
    (startBitLoop b sensor 0 (tofStartWrites b sensor w)).1 = true ∧
    (tofReadDistance b sensor w).1 = 4294967295 := by
  have hS := startBitLoop_timeout b sensor 50 0 (tofStartWrites b sensor w) (by omega)
    (fun j hj => hbusy (j + 1) (by omega) (by omega))
  refine ⟨by rw [hS], ?_⟩
  simp only [tofReadDistance, hS]
  simp

/-- The 16-bit register read fits 16 bits. -/
theorem readReg16_le {σ : Type} (b : Bus σ) (h : vl53x) (w : World σ) (a : Nat) :
    (readReg16 b h w a).1 ≤ 65535 := by
  have := Nat.mod_lt ((((b.iic_read_register w.dev h.iic_index h.baseAddr (a % 256) 2).2.1.getD
    0 0 % 256) <<< 8) + (b.iic_read_register w.dev h.iic_index h.baseAddr (a % 256)
    2).2.1.getD 1 0 % 256) (by decide : 65536 > 0)
  simp only [readReg16]
  omega

/-- When the start bit first reads clear on poll `m` and the interrupt status first reads
non-zero on poll `k` (each at most the 51st), both loops of `tofReadDistance` leave
normally and the result is the 16-bit value read at range-status + 10. -/
theorem tofReadDistance_ready_val {σ : Type} (b : Bus σ) (sensor : vl53x) (w : World σ)
    (m k : Nat) (hm1 : 1 ≤ m) (hm : m ≤ 51) (hk1 : 1 ≤ k) (hk : k ≤ 51)
    (hbusy : ∀ j, 1 ≤ j → j < m →
      pollValue b sensor VL53L0X_SYSRANGE_START (tofStartWrites b sensor w) j &&& 0x01 ≠ 0)
    (hclear :
      pollValue b sensor VL53L0X_SYSRANGE_START (tofStartWrites b sensor w) m &&& 0x01 = 0)
    (hidle : ∀ j, 1 ≤ j → j < k →
      pollValue b sensor VL53L0X_RESULT_INTERRUPT_STATUS
        (afterReads b sensor VL53L0X_SYSRANGE_START m (tofStartWrites b sensor w)) j
        &&& 0x07 = 0)
    (hready :
      pollValue b sensor VL53L0X_RESULT_INTERRUPT_STATUS
        (afterReads b sensor VL53L0X_SYSRANGE_START m (tofStartWrites b sensor w)) k
        &&& 0x07 ≠ 0) :
    (startBitLoop b sensor 0 (tofStartWrites b sensor w)).1 = false ∧
    (readRangeLoop b sensor 0
      (startBitLoop b sensor 0 (tofStartWrites b sensor w)).2).1 = false ∧
    (tofReadDistance b sensor w).1 =
      (readReg16 b sensor
        (afterReads b sensor VL53L0X_RESULT_INTERRUPT_STATUS k
          (afterReads b sensor VL53L0X_SYSRANGE_START m (tofStartWrites b sensor w)))
        (VL53L0X_RESULT_RANGE_STATUS + 10)).1 := by
  obtain ⟨m, rfl⟩ : ∃ m0, m = m0 + 1 := ⟨m - 1, by omega⟩
  obtain ⟨k, rfl⟩ : ∃ k0, k = k0 + 1 := ⟨k - 1, by omega⟩
  have hS := startBitLoop_clear b sensor m 0 (tofStartWrites b sensor w) (by omega)
    (fun j hj => hbusy (j + 1) (by omega) (by omega)) hclear
  have hR := readRangeLoop_ready b sensor k 0
    (afterReads b sensor VL53L0X_SYSRANGE_START (m + 1) (tofStartWrites b sensor w))
    (by omega) (fun j hj => hidle (j + 1) (by omega) (by omega)) hready
  refine ⟨by rw [hS], by rw [hS, hR], ?_⟩
  simp only [tofReadDistance, hS, readRangeContinuousMillimeters, hR]
  simp

/-- When the start bit clears on poll `m` and the interrupt status reads zero in its low
three bits on each of 51 polls, the start loop leaves normally, the interrupt loop gives
up, and the result is 65535. -/
theorem tofReadDistance_interrupt_timeout_val {σ : Type} (b : Bus σ) (sensor : vl53x)
    (w : World σ) (m : Nat) (hm1 : 1 ≤ m) (hm : m ≤ 51)
    (hbusy : ∀ j, 1 ≤ j → j < m →
      pollValue b sensor VL53L0X_SYSRANGE_START (tofStartWrites b sensor w) j &&& 0x01 ≠ 0)
    (hclear :
      pollValue b sensor VL53L0X_SYSRANGE_START (tofStartWrites b sensor w) m &&& 0x01 = 0)
    (hidle : ∀ j, 1 ≤ j → j ≤ 51 →
      pollValue b sensor VL53L0X_RESULT_INTERRUPT_STATUS
        (afterReads b sensor VL53L0X_SYSRANGE_START m (tofStartWrites b sensor w)) j
        &&& 0x07 = 0) :
    (startBitLoop b sensor 0 (tofStartWrites b sensor w)).1 = false ∧
    (readRangeLoop b sensor 0
      (startBitLoop b sensor 0 (tofStartWrites b sensor w)).2).1 = true ∧
    (tofReadDistance b sensor w).1 = 65535 := by
  obtain ⟨m, rfl⟩ : ∃ m0, m = m0 + 1 := ⟨m - 1, by omega⟩
  have hS := startBitLoop_clear b sensor m 0 (tofStartWrites b sensor w) (by omega)
    (fun j hj => hbusy (j + 1) (by omega) (by omega)) hclear
  have hR := readRangeLoop_timeout b sensor 50 0
    (afterReads b sensor VL53L0X_SYSRANGE_START (m + 1) (tofStartWrites b sensor w))
    (by omega) (fun j hj => hidle (j + 1) (by omega) (by omega))
  refine ⟨by rw [hS], by rw [hS, hR], ?_⟩
  simp only [tofReadDistance, hS, readRangeContinuousMillimeters, hR]
  simp

/-- Every poll of register `reg` on a constant device reads `f reg`. -/
theorem pollValue_constBus (f : Nat → Nat) (h : vl53x) (reg : Nat) (w : World Unit)
    (k : Nat) : pollValue (constBus f) h reg w k = f (reg % 256) % 256 := by
  simp [pollValue, readReg, constBus]

/-- C16 (counterexample). A successful measurement whose distance register reads `0xFFFF`
(both polls leave normally) and a run whose interrupt poll times out return the same
value, 65535. -/
theorem measure_timeout_equals_max_reading :
    (readRangeLoop (scriptedBus 0 0xFF 0xFF) sampleHandle 0
      (startBitLoop (scriptedBus 0 0xFF 0xFF) sampleHandle 0
        (tofStartWrites (scriptedBus 0 0xFF 0xFF) sampleHandle ⟨0, []⟩)).2).1 = false ∧
    (readRangeLoop silentBus sampleHandle 0
      (startBitLoop silentBus sampleHandle 0
        (tofStartWrites silentBus sampleHandle ⟨(), []⟩)).2).1 = true ∧
    (tofReadDistance (scriptedBus 0 0xFF 0xFF) sampleHandle ⟨0, []⟩).1 = 65535 ∧
    (tofReadDistance silentBus sampleHandle ⟨(), []⟩).1 =
      (tofReadDistance (scriptedBus 0 0xFF 0xFF) sampleHandle ⟨0, []⟩).1 :=
  have h1 := tofReadDistance_ready_val (scriptedBus 0 0xFF 0xFF) sampleHandle ⟨0, []⟩ 1 1
    (by decide) (by decide) (by decide) (by decide)
    (by intro j h1 h2; omega) (by decide) (by intro j h1 h2; omega) (by decide)
  have h2 := tofReadDistance_interrupt_timeout_val silentBus sampleHandle ⟨(), []⟩ 1
    (by decide) (by decide) (by intro j h1 h2; omega) (by decide)
    (fun j _ _ => by rw [pollValue_silentBus]; rfl)
  have h3 : (tofReadDistance (scriptedBus 0 0xFF 0xFF) sampleHandle ⟨0, []⟩).1 = 65535 :=
    h1.2.2.trans (by decide)
  ⟨h1.2.1, h2.2.1, h3, h2.2.2.trans h3.symm⟩

/-- C16 (amended). Take any successful measurement: the start bit first reads clear on
poll `m` and the interrupt status first reads non-zero on poll `k` (each at most the 51st
poll). Then for every bus behaviour, a run whose start-bit poll is exhausted returns
4294967295, which differs from the successful result; and a run whose interrupt poll is
exhausted returns 65535, which differs from the successful result exactly when the
distance register of the successful run does not read `0xFFFF`. -/
theorem measure_timeout_vs_reading {σ τ : Type} (b1 : Bus σ) (s1 : vl53x) (w1 : World σ)
    (b2 : Bus τ) (s2 : vl53x) (w2 : World τ)
    (m k : Nat) (hm1 : 1 ≤ m) (hm : m ≤ 51) (hk1 : 1 ≤ k) (hk : k ≤ 51)
    (hbusy : ∀ j, 1 ≤ j → j < m →
      pollValue b2 s2 VL53L0X_SYSRANGE_START (tofStartWrites b2 s2 w2) j &&& 0x01 ≠ 0)
    (hclear :
      pollValue b2 s2 VL53L0X_SYSRANGE_START (tofStartWrites b2 s2 w2) m &&& 0x01 = 0)
    (hidle : ∀ j, 1 ≤ j → j < k →
      pollValue b2 s2 VL53L0X_RESULT_INTERRUPT_STATUS
        (afterReads b2 s2 VL53L0X_SYSRANGE_START m (tofStartWrites b2 s2 w2)) j
        &&& 0x07 = 0)
    (hready :
      pollValue b2 s2 VL53L0X_RESULT_INTERRUPT_STATUS
        (afterReads b2 s2 VL53L0X_SYSRANGE_START m (tofStartWrites b2 s2 w2)) k
        &&& 0x07 ≠ 0) :
    ((∀ j, 1 ≤ j → j ≤ 51 →
        pollValue b1 s1 VL53L0X_SYSRANGE_START (tofStartWrites b1 s1 w1) j &&& 0x01 ≠ 0) →
      (tofReadDistance b1 s1 w1).1 = 4294967295 ∧
      (tofReadDistance b1 s1 w1).1 ≠ (tofReadDistance b2 s2 w2).1) ∧
    (∀ m1, 1 ≤ m1 → m1 ≤ 51 →
      (∀ j, 1 ≤ j → j < m1 →
        pollValue b1 s1 VL53L0X_SYSRANGE_START (tofStartWrites b1 s1 w1) j &&& 0x01 ≠ 0) →
      pollValue b1 s1 VL53L0X_SYSRANGE_START (tofStartWrites b1 s1 w1) m1 &&& 0x01 = 0 →
      (∀ j, 1 ≤ j → j ≤ 51 →
        pollValue b1 s1 VL53L0X_RESULT_INTERRUPT_STATUS
          (afterReads b1 s1 VL53L0X_SYSRANGE_START m1 (tofStartWrites b1 s1 w1)) j
          &&& 0x07 = 0) →
      (tofReadDistance b1 s1 w1).1 = 65535 ∧
      ((tofReadDistance b1 s1 w1).1 ≠ (tofReadDistance b2 s2 w2).1 ↔
        (readReg16 b2 s2
          (afterReads b2 s2 VL53L0X_RESULT_INTERRUPT_STATUS k
            (afterReads b2 s2 VL53L0X_SYSRANGE_START m (tofStartWrites b2 s2 w2)))
          (VL53L0X_RESULT_RANGE_STATUS + 10)).1 ≠ 65535)) := by
  obtain ⟨_, _, hv⟩ := tofReadDistance_ready_val b2 s2 w2 m k hm1 hm hk1 hk hbusy hclear
    hidle hready
  have hle := readReg16_le b2 s2
    (afterReads b2 s2 VL53L0X_RESULT_INTERRUPT_STATUS k
      (afterReads b2 s2 VL53L0X_SYSRANGE_START m (tofStartWrites b2 s2 w2)))
    (VL53L0X_RESULT_RANGE_STATUS + 10)
  constructor
  · intro hb
    obtain ⟨_, ht⟩ := tofReadDistance_start_timeout b1 s1 w1 hb
    refine ⟨ht, ?_⟩
    rw [ht, hv]
    omega
  · intro m1 h1 h2 h3 h4 h5
    obtain ⟨_, _, ht⟩ := tofReadDistance_interrupt_timeout_val b1 s1 w1 m1 h1 h2 h3 h4 h5
    refine ⟨ht, ?_⟩
    rw [ht, hv]
    constructor
    · intro hne heq
      exact hne heq.symm
    · intro hne heq
      exact hne heq.symm

/-- Witness for C16 (amended): against the successful reading 400 of the scripted device,
the run on the device whose start bit never clears returns 4294967295 and the run on the
silent device returns 65535, each different from 400. -/
theorem measure_timeout_vs_reading_witness :
    ((tofReadDistance stuckStartBus sampleHandle ⟨(), []⟩).1 = 4294967295 ∧
      (tofReadDistance stuckStartBus sampleHandle ⟨(), []⟩).1 ≠
        (tofReadDistance (scriptedBus 0 0x01 0x90) sampleHandle ⟨0, []⟩).1) ∧
    ((tofReadDistance silentBus sampleHandle ⟨(), []⟩).1 = 65535 ∧
      (tofReadDistance silentBus sampleHandle ⟨(), []⟩).1 ≠
        (tofReadDistance (scriptedBus 0 0x01 0x90) sampleHandle ⟨0, []⟩).1) :=
  have hA := (measure_timeout_vs_reading stuckStartBus sampleHandle ⟨(), []⟩
    (scriptedBus 0 0x01 0x90) sampleHandle ⟨0, []⟩ 1 1
    (by decide) (by decide) (by decide) (by decide)
    (by intro j h1 h2; omega) (by decide) (by intro j h1 h2; omega) (by decide)).1
    (fun j _ _ => by rw [stuckStartBus, pollValue_constBus]; decide)
  have hB := (measure_timeout_vs_reading silentBus sampleHandle ⟨(), []⟩
    (scriptedBus 0 0x01 0x90) sampleHandle ⟨0, []⟩ 1 1
    (by decide) (by decide) (by decide) (by decide)
    (by intro j h1 h2; omega) (by decide) (by intro j h1 h2; omega) (by decide)).2
    1 (by decide) (by decide) (by intro j h1 h2; omega) (by decide)
    (fun j _ _ => by rw [pollValue_silentBus]; rfl)
  ⟨hA, hB.1, hB.2.2 (by decide)⟩

/-! ## Initialisation with a failing component step -/

/-- The SPAD-info loop, entered with counter `i`, leaves with the counter at 50 when the
strobe register reads zero on each of the `50 - i` polls. -/
theorem spadInfoLoop_timeout {σ : Type} (b : Bus σ) (h : vl53x) (n : Nat) :
    ∀ (i : Nat) (w : World σ), i + n = 50 →
      (∀ j, j < n → pollValue b h 0x83 w (j + 1) = 0) →
      spadInfoLoop b h i w = (50, afterReads b h 0x83 n w) := by
  induction n with
  | zero =>
    intro i w hi _
    have h50 : i = 50 := by omega
    subst h50
    rw [spadInfoLoop]
    simp [afterReads]
  | succ n ih =>
    intro i w hi hz
    have h0 := hz 0 (by omega)
    simp only [pollValue, Nat.zero_add, Nat.sub_self, afterReads] at h0
    rw [spadInfoLoop]
    have hlt : i < 50 := by omega
    simp only [hlt, dite_true, h0, ne_eq, not_true_eq_false, if_false]
    rw [ih (i + 1) _ (by omega)]
    · rfl
    · intro j hj
      rw [pollValue_shift]
      exact hz (j + 1) (by omega)

/-- On a bus whose strobe register `0x83` reads zero on every poll `getSpadInfo` returns
0 and leaves the caller's count and type untouched. -/
theorem getSpadInfo_timeout {σ : Type} (b : Bus σ) (h : vl53x) (w : World σ) (c t : Nat)
    (hz : ∀ (w1 : World σ) (j : Nat), pollValue b h 0x83 w1 j = 0) :
    (getSpadInfo b h w c t).1 = 0 ∧ (getSpadInfo b h w c t).2.1 = c ∧
    (getSpadInfo b h w c t).2.2.1 = t := by
  have hL := fun w1 : World σ => spadInfoLoop_timeout b h 50 0 w1 (by omega)
    (fun j _ => hz w1 (j + 1))
  simp only [getSpadInfo, hL]
  simp

/-- In short-range mode, on a bus where the budget call never traps and no reference
calibration times out, `initSensor` returns 0 whatever `getSpadInfo` and
`setMeasurementTimingBudget` returned. -/
theorem initSensor_short_range_ret {σ : Type} (b : Bus σ) (h : vl53x) (w : World σ)
    (hs : ∀ (h1 : vl53x) (w1 : World σ) (n : Nat),
      (setMeasurementTimingBudget b h1 w1 n).1 ≠ none)
    (hc : ∀ (h1 : vl53x) (w1 : World σ) (v : Nat),
      ¬ (performSingleRefCalibration b h1 w1 v).1 = 0) :
    (initSensor b h w 0).1 = some 0 := by
  unfold initSensor
  simp only [ne_eq, not_true_eq_false, if_false]
  split
  · rename_i heq
    exact absurd heq (hs _ _ _)
  · rw [if_neg (hc _ _ _), if_neg (hc _ _ _)]

/-- A single-byte read on a constant device returns `f reg`. -/
theorem readReg_constBus_val (f : Nat → Nat) (h : vl53x) (w : World Unit) (reg : Nat) :
    (readReg (constBus f) h w reg).1 = f (reg % 256) % 256 := by
  simp [readReg, constBus]

/-- With no sequence step enabled the budget read back is the fixed overhead
1910 + 960. -/
theorem getMeasurementTimingBudget_enables_zero {σ : Type} (b : Bus σ) (h : vl53x)
    (w : World σ) (hz : (readReg b h w VL53L0X_SYSTEM_SEQUENCE_CONFIG).1 = 0) :
    (getMeasurementTimingBudget b h w).1 = 2870 := by
  simp only [getMeasurementTimingBudget, hz]
  simp [readBudgetSum]

/-- On the ready device the sequence configuration reads 0. -/
theorem readReg_readyBus_sequence_config (h : vl53x) (w : World Unit) :
    (readReg readyBus h w VL53L0X_SYSTEM_SEQUENCE_CONFIG).1 = 0 := by
  rw [readyBus, readReg_constBus_val]
  decide

/-- On the ready device the budget call never traps. -/
theorem setMeasurementTimingBudget_readyBus (h : vl53x) (w : World Unit) (n : Nat) :
    (setMeasurementTimingBudget readyBus h w n).1 ≠ none :=
  setMeasurementTimingBudget_final_off_ne_none readyBus h w n
    (by rw [readReg_readyBus_sequence_config]; decide)

/-- On the ready device every reference calibration succeeds on its first poll. -/
theorem performSingleRefCalibration_readyBus (h : vl53x) (w : World Unit) (v : Nat) :
    (performSingleRefCalibration readyBus h w v).1 = 1 := by
  rw [performSingleRefCalibration_ready readyBus h w v 1 (by decide) (by decide)
    (by intro j h1 h2; omega) (by rw [readyBus, pollValue_constBus]; decide)]

/-- C17 (the code at the failing input). On a device whose SPAD-info strobe register
`0x83` never reads non-zero, `getSpadInfo` times out (returns 0) from every state, and the
budget re-application is refused (returns 0: the budget read back is 2870, below the
minimum) in every state; `tofInit` nevertheless returns 0, its success status. -/
theorem init_succeeds_despite_failed_steps :
    (∀ (h : vl53x) (w : World Unit) (c t : Nat), (getSpadInfo readyBus h w c t).1 = 0) ∧
    (∀ (h : vl53x) (w w1 : World Unit),
      (setMeasurementTimingBudget readyBus h w1
        (getMeasurementTimingBudget readyBus h w).1).1 = some 0) ∧
    (tofInit readyBus sampleHandle ⟨(), []⟩ 0 0x29 0).1 = some 0 := by
  refine ⟨fun h w c t => ?_, fun h w w1 => ?_, ?_⟩
  · exact (getSpadInfo_timeout readyBus h w c t
      (fun w1 j => by rw [readyBus, pollValue_constBus]; decide)).1
  · rw [getMeasurementTimingBudget_enables_zero readyBus h w
      (readReg_readyBus_sequence_config h w),
      setMeasurementTimingBudget_low_eq readyBus h w1 2870 (by decide)]
  · unfold tofInit
    exact initSensor_short_range_ret readyBus _ _
      (fun h1 w1 n => setMeasurementTimingBudget_readyBus h1 w1 n)
      (fun h1 w1 v => by rw [performSingleRefCalibration_readyBus]; decide)

/-! ## Reading the budget back after applying it -/

/-- A two-byte store leaves every other register as it was. -/
theorem regStore_two_other (regs : Nat → Nat) (reg d1 d2 a : Nat) (h1 : a ≠ reg)
    (h2 : a ≠ reg + 1) : regStore regs reg [d1, d2] a = regs a := by
  simp [regStore, h1, h2]

theorem readReg_okBus {σ : Type} (b : Bus σ) (h : vl53x) (w : World σ) (a : Nat) :
    readReg (okBus b) h w.clearStatus a =
      ((readReg b h w a).1, (readReg b h w a).2.clearStatus) := by
  simp [readReg, okBus, World.clearStatus, Ev.clearStatus]

theorem readReg16_okBus {σ : Type} (b : Bus σ) (h : vl53x) (w : World σ) (a : Nat) :
    readReg16 (okBus b) h w.clearStatus a =
      ((readReg16 b h w a).1, (readReg16 b h w a).2.clearStatus) := by
  simp [readReg16, okBus, World.clearStatus, Ev.clearStatus]

theorem writeReg_okBus {σ : Type} (b : Bus σ) (h : vl53x) (w : World σ) (a v : Nat) :
    writeReg (okBus b) h w.clearStatus a v = (writeReg b h w a v).clearStatus := by
  simp [writeReg, okBus, World.clearStatus, Ev.clearStatus]

theorem writeReg16_okBus {σ : Type} (b : Bus σ) (h : vl53x) (w : World σ) (a v : Nat) :
    writeReg16 (okBus b) h w.clearStatus a v = (writeReg16 b h w a v).clearStatus := by
  simp [writeReg16, okBus, World.clearStatus, Ev.clearStatus]

theorem getSequenceStepTimeouts_okBus {σ : Type} (b : Bus σ) (h : vl53x) (w : World σ)
    (e : Nat) :
    getSequenceStepTimeouts (okBus b) h w.clearStatus e =
      ((getSequenceStepTimeouts b h w e).1,
        (getSequenceStepTimeouts b h w e).2.clearStatus) := by
  simp only [getSequenceStepTimeouts, readReg_okBus, readReg16_okBus]

theorem setMeasurementTimingBudget_okBus {σ : Type} (b : Bus σ) (h : vl53x) (w : World σ)
    (n : Nat) :
    setMeasurementTimingBudget (okBus b) h w.clearStatus n =
      ((setMeasurementTimingBudget b h w n).1, (setMeasurementTimingBudget b h w n).2.1,
        (setMeasurementTimingBudget b h w n).2.2.clearStatus) := by
  simp only [setMeasurementTimingBudget, readReg_okBus, getSequenceStepTimeouts_okBus,
    writeReg16_okBus]
  split_ifs
  all_goals first
    | rfl
    | (generalize timeoutMicrosecondsToMclks _ _ = o
       cases o <;> rfl)

theorem getMeasurementTimingBudget_okBus {σ : Type} (b : Bus σ) (h : vl53x) (w : World σ) :
    getMeasurementTimingBudget (okBus b) h w.clearStatus =
      ((getMeasurementTimingBudget b h w).1, (getMeasurementTimingBudget b h w).2.1,
        (getMeasurementTimingBudget b h w).2.2.clearStatus) := by
  simp only [getMeasurementTimingBudget, readReg_okBus, getSequenceStepTimeouts_okBus]

theorem refCalibrationLoop_okBus_aux {σ : Type} (b : Bus σ) (h : vl53x) (n : Nat) :
    ∀ (i : Nat) (w : World σ), 100 - i = n →
      refCalibrationLoop (okBus b) h i w.clearStatus =
        ((refCalibrationLoop b h i w).1, (refCalibrationLoop b h i w).2.clearStatus) := by
  induction n with
  | zero =>
    intro i w hn
    have hlt : i + 1 > 100 := by omega
    rw [refCalibrationLoop.eq_1 (okBus b) h i w.clearStatus, refCalibrationLoop.eq_1 b h i w]
    simp only [readReg_okBus, hlt, dite_true]
    split_ifs <;> rfl
  | succ n ih =>
    intro i w hn
    have hlt : ¬ (i + 1 > 100) := by omega
    rw [refCalibrationLoop.eq_1 (okBus b) h i w.clearStatus, refCalibrationLoop.eq_1 b h i w]
    simp only [readReg_okBus, hlt, dite_false]
    rw [ih (i + 1) _ (by omega)]
    split_ifs <;> rfl

theorem refCalibrationLoop_okBus {σ : Type} (b : Bus σ) (h : vl53x) (i : Nat)
    (w : World σ) :
    refCalibrationLoop (okBus b) h i w.clearStatus =
      ((refCalibrationLoop b h i w).1, (refCalibrationLoop b h i w).2.clearStatus) :=
  refCalibrationLoop_okBus_aux b h (100 - i) i w rfl

theorem performSingleRefCalibration_okBus {σ : Type} (b : Bus σ) (h : vl53x)
    (w : World σ) (v : Nat) :
    performSingleRefCalibration (okBus b) h w.clearStatus v =
      ((performSingleRefCalibration b h w v).1,
        (performSingleRefCalibration b h w v).2.clearStatus) := by
  simp only [performSingleRefCalibration, writeReg_okBus, refCalibrationLoop_okBus]
  split_ifs
  · rfl
  · simp only [writeReg_okBus]

theorem startBitLoop_okBus_aux {σ : Type} (b : Bus σ) (h : vl53x) (n : Nat) :
    ∀ (i : Nat) (w : World σ), 50 - i = n →
      startBitLoop (okBus b) h i w.clearStatus =
        ((startBitLoop b h i w).1, (startBitLoop b h i w).2.clearStatus) := by
  induction n with
  | zero =>
    intro i w hn
    have hlt : i + 1 > 50 := by omega
    rw [startBitLoop.eq_1 (okBus b) h i w.clearStatus, startBitLoop.eq_1 b h i w]
    simp only [readReg_okBus, hlt, dite_true]
    split_ifs <;> rfl
  | succ n ih =>
    intro i w hn
    have hlt : ¬ (i + 1 > 50) := by omega
    rw [startBitLoop.eq_1 (okBus b) h i w.clearStatus, startBitLoop.eq_1 b h i w]
    simp only [readReg_okBus, hlt, dite_false]
    rw [ih (i + 1) _ (by omega)]
    split_ifs <;> rfl

theorem startBitLoop_okBus {σ : Type} (b : Bus σ) (h : vl53x) (i : Nat) (w : World σ) :
    startBitLoop (okBus b) h i w.clearStatus =
      ((startBitLoop b h i w).1, (startBitLoop b h i w).2.clearStatus) :=
  startBitLoop_okBus_aux b h (50 - i) i w rfl

theorem readRangeLoop_okBus_aux {σ : Type} (b : Bus σ) (h : vl53x) (n : Nat) :
    ∀ (i : Nat) (w : World σ), 50 - i = n →
      readRangeLoop (okBus b) h i w.clearStatus =
        ((readRangeLoop b h i w).1, (readRangeLoop b h i w).2.clearStatus) := by
  induction n with
  | zero =>
    intro i w hn
    have hlt : i + 1 > 50 := by omega
    rw [readRangeLoop.eq_1 (okBus b) h i w.clearStatus, readRangeLoop.eq_1 b h i w]
    simp only [readReg_okBus, hlt, dite_true]
    split_ifs <;> rfl
  | succ n ih =>
    intro i w hn
    have hlt : ¬ (i + 1 > 50) := by omega
    rw [readRangeLoop.eq_1 (okBus b) h i w.clearStatus, readRangeLoop.eq_1 b h i w]
    simp only [readReg_okBus, hlt, dite_false]
    rw [ih (i + 1) _ (by omega)]
    split_ifs <;> rfl

theorem readRangeLoop_okBus {σ : Type} (b : Bus σ) (h : vl53x) (i : Nat) (w : World σ) :
    readRangeLoop (okBus b) h i w.clearStatus =
      ((readRangeLoop b h i w).1, (readRangeLoop b h i w).2.clearStatus) :=
  readRangeLoop_okBus_aux b h (50 - i) i w rfl

theorem tofReadDistance_okBus {σ : Type} (b : Bus σ) (sensor : vl53x) (w : World σ) :
    tofReadDistance (okBus b) sensor w.clearStatus =
      ((tofReadDistance b sensor w).1, (tofReadDistance b sensor w).2.clearStatus) := by
  simp only [tofReadDistance, tofStartWrites, writeReg_okBus, startBitLoop_okBus,
    readRangeContinuousMillimeters, readRangeLoop_okBus]
  split_ifs
  · rfl
  · rfl
  · simp only [readReg16_okBus, writeReg_okBus]

theorem vcselReapplyAndCalibrate_okBus {σ : Type} (b : Bus σ) (h : vl53x) (w : World σ) :
    vcselReapplyAndCalibrate (okBus b) h w.clearStatus =
      ((vcselReapplyAndCalibrate b h w).1, (vcselReapplyAndCalibrate b h w).2.1,
        (vcselReapplyAndCalibrate b h w).2.2.clearStatus) := by
  simp only [vcselReapplyAndCalibrate, setMeasurementTimingBudget_okBus]
  generalize (setMeasurementTimingBudget b h w h.measurement_timing_budget_us).1 = o
  cases o with
  | none => rfl
  | some v =>
    simp only [readReg_okBus, writeReg_okBus, performSingleRefCalibration_okBus]

theorem setVcselPulsePeriod_okBus {σ : Type} (b : Bus σ) (h : vl53x) (w : World σ)
    (type : vcselPeriodType) (p : Nat) :
    setVcselPulsePeriod (okBus b) h w.clearStatus type p =
      ((setVcselPulsePeriod b h w type p).1, (setVcselPulsePeriod b h w type p).2.1,
        (setVcselPulsePeriod b h w type p).2.2.clearStatus) := by
  cases type with
  | VcselPeriodPreRange =>
    simp only [setVcselPulsePeriod, readReg_okBus, getSequenceStepTimeouts_okBus]
    generalize preRangePhaseHigh (p % 256) = o
    cases o with
    | none => rfl
    | some hi =>
      simp only [writeReg_okBus]
      generalize timeoutMicrosecondsToMclks _ (p % 256) = o1
      cases o1 with
      | none => rfl
      | some m1 =>
        simp only [writeReg16_okBus]
        generalize timeoutMicrosecondsToMclks _ (p % 256) = o2
        cases o2 with
        | none => rfl
        | some m2 =>
          simp only [writeReg_okBus, vcselReapplyAndCalibrate_okBus]
  | VcselPeriodFinalRange =>
    simp only [setVcselPulsePeriod, readReg_okBus, getSequenceStepTimeouts_okBus]
    generalize finalRangePhaseTable (p % 256) = o
    cases o with
    | none => rfl
    | some t =>
      simp only [finalRangePhaseWrites, writeReg_okBus]
      generalize timeoutMicrosecondsToMclks _ (p % 256) = o1
      cases o1 with
      | none => rfl
      | some m =>
        simp only [writeReg16_okBus, vcselReapplyAndCalibrate_okBus]

/-- C15 (counterexample). On a register-file device whose every transaction reports the
failure status -1, `setMeasurementTimingBudget` issues transactions, each of them failed,
and returns 1 (success); on a scripted device whose every transaction fails
`tofReadDistance` returns the distance reading 400. -/
theorem failing_bus_reports_success :
    (setMeasurementTimingBudget (failingBus regBus) sampleHandle ⟨tunedRegs, []⟩
      33000).1 = some 1 ∧
    (setMeasurementTimingBudget (failingBus regBus) sampleHandle ⟨tunedRegs, []⟩
      33000).2.2.trace.length = 7 ∧
    (∀ e ∈ (setMeasurementTimingBudget (failingBus regBus) sampleHandle ⟨tunedRegs, []⟩
      33000).2.2.trace, e.status = -1) ∧
    (tofReadDistance (failingBus (scriptedBus 0 0x01 0x90)) sampleHandle ⟨0, []⟩).1 = 400 :=
  ⟨by decide, by decide, by decide,
    (tofReadDistance_ready_val (failingBus (scriptedBus 0 0x01 0x90)) sampleHandle ⟨0, []⟩
      1 1 (by decide) (by decide) (by decide) (by decide)
      (by intro j h1 h2; omega) (by decide) (by intro j h1 h2; omega)
      (by decide)).2.2.trans (by decide)⟩

/-- C15 (amended). For each of `setMeasurementTimingBudget`,
`getMeasurementTimingBudget`, `setVcselPulsePeriod`, `performSingleRefCalibration` and
`tofReadDistance`, for every bus behaviour and whatever statuses its transactions return:
the operation returns the same result, leaves the same handle and device state, and
issues the same transactions (statuses aside) as on the bus that moves the same data and
reports success on every transaction. -/
theorem bus_status_is_discarded {σ : Type} (b : Bus σ) (h : vl53x) (w : World σ)
    (budget_us vhv_init_byte period_pclks : Nat) (type : vcselPeriodType) :
    setMeasurementTimingBudget (okBus b) h w.clearStatus budget_us =
      ((setMeasurementTimingBudget b h w budget_us).1,
        (setMeasurementTimingBudget b h w budget_us).2.1,
        (setMeasurementTimingBudget b h w budget_us).2.2.clearStatus) ∧
    getMeasurementTimingBudget (okBus b) h w.clearStatus =
      ((getMeasurementTimingBudget b h w).1, (getMeasurementTimingBudget b h w).2.1,
        (getMeasurementTimingBudget b h w).2.2.clearStatus) ∧
    setVcselPulsePeriod (okBus b) h w.clearStatus type period_pclks =
      ((setVcselPulsePeriod b h w type period_pclks).1,
        (setVcselPulsePeriod b h w type period_pclks).2.1,
        (setVcselPulsePeriod b h w type period_pclks).2.2.clearStatus) ∧
    performSingleRefCalibration (okBus b) h w.clearStatus vhv_init_byte =
      ((performSingleRefCalibration b h w vhv_init_byte).1,
        (performSingleRefCalibration b h w vhv_init_byte).2.clearStatus) ∧
    tofReadDistance (okBus b) h w.clearStatus =
      ((tofReadDistance b h w).1, (tofReadDistance b h w).2.clearStatus) :=
  ⟨setMeasurementTimingBudget_okBus b h w budget_us, getMeasurementTimingBudget_okBus b h w,
    setVcselPulsePeriod_okBus b h w type period_pclks,
    performSingleRefCalibration_okBus b h w vhv_init_byte, tofReadDistance_okBus b h w⟩

/-! ## Error bound of the timeout encoding -/

/-- C25. For every `x` in [1, 65535] the value `encodeTimeout x` (the function is total:
its loop ends) has an exponent byte `e` of at most 8 and is `e * 256 + m` with the 8-bit
mantissa `m = (x - 1) / 2^e`; decoding it never gives more than `x`, and falls short of
`x` by less than `2^e`. For `x = 0`, `encodeTimeout 0 = 0` and `decodeTimeout 0 = 1`. -/
theorem encodeTimeout_never_rounds_up :
    (∀ x : Nat, 1 ≤ x → x ≤ 65535 →
      encodeTimeout x >>> 8 ≤ 8 ∧
      encodeTimeout x &&& 0xFF = (x - 1) / 2 ^ (encodeTimeout x >>> 8) ∧
      (x - 1) / 2 ^ (encodeTimeout x >>> 8) < 256 ∧
      encodeTimeout x = (encodeTimeout x >>> 8) * 256 + (encodeTimeout x &&& 0xFF) ∧
      decodeTimeout (encodeTimeout x) ≤ x ∧
      x - decodeTimeout (encodeTimeout x) < 2 ^ (encodeTimeout x >>> 8)) ∧
    encodeTimeout 0 = 0 ∧ decodeTimeout 0 = 1 := by
  refine ⟨?_, by decide, by decide⟩
  intro x h1 h2
  obtain ⟨e, he, hlt, henc, hdec, _, _⟩ := encodeTimeout_spec x h1 h2
  have hexp : encodeTimeout x >>> 8 = e := by
    rw [henc, Nat.shiftRight_eq_div_pow]
    omega
  have hman : encodeTimeout x &&& 0xFF = (x - 1) / 2 ^ e := by
    rw [and_ff_eq_mod, henc]
    omega
  rw [hexp, hman, hdec]
  have hdm := Nat.div_add_mod (x - 1) (2 ^ e)
  have hml := Nat.mod_lt (x - 1) (Nat.pos_pow_of_pos e (by decide : 0 < 2))
  rw [Nat.mul_comm] at hdm
  refine ⟨he, rfl, hlt, henc, by omega, by omega⟩

/-- Witness for C25: 1000 is encoded as `0x02f9` (exponent 2, mantissa 249) and decoded
as 997, short of 1000 by 3, less than 2^2. -/
theorem encodeTimeout_never_rounds_up_witness :
    encodeTimeout 1000 >>> 8 ≤ 8 ∧
    encodeTimeout 1000 &&& 0xFF = (1000 - 1) / 2 ^ (encodeTimeout 1000 >>> 8) ∧
    (1000 - 1) / 2 ^ (encodeTimeout 1000 >>> 8) < 256 ∧
    encodeTimeout 1000 = (encodeTimeout 1000 >>> 8) * 256 + (encodeTimeout 1000 &&& 0xFF) ∧
    decodeTimeout (encodeTimeout 1000) ≤ 1000 ∧
    1000 - decodeTimeout (encodeTimeout 1000) < 2 ^ (encodeTimeout 1000 >>> 8) :=
  encodeTimeout_never_rounds_up.1 1000 (by decide) (by decide)

/-! ## Reference-SPAD trimming keeps the lowest usable bits -/

theorem countBelow_mono (f : Nat → Bool) (i k : Nat) (h : i ≤ k) :
    countBelow f i ≤ countBelow f k := by
  induction k with
  | zero =>
    have h0 : i = 0 := by omega
    rw [h0]
  | succ k ih =>
    by_cases hik : i = k + 1
    · rw [hik]
    · have := ih (by omega)
      rw [countBelow_succ]
      omega

/-- A position at which `f` holds has fewer flagged positions before it than there are
below any later bound. -/
theorem countBelow_lt_of_flag (f : Nat → Bool) (i k : Nat) (h : i < k) (hf : f i = true) :
    countBelow f i < countBelow f k := by
  have h1 := countBelow_mono f (i + 1) k (by omega)
  rw [countBelow_succ, hf] at h1
  simp only [if_true] at h1
  omega

/-- A position from 48 on is not set in a map of six bytes. -/
theorem spadBit_beyond (m : List Nat) (hlen : m.length = 6) (i : Nat) (hi : 48 ≤ i) :
    spadBit m i = false := by
  unfold spadBit
  rw [List.getD_eq_default _ _ (by omega)]
  exact Nat.zero_testBit _

/-- C24. For every initial map (the six bytes read), every 8-bit count `c` and either
type, with `f` the first usable index (12 if aperture, else 0) and `n` the number of bits
of the initial map set at indices in `[f, 47]`: every bit of the map written back is a
bit of the initial map; no bit below `f` is set; a position is set exactly when it is set
in the initial map, is at least `f`, and fewer than `min c n` set bits of the initial map
at indices from `f` on precede it (the set bits are the `min c n` lowest-indexed usable
ones); the map has `min c n` bits set, hence exactly `c` if and only if `n >= c`. -/
theorem spad_trim_keeps_lowest (data : List Nat) (count aperture : Nat)
    (hc : count < 256) :
    (∀ i, spadBit (trimSpadMap count aperture (spadMapOfBuffer data)) i = true →
      spadBit (spadMapOfBuffer data) i = true) ∧
    (∀ i, i < (if aperture % 256 ≠ 0 then 12 else 0) →
      spadBit (trimSpadMap count aperture (spadMapOfBuffer data)) i = false) ∧
    (∀ i, i < 48 →
      (spadBit (trimSpadMap count aperture (spadMapOfBuffer data)) i = true ↔
        spadBit (spadMapOfBuffer data) i = true ∧
        (if aperture % 256 ≠ 0 then 12 else 0) ≤ i ∧
        usableBelow (if aperture % 256 ≠ 0 then 12 else 0) (spadMapOfBuffer data) i <
          min count
            (usableBelow (if aperture % 256 ≠ 0 then 12 else 0) (spadMapOfBuffer data) 48))) ∧
    spadBitsSet (trimSpadMap count aperture (spadMapOfBuffer data)) =
      min count
        (usableBelow (if aperture % 256 ≠ 0 then 12 else 0) (spadMapOfBuffer data) 48) ∧
    (spadBitsSet (trimSpadMap count aperture (spadMapOfBuffer data)) = count ↔
      count ≤ usableBelow (if aperture % 256 ≠ 0 then 12 else 0)
        (spadMapOfBuffer data) 48) := by
  unfold trimSpadMap
  simp only
  generalize (if aperture % 256 ≠ 0 then 12 else 0) = first
  have hcm : count % 256 = count := Nat.mod_eq_of_lt hc
  obtain ⟨h1, h2, h3, h4⟩ := trimSpadMap_spec count first
    (spadMapOfBuffer data) (spadMapOfBuffer_length data) (spadMapOfBuffer_bytes data) hc
  rw [hcm]
  have hkey : ∀ i, i < 48 →
      (spadBit ((List.range 48).foldl (spadLoopStep first count)
          (spadMapOfBuffer data, 0)).1 i = true ↔
        spadBit (spadMapOfBuffer data) i = true ∧ first ≤ i ∧
        usableBelow first (spadMapOfBuffer data) i <
          min count (usableBelow first (spadMapOfBuffer data) 48)) := by
    intro i hi
    rw [h3 i hi]
    simp only [Bool.and_eq_true, decide_eq_true_eq]
    constructor
    · rintro ⟨⟨hb, hf⟩, hlt⟩
      refine ⟨hb, hf, ?_⟩
      have hflag : (fun j => decide (first ≤ j) && spadBit (spadMapOfBuffer data) j) i
          = true := by
        simp [hb, hf]
      have := countBelow_lt_of_flag
        (fun j => decide (first ≤ j) && spadBit (spadMapOfBuffer data) j) i 48 hi hflag
      unfold usableBelow at hlt ⊢
      omega
    · rintro ⟨hb, hf, hlt⟩
      exact ⟨⟨hb, hf⟩, by omega⟩
  refine ⟨?_, ?_, hkey, h4, ?_⟩
  · intro i hset
    by_cases hi : i < 48
    · exact ((hkey i hi).1 hset).1
    · rw [spadBit_beyond _ h1 i (by omega)] at hset
      exact absurd hset (by decide)
  · intro i hi
    by_cases hi48 : i < 48
    · cases hb : spadBit ((List.range 48).foldl (spadLoopStep first count)
          (spadMapOfBuffer data, 0)).1 i with
      | false => rfl
      | true =>
        have := ((hkey i hi48).1 hb).2.1
        omega
    · exact spadBit_beyond _ h1 i (by omega)
  · rw [h4]
    omega

set_option maxRecDepth 100000 in
/-- Witness for C24: bytes `ff ff ff 00 00 00`, count 5, aperture type: 12 bits are set
at indices from 12 on, and the map written back has exactly 5 bits set, none of them
below index 12. -/
theorem spad_trim_keeps_lowest_witness :
    usableBelow (if 1 % 256 ≠ 0 then 12 else 0)
      (spadMapOfBuffer [0xFF, 0xFF, 0xFF, 0, 0, 0]) 48 = 12 ∧
    spadBitsSet (trimSpadMap 5 1 (spadMapOfBuffer [0xFF, 0xFF, 0xFF, 0, 0, 0])) = 5 ∧
    (∀ i, i < (if 1 % 256 ≠ 0 then 12 else 0) →
      spadBit (trimSpadMap 5 1 (spadMapOfBuffer [0xFF, 0xFF, 0xFF, 0, 0, 0])) i = false) :=
  have h := spad_trim_keeps_lowest [0xFF, 0xFF, 0xFF, 0, 0, 0] 5 1 (by decide)
  have hn : usableBelow (if 1 % 256 ≠ 0 then 12 else 0)
      (spadMapOfBuffer [0xFF, 0xFF, 0xFF, 0, 0, 0]) 48 = 12 := by decide
  ⟨hn, h.2.2.2.2.2 (by rw [hn]; decide), h.2.1⟩

/-! ## Division by zero in the budget path -/

/-- For an 8-bit period the macro period is zero only for period 0. -/
theorem calcMacroPeriod_eq_zero_iff (q : Nat) (hq : q < 256) :
    calcMacroPeriod q = 0 ↔ q = 0 := by
  unfold calcMacroPeriod
  have h1 : 2304 * q * 1655 = 3813120 * q := by ring
  have h2 : 3813120 * q % 4294967296 = 3813120 * q := Nat.mod_eq_of_lt (by omega)
  have h3 : (3813120 * q + 500) % 4294967296 = 3813120 * q + 500 :=
    Nat.mod_eq_of_lt (by omega)
  rw [h1, h2, h3]
  constructor
  · intro h
    omega
  · intro h
    rw [h]

/-- The conversion to macro-clocks traps exactly when the period register holds `0x7f` or
`0xff`: the decoded period `(reg + 1) << 1` is then 256 or 512, which the 8-bit period
parameter receives as 0. -/
theorem timeoutMicrosecondsToMclks_none_iff (us reg : Nat) (hreg : reg < 256) :
    timeoutMicrosecondsToMclks us (((reg + 1) <<< 1) % 65536) = none ↔
      reg = 0x7F ∨ reg = 0xFF := by
  unfold timeoutMicrosecondsToMclks
  simp only
  have hz := calcMacroPeriod_eq_zero_iff ((((reg + 1) <<< 1) % 65536) % 256)
    (Nat.mod_lt _ (by decide))
  rw [Nat.shiftLeft_eq] at hz ⊢
  simp only [pow_one] at hz ⊢
  constructor
  · intro h
    by_cases h0 : calcMacroPeriod ((reg + 1) * 2 % 65536 % 256) = 0
    · have := hz.1 h0
      omega
    · rw [if_neg h0] at h
      exact absurd h (by simp)
  · intro h
    have h0 : calcMacroPeriod ((reg + 1) * 2 % 65536 % 256) = 0 := hz.2 (by omega)
    rw [if_pos h0]

/-- C26 (the code at the failing input). With the final-range period register at `0x7f`
the sequence step model reports a period of 256, the 8-bit period parameter receives 0,
the macro period is 0, and `setMeasurementTimingBudget` with a budget of 33000 (final-range
enabled, overhead 17067) reaches the conversion of the remaining 15933 microseconds, whose
division by the macro period traps. -/
theorem applyBudget_divides_by_zero :
    (getSequenceStepTimeouts regBus sampleHandle ⟨zeroPeriodRegs, []⟩
      0xE8).1.final_range_vcsel_period_pclks = 256 ∧
    calcMacroPeriod (256 % 256) = 0 ∧
    timeoutMicrosecondsToMclks (33000 - 17067) 256 = none ∧
    (setMeasurementTimingBudget regBus sampleHandle ⟨zeroPeriodRegs, []⟩ 33000).1 = none := by
  decide

/-! ## Channel switch -/

/-- A client call keeps the handle non-null and its channel in 0..7 or `0xFF`. -/
theorem muxStep_preserves {σ : Type} (b : Bus σ) (st : Option tca9548a × World σ)
    (c : MuxCall)
    (h : ∃ m1, st.1 = some m1 ∧ (m1.current_channel ≤ 7 ∨ m1.current_channel = 0xFF)) :
    ∃ m2, (muxStep b st c).1 = some m2 ∧
      (m2.current_channel ≤ 7 ∨ m2.current_channel = 0xFF) := by
  obtain ⟨m1, hm1, hv⟩ := h
  cases c with
  | select channel =>
    simp only [muxStep, tca9548a_select_channel, hm1, TCA9548A_CHANNEL_COUNT]
    by_cases hge : channel % 256 ≥ 8
    · rw [if_pos hge]
      exact ⟨m1, rfl, hv⟩
    · rw [if_neg hge]
      split_ifs
      · exact ⟨_, rfl, Or.inl (by simp only []; omega)⟩
      · exact ⟨m1, rfl, hv⟩
  | destroy =>
    simp only [muxStep, tca9548a_destroy, hm1]
    exact ⟨_, rfl, Or.inr rfl⟩

theorem muxRun_preserves {σ : Type} (b : Bus σ) (calls : List MuxCall) :
    ∀ st : Option tca9548a × World σ,
      (∃ m1, st.1 = some m1 ∧ (m1.current_channel ≤ 7 ∨ m1.current_channel = 0xFF)) →
      ∃ m2, (calls.foldl (muxStep b) st).1 = some m2 ∧
        (m2.current_channel ≤ 7 ∨ m2.current_channel = 0xFF) := by
  induction calls with
  | nil => intro st h; exact h
  | cons c cs ih =>
    intro st h
    rw [List.foldl_cons]
    exact ih _ (muxStep_preserves b st c h)

/-- C22. For every non-null handle and every 8-bit channel: if `channel >= 8` the call
returns non-zero and leaves the world (no bus write) and the handle as they were; if
`channel <= 7` it issues exactly one transaction, the write of the control byte
`2^channel` (bit `j` set exactly for `j = channel`) to the control register of the switch,
returns the status of that write, and sets `current_channel` to `channel` if the status
is 0 and leaves the handle unchanged otherwise. After `tca9548a_init` and any sequence of
`tca9548a_select_channel` and `tca9548a_destroy` calls, `current_channel` is in 0..7 or is
`0xFF`. -/
theorem select_channel_contract {σ : Type} (b : Bus σ) (w : World σ) (m : tca9548a)
    (channel : Nat) (hch : channel < 256) :
    (8 ≤ channel →
      (tca9548a_select_channel b w (some m) channel).1 ≠ 0 ∧
      (tca9548a_select_channel b w (some m) channel).2.2 = w ∧
      (tca9548a_select_channel b w (some m) channel).2.1 = some m) ∧
    (channel ≤ 7 →
      (∀ j, Nat.testBit (2 ^ channel) j = true ↔ j = channel) ∧
      (tca9548a_select_channel b w (some m) channel).1 =
        (b.iic_write_register w.dev m.iic_index TCA9548A_I2C_ADDR 0x00 [2 ^ channel]).1 ∧
      (tca9548a_select_channel b w (some m) channel).2.2.dev =
        (b.iic_write_register w.dev m.iic_index TCA9548A_I2C_ADDR 0x00 [2 ^ channel]).2 ∧
      (tca9548a_select_channel b w (some m) channel).2.2.trace =
        w.trace ++ [Ev.write m.iic_index TCA9548A_I2C_ADDR 0x00 [2 ^ channel]
          (tca9548a_select_channel b w (some m) channel).1] ∧
      ((tca9548a_select_channel b w (some m) channel).1 = 0 →
        (tca9548a_select_channel b w (some m) channel).2.1 =
          some { m with current_channel := channel }) ∧
      ((tca9548a_select_channel b w (some m) channel).1 ≠ 0 →
        (tca9548a_select_channel b w (some m) channel).2.1 = some m)) ∧
    (∀ (iic : Nat) (m0 : tca9548a) (calls : List MuxCall),
      ∃ m1, (muxAfter b w iic m0 calls).1 = some m1 ∧
        (m1.current_channel ≤ 7 ∨ m1.current_channel = 0xFF)) := by
  have hmod : channel % 256 = channel := Nat.mod_eq_of_lt hch
  refine ⟨?_, ?_, ?_⟩
  · intro h8
    have hge : channel % 256 ≥ TCA9548A_CHANNEL_COUNT := by
      rw [hmod]; exact h8
    simp only [tca9548a_select_channel]
    rw [if_pos hge]
    exact ⟨by simp, rfl, rfl⟩
  · intro h7
    have hlt : ¬ channel % 256 ≥ TCA9548A_CHANNEL_COUNT := by
      rw [hmod]
      simp only [TCA9548A_CHANNEL_COUNT]
      omega
    have hpow : (2 : Nat) ^ channel < 256 := by
      have : (2 : Nat) ^ channel ≤ 2 ^ 7 := Nat.pow_le_pow_right (by decide) h7
      omega
    have hc1 : (1 <<< channel) % 256 = 2 ^ channel := by
      rw [Nat.one_shiftLeft, Nat.mod_eq_of_lt hpow]
    have hsel : tca9548a_select_channel b w (some m) channel =
        if (b.iic_write_register w.dev m.iic_index TCA9548A_I2C_ADDR 0x00
            [2 ^ channel]).1 = 0 then
          ((b.iic_write_register w.dev m.iic_index TCA9548A_I2C_ADDR 0x00 [2 ^ channel]).1,
            some { m with current_channel := channel },
            ⟨(b.iic_write_register w.dev m.iic_index TCA9548A_I2C_ADDR 0x00
                [2 ^ channel]).2,
              w.trace ++ [Ev.write m.iic_index TCA9548A_I2C_ADDR 0x00 [2 ^ channel]
                (b.iic_write_register w.dev m.iic_index TCA9548A_I2C_ADDR 0x00
                  [2 ^ channel]).1]⟩)
        else
          ((b.iic_write_register w.dev m.iic_index TCA9548A_I2C_ADDR 0x00 [2 ^ channel]).1,
            some m,
            ⟨(b.iic_write_register w.dev m.iic_index TCA9548A_I2C_ADDR 0x00
                [2 ^ channel]).2,
              w.trace ++ [Ev.write m.iic_index TCA9548A_I2C_ADDR 0x00 [2 ^ channel]
                (b.iic_write_register w.dev m.iic_index TCA9548A_I2C_ADDR 0x00
                  [2 ^ channel]).1]⟩) := by
      simp only [tca9548a_select_channel, write_control]
      rw [if_neg hlt]
      simp only [hmod, Nat.mod_mod, hc1, Nat.mod_eq_of_lt hpow]
    rw [hsel]
    refine ⟨?_, ?_, ?_, ?_, ?_, ?_⟩
    · intro j
      rw [Nat.testBit_two_pow]
      simp only [decide_eq_true_eq]
      exact eq_comm
    all_goals
      by_cases h0 : (b.iic_write_register w.dev m.iic_index TCA9548A_I2C_ADDR 0x00
        [2 ^ channel]).1 = 0
      · simp only [h0, if_true]
        try simp
      · simp only [h0, if_false]
        try simp [h0]
  · intro iic m0 calls
    unfold muxAfter
    exact muxRun_preserves b calls _ ⟨_, rfl, Or.inr rfl⟩

/-- Witness for C22: on a bus that accepts every write, selecting channel 9 returns
non-zero and changes neither world nor handle; selecting channel 3 issues the single write
of `0x08` to the control register of the switch at `0x70` and records channel 3; on a
bus whose writes fail, selecting channel 3 leaves the handle as it was. -/
theorem select_channel_contract_witness :
    ((tca9548a_select_channel silentBus ⟨(), []⟩ (some ⟨0, 0xFF⟩) 9).1 ≠ 0 ∧
      (tca9548a_select_channel silentBus ⟨(), []⟩ (some ⟨0, 0xFF⟩) 9).2.2 = ⟨(), []⟩ ∧
      (tca9548a_select_channel silentBus ⟨(), []⟩ (some ⟨0, 0xFF⟩) 9).2.1 =
        some ⟨0, 0xFF⟩) ∧
    ((tca9548a_select_channel silentBus ⟨(), []⟩ (some ⟨0, 0xFF⟩) 3).2.2.trace =
        [Ev.write 0 0x70 0x00 [0x08] 0] ∧
      (tca9548a_select_channel silentBus ⟨(), []⟩ (some ⟨0, 0xFF⟩) 3).2.1 =
        some ⟨0, 3⟩) ∧
    (tca9548a_select_channel (failingBus silentBus) ⟨(), []⟩ (some ⟨0, 0xFF⟩) 3).2.1 =
      some ⟨0, 0xFF⟩ :=
  have h9 := (select_channel_contract silentBus ⟨(), []⟩ ⟨0, 0xFF⟩ 9 (by decide)).1
    (by decide)
  have h3 := (select_channel_contract silentBus ⟨(), []⟩ ⟨0, 0xFF⟩ 3 (by decide)).2.1
    (by decide)
  have hf := (select_channel_contract (failingBus silentBus) ⟨(), []⟩ ⟨0, 0xFF⟩ 3
    (by decide)).2.1 (by decide)
  ⟨h9, ⟨h3.2.2.2.1.trans (by decide), h3.2.2.2.2.1 (by decide)⟩,
    hf.2.2.2.2.2 (by decide)⟩

/-! ## Frame lemmas on the register-file device -/

theorem Untouched.refl (S : List Nat) (w : World (Nat → Nat)) : Untouched S w w :=
  ⟨⟨[], by simp, by simp [writesOf]⟩, fun _ _ => rfl⟩

theorem Untouched.trans {S : List Nat} {w w1 w2 : World (Nat → Nat)}
    (h1 : Untouched S w w1) (h2 : Untouched S w1 w2) : Untouched S w w2 := by
  obtain ⟨⟨l1, hl1, hw1⟩, hd1⟩ := h1
  obtain ⟨⟨l2, hl2, hw2⟩, hd2⟩ := h2
  refine ⟨⟨l1 ++ l2, by rw [hl2, hl1, List.append_assoc], ?_⟩, ?_⟩
  · intro x hx
    rw [writesOf_append] at hx
    rcases List.mem_append.1 hx with hx | hx
    · exact hw1 x hx
    · exact hw2 x hx
  · intro a ha
    rw [hd2 a ha, hd1 a ha]

theorem Untouched.mono {S S1 : List Nat} {w w1 : World (Nat → Nat)}
    (h : Untouched S w w1) (hsub : ∀ a ∈ S1, a ∈ S) : Untouched S1 w w1 := by
  obtain ⟨⟨l, hl, hw⟩, hd⟩ := h
  exact ⟨⟨l, hl, fun x hx hmem => hw x hx (hsub _ hmem)⟩, fun a ha => hd a (hsub a ha)⟩

theorem untouched_readReg (S : List Nat) (h : vl53x) (w : World (Nat → Nat)) (a : Nat) :
    Untouched S w (readReg regBus h w a).2 := by
  obtain ⟨e, he, hw⟩ := readReg_ext regBus h w a
  exact ⟨⟨[e], he, by rw [hw]; simp⟩, fun _ _ => rfl⟩

theorem untouched_readReg16 (S : List Nat) (h : vl53x) (w : World (Nat → Nat)) (a : Nat) :
    Untouched S w (readReg16 regBus h w a).2 :=
  ⟨⟨_, rfl, by simp [writesOf, Ev.isWrite]⟩, fun _ _ => rfl⟩

theorem untouched_writeReg (S : List Nat) (h : vl53x) (w : World (Nat → Nat)) (a v : Nat)
    (ha : a % 256 ∉ S) : Untouched S w (writeReg regBus h w a v) := by
  obtain ⟨e, he, hw⟩ := writeReg_ext regBus h w a v
  refine ⟨⟨[e], he, by rw [hw]; simpa using ha⟩, ?_⟩
  intro x hx
  have hne : x ≠ a % 256 := fun heq => ha (heq ▸ hx)
  show regStore w.dev (a % 256) [v % 256] x = w.dev x
  simp [regStore, hne]

theorem untouched_writeReg16 (S : List Nat) (h : vl53x) (w : World (Nat → Nat)) (a v : Nat)
    (ha : a % 256 ∉ S) (ha1 : a % 256 + 1 ∉ S) :
    Untouched S w (writeReg16 regBus h w a v) := by
  obtain ⟨e, he, hw⟩ := writeReg16_ext regBus h w a v
  refine ⟨⟨[e], he, by rw [hw]; simpa using ha⟩, ?_⟩
  intro x hx
  have hne : x ≠ a % 256 := fun heq => ha (heq ▸ hx)
  have hne1 : x ≠ a % 256 + 1 := fun heq => ha1 (heq ▸ hx)
  rw [writeReg16_regBus_dev]
  exact regStore_two_other _ _ _ _ _ hne hne1

theorem untouched_getSequenceStepTimeouts (S : List Nat) (h : vl53x)
    (w : World (Nat → Nat)) (e : Nat) :
    Untouched S w (getSequenceStepTimeouts regBus h w e).2 := by
  obtain ⟨l, hl, hlw⟩ := getSequenceStepTimeouts_trace regBus h w e
  exact ⟨⟨l, hl, by rw [writesOf_reads l hlw]; simp⟩, fun _ _ => rfl⟩

theorem untouched_refCalibrationLoop_aux (S : List Nat) (h : vl53x) (n : Nat) :
    ∀ (i : Nat) (w : World (Nat → Nat)), 100 - i = n →
      Untouched S w (refCalibrationLoop regBus h i w).2 := by
  induction n with
  | zero =>
    intro i w hn
    have hlt : i + 1 > 100 := by omega
    rw [refCalibrationLoop.eq_1 regBus h i w]
    simp only [hlt, dite_true]
    split_ifs <;> exact untouched_readReg S h w _
  | succ n ih =>
    intro i w hn
    have hlt : ¬ (i + 1 > 100) := by omega
    rw [refCalibrationLoop.eq_1 regBus h i w]
    simp only [hlt, dite_false]
    split_ifs
    · exact (untouched_readReg S h w _).trans (ih (i + 1) _ (by omega))
    · exact untouched_readReg S h w _

theorem untouched_refCalibrationLoop (S : List Nat) (h : vl53x) (i : Nat)
    (w : World (Nat → Nat)) : Untouched S w (refCalibrationLoop regBus h i w).2 :=
  untouched_refCalibrationLoop_aux S h (100 - i) i w rfl

theorem untouched_setMeasurementTimingBudget (S : List Nat) (h : vl53x)
    (w : World (Nat → Nat)) (n : Nat) (h71 : 0x71 ∉ S) (h72 : 0x72 ∉ S) :
    Untouched S w (setMeasurementTimingBudget regBus h w n).2.2 := by
  have hg : Untouched S w (getSequenceStepTimeouts regBus h
      (readReg regBus h w VL53L0X_SYSTEM_SEQUENCE_CONFIG).2
      (readReg regBus h w VL53L0X_SYSTEM_SEQUENCE_CONFIG).1).2 :=
    (untouched_readReg S h w _).trans (untouched_getSequenceStepTimeouts S h _ _)
  unfold setMeasurementTimingBudget
  by_cases hlow : n % 4294967296 < 20000
  · rw [if_pos hlow]
    exact Untouched.refl S w
  · rw [if_neg hlow]
    simp only []
    by_cases hf : (readReg regBus h w VL53L0X_SYSTEM_SEQUENCE_CONFIG).1
        &&& VL53L0X_SEQUENCE_ENABLE_FINAL_RANGE ≠ 0
    · rw [if_pos hf]
      split_ifs
      all_goals first
        | exact hg
        | (split
           · exact hg
           · exact hg.trans (untouched_writeReg16 S h _ _ _ h71 h72))
    · rw [if_neg hf]
      exact hg

/-- After its opening write to the start register, `performSingleRefCalibration` touches
only the interrupt-clear and start registers. -/
theorem untouched_performSingleRefCalibration_after_start (S : List Nat) (h : vl53x)
    (w : World (Nat → Nat)) (v : Nat) (h00 : 0x00 ∉ S) (h0B : 0x0B ∉ S) :
    Untouched S (writeReg regBus h w VL53L0X_SYSRANGE_START (0x01 ||| (v % 256)))
      (performSingleRefCalibration regBus h w v).2 := by
  have hL := untouched_refCalibrationLoop S h 0
    (writeReg regBus h w VL53L0X_SYSRANGE_START (0x01 ||| (v % 256)))
  unfold performSingleRefCalibration
  simp only []
  split_ifs
  · exact hL
  · exact (hL.trans (untouched_writeReg S h _ _ _ h0B)).trans
      (untouched_writeReg S h _ _ _ h00)

theorem untouched_performSingleRefCalibration (S : List Nat) (h : vl53x)
    (w : World (Nat → Nat)) (v : Nat) (h00 : 0x00 ∉ S) (h0B : 0x0B ∉ S) :
    Untouched S w (performSingleRefCalibration regBus h w v).2 :=
  (untouched_writeReg S h w _ _ h00).trans
    (untouched_performSingleRefCalibration_after_start S h w v h00 h0B)

theorem writeReg_regBus_dev (h : vl53x) (w : World (Nat → Nat)) (a v : Nat) :
    (writeReg regBus h w a v).dev = regStore w.dev (a % 256) [v % 256] := rfl

/-- The register writes of a call that ran from `w` through `w1` to `w2`. -/
theorem newWrites_trans {σ : Type} (w w1 w2 : World σ) (l0 l : List Ev)
    (h1 : w1.trace = w.trace ++ l0) (h2 : w2.trace = w1.trace ++ l) :
    newWrites w w2 = writesOf l0 ++ newWrites w1 w2 := by
  rw [newWrites_eq w w2 (l0 ++ l) (by rw [h2, h1, List.append_assoc]),
    newWrites_eq w1 w2 l h2, writesOf_append]

/-- What the tail of `setVcselPulsePeriod` does on a register-file device when the budget
re-application does not trap: after writes that touch neither the start register nor the
sequence configuration it writes `0x02` to the sequence configuration, then the
calibration's opening `0x01` to the start register, then (after writes that leave the
sequence configuration alone) the sequence configuration as it stood at the beginning; the
period registers are not touched. -/
theorem vcselReapplyAndCalibrate_regBus (h : vl53x) (w : World (Nat → Nat))
    (hret : (vcselReapplyAndCalibrate regBus h w).1 ≠ none) :
    (vcselReapplyAndCalibrate regBus h w).1 = some 1 ∧
    (∃ pre post,
      newWrites w (vcselReapplyAndCalibrate regBus h w).2.2 =
        pre ++ [(0x01, [0x02]), (0x00, [0x01])] ++ post ++ [(0x01, [w.dev 0x01 % 256])] ∧
      (∀ x ∈ pre, x.1 ∉ [0x00, 0x01]) ∧ (∀ x ∈ post, x.1 ∉ [0x01])) ∧
    (vcselReapplyAndCalibrate regBus h w).2.2.dev 0x01 = w.dev 0x01 % 256 ∧
    Untouched [0x50, 0x70] w (vcselReapplyAndCalibrate regBus h w).2.2 := by
  have hs01 := untouched_setMeasurementTimingBudget [0x00, 0x01] h w
    h.measurement_timing_budget_us (by decide) (by decide)
  have hsP := untouched_setMeasurementTimingBudget [0x50, 0x70] h w
    h.measurement_timing_budget_us (by decide) (by decide)
  unfold vcselReapplyAndCalibrate at hret ⊢
  simp only [] at hret ⊢
  generalize setMeasurementTimingBudget regBus h w h.measurement_timing_budget_us = s
    at hret hs01 hsP ⊢
  obtain ⟨s1, hd, ws⟩ := s
  cases s1 with
  | none => exact absurd rfl hret
  | some v =>
    simp only []
    obtain ⟨⟨l1, hl1, hw1⟩, hdev1⟩ := hs01
    have hmask : (readReg regBus hd ws VL53L0X_SYSTEM_SEQUENCE_CONFIG).1 = w.dev 0x01 % 256 := by
      rw [readReg_regBus_val]
      simp only [] at hdev1
      rw [← hdev1 0x01 (by decide)]
      rfl
    obtain ⟨er, her, hwr⟩ := readReg_ext regBus hd ws VL53L0X_SYSTEM_SEQUENCE_CONFIG
    obtain ⟨e2, he2, hw2⟩ := writeReg_ext regBus hd
      (readReg regBus hd ws VL53L0X_SYSTEM_SEQUENCE_CONFIG).2 VL53L0X_SYSTEM_SEQUENCE_CONFIG 0x02
    obtain ⟨e0, he0, hw0⟩ := writeReg_ext regBus hd
      (writeReg regBus hd (readReg regBus hd ws VL53L0X_SYSTEM_SEQUENCE_CONFIG).2
        VL53L0X_SYSTEM_SEQUENCE_CONFIG 0x02) VL53L0X_SYSRANGE_START (0x01 ||| (0x0 % 256))
    obtain ⟨⟨lC, hlC, hwC⟩, _⟩ := untouched_performSingleRefCalibration_after_start [0x01] hd
      (writeReg regBus hd (readReg regBus hd ws VL53L0X_SYSTEM_SEQUENCE_CONFIG).2
        VL53L0X_SYSTEM_SEQUENCE_CONFIG 0x02) 0x0 (by decide) (by decide)
    obtain ⟨eM, heM, hwM⟩ := writeReg_ext regBus hd
      (performSingleRefCalibration regBus hd
        (writeReg regBus hd (readReg regBus hd ws VL53L0X_SYSTEM_SEQUENCE_CONFIG).2
          VL53L0X_SYSTEM_SEQUENCE_CONFIG 0x02) 0x0).2
      VL53L0X_SYSTEM_SEQUENCE_CONFIG (readReg regBus hd ws VL53L0X_SYSTEM_SEQUENCE_CONFIG).1
    refine ⟨trivial, ⟨writesOf l1, writesOf lC, ?_, hw1, hwC⟩, ?_, ?_⟩
    · simp only [] at hl1
      rw [newWrites_eq w _ (l1 ++ ([er] ++ ([e2] ++ ([e0] ++ (lC ++ [eM])))))
        (by rw [heM, hlC, he0, he2, her, hl1]; simp only [List.append_assoc])]
      simp only [writesOf_append, hwr, hw2, hw0, hwM, hmask, List.nil_append,
        List.append_assoc]
      have hm : w.dev 0x01 % 256 % 256 = w.dev 0x01 % 256 := Nat.mod_mod _ _
      rw [hm]
      rfl
    · rw [writeReg_regBus_dev, hmask]
      simp [regStore, VL53L0X_SYSTEM_SEQUENCE_CONFIG]
    · exact (((hsP.trans (untouched_readReg _ hd ws _)).trans
        (untouched_writeReg _ hd _ _ _ (by decide))).trans
        (untouched_performSingleRefCalibration _ hd _ _ (by decide) (by decide))).trans
        (untouched_writeReg _ hd _ _ _ (by decide))

theorem writeReg_regBus_dev_same (h : vl53x) (w : World (Nat → Nat)) (a v : Nat) :
    (writeReg regBus h w a v).dev (a % 256) = v % 256 := by
  rw [writeReg_regBus_dev]
  simp [regStore]

theorem untouched_finalRangePhaseWrites (S : List Nat) (h : vl53x) (w : World (Nat → Nat))
    (t : Nat × Nat × Nat × Nat) (h48 : 0x48 ∉ S) (h47 : 0x47 ∉ S) (h32 : 0x32 ∉ S)
    (h30 : 0x30 ∉ S) (hFF : 0xFF ∉ S) :
    Untouched S w (finalRangePhaseWrites regBus h w t) := by
  unfold finalRangePhaseWrites
  exact ((((((untouched_writeReg S h w _ _ h48).trans
    (untouched_writeReg S h _ _ _ h47)).trans
    (untouched_writeReg S h _ _ _ h32)).trans
    (untouched_writeReg S h _ _ _ h30)).trans
    (untouched_writeReg S h _ _ _ hFF)).trans
    (untouched_writeReg S h _ _ _ h30)).trans
    (untouched_writeReg S h _ _ _ hFF)

/-- A pre-range call with a period the phase switch knows reaches the tail in a world in
which the start register, the sequence configuration and the final-range period register
are untouched and the pre-range period register holds the encoded period. -/
theorem setVcselPulsePeriod_regBus_pre (h : vl53x) (w : World (Nat → Nat)) (p hi : Nat)
    (hlt : p < 256) (hhi : preRangePhaseHigh p = some hi)
    (hmp : calcMacroPeriod (p % 256) ≠ 0) :
    ∃ w3 : World (Nat → Nat),
      setVcselPulsePeriod regBus h w vcselPeriodType.VcselPeriodPreRange p =
        vcselReapplyAndCalibrate regBus h w3 ∧
      Untouched [0x00, 0x01, 0x70] w w3 ∧
      w3.dev 0x50 = encodeVcselPeriod p % 256 := by
  have hmod : p % 256 = p := Nat.mod_eq_of_lt hlt
  obtain ⟨m1, hm1⟩ := timeoutMicrosecondsToMclks_isSome
    (getSequenceStepTimeouts regBus h (readReg regBus h w VL53L0X_SYSTEM_SEQUENCE_CONFIG).2
      (readReg regBus h w VL53L0X_SYSTEM_SEQUENCE_CONFIG).1).1.pre_range_us p hmp
  obtain ⟨m2, hm2⟩ := timeoutMicrosecondsToMclks_isSome
    (getSequenceStepTimeouts regBus h (readReg regBus h w VL53L0X_SYSTEM_SEQUENCE_CONFIG).2
      (readReg regBus h w VL53L0X_SYSTEM_SEQUENCE_CONFIG).1).1.msrc_dss_tcc_us p hmp
  simp only [setVcselPulsePeriod, hmod, hhi, hm1, hm2]
  refine ⟨_, rfl, ?_, ?_⟩
  · exact ((((((untouched_readReg _ h w _).trans
      (untouched_getSequenceStepTimeouts _ h _ _)).trans
      (untouched_writeReg _ h _ _ _ (by decide))).trans
      (untouched_writeReg _ h _ _ _ (by decide))).trans
      (untouched_writeReg _ h _ _ _ (by decide))).trans
      (untouched_writeReg16 _ h _ _ _ (by decide) (by decide))).trans
      (untouched_writeReg _ h _ _ _ (by decide))
  · refine (((untouched_writeReg16 [0x50] h _ VL53L0X_PRE_RANGE_CONFIG_TIMEOUT_MACROP_HI _
      (by decide) (by decide)).trans
      (untouched_writeReg [0x50] h _ VL53L0X_MSRC_CONFIG_TIMEOUT_MACROP _
        (by decide))).2 0x50 (by decide)).trans ?_
    exact writeReg_regBus_dev_same h _ VL53L0X_PRE_RANGE_CONFIG_VCSEL_PERIOD _

/-- A final-range call with a period the phase table knows reaches the tail in a world
in which the start register, the sequence configuration and the pre-range period register
are untouched and the final-range period register holds the encoded period. -/
theorem setVcselPulsePeriod_regBus_final (h : vl53x) (w : World (Nat → Nat))
    (p : Nat) (t : Nat × Nat × Nat × Nat)
    (hlt : p < 256) (ht : finalRangePhaseTable p = some t)
    (hmp : calcMacroPeriod (p % 256) ≠ 0) :
    ∃ w3 : World (Nat → Nat),
      setVcselPulsePeriod regBus h w vcselPeriodType.VcselPeriodFinalRange p =
        vcselReapplyAndCalibrate regBus h w3 ∧
      Untouched [0x00, 0x01, 0x50] w w3 ∧
      w3.dev 0x70 = encodeVcselPeriod p % 256 := by
  have hmod : p % 256 = p := Nat.mod_eq_of_lt hlt
  obtain ⟨m, hm⟩ := timeoutMicrosecondsToMclks_isSome
    (getSequenceStepTimeouts regBus h (readReg regBus h w VL53L0X_SYSTEM_SEQUENCE_CONFIG).2
      (readReg regBus h w VL53L0X_SYSTEM_SEQUENCE_CONFIG).1).1.final_range_us p hmp
  simp only [setVcselPulsePeriod, hmod, ht, hm]
  refine ⟨_, rfl, ?_, ?_⟩
  · exact ((((untouched_readReg _ h w _).trans
      (untouched_getSequenceStepTimeouts _ h _ _)).trans
      (untouched_finalRangePhaseWrites _ h _ _ (by decide) (by decide) (by decide)
        (by decide) (by decide))).trans
      (untouched_writeReg _ h _ _ _ (by decide))).trans
      (untouched_writeReg16 _ h _ _ _ (by decide) (by decide))
  · refine ((untouched_writeReg16 [0x70] h _ VL53L0X_FINAL_RANGE_CONFIG_TIMEOUT_MACROP_HI _
      (by decide) (by decide)).2 0x70 (by decide)).trans ?_
    exact writeReg_regBus_dev_same h _ VL53L0X_FINAL_RANGE_CONFIG_VCSEL_PERIOD _

/-- On a register-file device the two pulse periods of the sequence step model are
decoded from the registers `0x50` and `0x70`. -/
theorem getSequenceStepTimeouts_regBus_periods (h : vl53x) (w : World (Nat → Nat))
    (e : Nat) :
    (getSequenceStepTimeouts regBus h w e).1.pre_range_vcsel_period_pclks =
      ((w.dev 0x50 % 256 + 1) <<< 1) % 65536 ∧
    (getSequenceStepTimeouts regBus h w e).1.final_range_vcsel_period_pclks =
      ((w.dev 0x70 % 256 + 1) <<< 1) % 65536 := by
  simp only [getSequenceStepTimeouts, readReg_regBus_val, readReg16_regBus_dev,
    readReg_regBus_dev, VL53L0X_PRE_RANGE_CONFIG_VCSEL_PERIOD,
    VL53L0X_FINAL_RANGE_CONFIG_VCSEL_PERIOD, Nat.reduceMod, and_self]

/-- The tail of `setVcselPulsePeriod`, seen from the world `w` in which the call began,
when the part of the call before the tail left the start register and the sequence
configuration untouched. -/
theorem vcselReapplyAndCalibrate_regBus_from (h : vl53x) (w w3 : World (Nat → Nat))
    (hU : Untouched [0x00, 0x01] w w3)
    (hret : (vcselReapplyAndCalibrate regBus h w3).1 ≠ none) :
    (vcselReapplyAndCalibrate regBus h w3).1 = some 1 ∧
    (∃ pre post,
      newWrites w (vcselReapplyAndCalibrate regBus h w3).2.2 =
        pre ++ [(0x01, [0x02]), (0x00, [0x01])] ++ post ++ [(0x01, [w.dev 0x01 % 256])] ∧
      (∀ x ∈ pre, x.1 ∉ [0x00, 0x01]) ∧ (∀ x ∈ post, x.1 ∉ [0x01])) ∧
    (vcselReapplyAndCalibrate regBus h w3).2.2.dev 0x01 = w.dev 0x01 % 256 ∧
    (∀ a ∈ [0x50, 0x70], (vcselReapplyAndCalibrate regBus h w3).2.2.dev a = w3.dev a) := by
  obtain ⟨h1, ⟨pre, post, hnw, hpre, hpost⟩, hd01, hUP⟩ :=
    vcselReapplyAndCalibrate_regBus h w3 hret
  obtain ⟨⟨l0, hl0, hw0⟩, hd0⟩ := hU
  obtain ⟨l, hl⟩ := vcselReapplyAndCalibrate_extends regBus h w3
  have h01 : w3.dev 0x01 = w.dev 0x01 := hd0 0x01 (by decide)
  refine ⟨h1, ⟨writesOf l0 ++ pre, post, ?_, ?_, hpost⟩, by rw [hd01, h01], hUP.2⟩
  · rw [newWrites_trans w w3 _ l0 l hl0 hl, hnw, h01]
    simp only [List.append_assoc]
  · intro x hx
    rcases List.mem_append.1 hx with hx | hx
    · exact hw0 x hx
    · exact hpre x hx

/-- What a call of `setVcselPulsePeriod` with a legal period that returns leaves on a
register-file device. -/
theorem setVcselPulsePeriod_regBus_legal (h : vl53x) (w : World (Nat → Nat))
    (type : vcselPeriodType) (p : Nat) (hp : p ∈ legalPeriods type)
    (hret : (setVcselPulsePeriod regBus h w type p).1 ≠ none) :
    (setVcselPulsePeriod regBus h w type p).1 = some 1 ∧
    (∃ pre post,
      newWrites w (setVcselPulsePeriod regBus h w type p).2.2 =
        pre ++ [(0x01, [0x02]), (0x00, [0x01])] ++ post ++ [(0x01, [w.dev 0x01 % 256])] ∧
      (∀ x ∈ pre, x.1 ∉ [0x00, 0x01]) ∧ (∀ x ∈ post, x.1 ∉ [0x01])) ∧
    (setVcselPulsePeriod regBus h w type p).2.2.dev 0x01 = w.dev 0x01 % 256 ∧
    (setVcselPulsePeriod regBus h w type p).2.2.dev (periodRegister type) = p / 2 - 1 ∧
    (∀ type1, type1 ≠ type →
      (setVcselPulsePeriod regBus h w type p).2.2.dev (periodRegister type1) =
        w.dev (periodRegister type1)) := by
  have keyPre : ∀ hi : Nat, p < 256 → preRangePhaseHigh p = some hi →
      calcMacroPeriod (p % 256) ≠ 0 → encodeVcselPeriod p % 256 = p / 2 - 1 →
      type = vcselPeriodType.VcselPeriodPreRange →
      (setVcselPulsePeriod regBus h w type p).1 = some 1 ∧
      (∃ pre post,
        newWrites w (setVcselPulsePeriod regBus h w type p).2.2 =
          pre ++ [(0x01, [0x02]), (0x00, [0x01])] ++ post ++ [(0x01, [w.dev 0x01 % 256])] ∧
        (∀ x ∈ pre, x.1 ∉ [0x00, 0x01]) ∧ (∀ x ∈ post, x.1 ∉ [0x01])) ∧
      (setVcselPulsePeriod regBus h w type p).2.2.dev 0x01 = w.dev 0x01 % 256 ∧
      (setVcselPulsePeriod regBus h w type p).2.2.dev (periodRegister type) = p / 2 - 1 ∧
      (∀ type1, type1 ≠ type →
        (setVcselPulsePeriod regBus h w type p).2.2.dev (periodRegister type1) =
          w.dev (periodRegister type1)) := by
    intro hi hlt hhi hmp henc htype
    subst htype
    obtain ⟨w3, hw3, hU, hdev⟩ := setVcselPulsePeriod_regBus_pre h w p hi hlt hhi hmp
    rw [hw3] at hret ⊢
    obtain ⟨h1, h2, h3, h4⟩ := vcselReapplyAndCalibrate_regBus_from h w w3
      (hU.mono (by decide)) hret
    refine ⟨h1, h2, h3, ?_, ?_⟩
    · show (vcselReapplyAndCalibrate regBus h w3).2.2.dev 0x50 = p / 2 - 1
      rw [h4 0x50 (by decide), hdev, henc]
    · intro type1 hne
      cases type1 with
      | VcselPeriodPreRange => exact absurd rfl hne
      | VcselPeriodFinalRange =>
        show (vcselReapplyAndCalibrate regBus h w3).2.2.dev 0x70 = w.dev 0x70
        rw [h4 0x70 (by decide)]
        exact hU.2 0x70 (by decide)
  have keyFinal : ∀ t : Nat × Nat × Nat × Nat, p < 256 → finalRangePhaseTable p = some t →
      calcMacroPeriod (p % 256) ≠ 0 → encodeVcselPeriod p % 256 = p / 2 - 1 →
      type = vcselPeriodType.VcselPeriodFinalRange →
      (setVcselPulsePeriod regBus h w type p).1 = some 1 ∧
      (∃ pre post,
        newWrites w (setVcselPulsePeriod regBus h w type p).2.2 =
          pre ++ [(0x01, [0x02]), (0x00, [0x01])] ++ post ++ [(0x01, [w.dev 0x01 % 256])] ∧
        (∀ x ∈ pre, x.1 ∉ [0x00, 0x01]) ∧ (∀ x ∈ post, x.1 ∉ [0x01])) ∧
      (setVcselPulsePeriod regBus h w type p).2.2.dev 0x01 = w.dev 0x01 % 256 ∧
      (setVcselPulsePeriod regBus h w type p).2.2.dev (periodRegister type) = p / 2 - 1 ∧
      (∀ type1, type1 ≠ type →
        (setVcselPulsePeriod regBus h w type p).2.2.dev (periodRegister type1) =
          w.dev (periodRegister type1)) := by
    intro t hlt ht hmp henc htype
    subst htype
    obtain ⟨w3, hw3, hU, hdev⟩ := setVcselPulsePeriod_regBus_final h w p t hlt ht hmp
    rw [hw3] at hret ⊢
    obtain ⟨h1, h2, h3, h4⟩ := vcselReapplyAndCalibrate_regBus_from h w w3
      (hU.mono (by decide)) hret
    refine ⟨h1, h2, h3, ?_, ?_⟩
    · show (vcselReapplyAndCalibrate regBus h w3).2.2.dev 0x70 = p / 2 - 1
      rw [h4 0x70 (by decide), hdev, henc]
    · intro type1 hne
      cases type1 with
      | VcselPeriodFinalRange => exact absurd rfl hne
      | VcselPeriodPreRange =>
        show (vcselReapplyAndCalibrate regBus h w3).2.2.dev 0x50 = w.dev 0x50
        rw [h4 0x50 (by decide)]
        exact hU.2 0x50 (by decide)
  cases type with
  | VcselPeriodPreRange =>
    simp only [legalPeriods, List.mem_cons, List.mem_singleton, List.not_mem_nil, or_false]
      at hp
    rcases hp with rfl | rfl | rfl | rfl
    · exact keyPre 0x18 (by decide) (by decide) (by decide) (by decide) rfl
    · exact keyPre 0x30 (by decide) (by decide) (by decide) (by decide) rfl
    · exact keyPre 0x40 (by decide) (by decide) (by decide) (by decide) rfl
    · exact keyPre 0x50 (by decide) (by decide) (by decide) (by decide) rfl
  | VcselPeriodFinalRange =>
    simp only [legalPeriods, List.mem_cons, List.mem_singleton, List.not_mem_nil, or_false]
      at hp
    rcases hp with rfl | rfl | rfl | rfl
    · exact keyFinal (0x10, 0x02, 0x0C, 0x30) (by decide) (by decide) (by decide)
        (by decide) rfl
    · exact keyFinal (0x28, 0x03, 0x09, 0x20) (by decide) (by decide) (by decide)
        (by decide) rfl
    · exact keyFinal (0x38, 0x03, 0x08, 0x20) (by decide) (by decide) (by decide)
        (by decide) rfl
    · exact keyFinal (0x48, 0x03, 0x07, 0x20) (by decide) (by decide) (by decide)
        (by decide) rfl

/-- The budget call does not trap when the final-range period the sequence step model
reports reaches the 8-bit period parameter with a non-zero macro period. -/
theorem setMeasurementTimingBudget_ne_none_of_period {σ : Type} (b : Bus σ) (h : vl53x)
    (w : World σ) (n : Nat)
    (hmp : calcMacroPeriod
      ((getSequenceStepTimeouts b h (readReg b h w VL53L0X_SYSTEM_SEQUENCE_CONFIG).2
        (readReg b h w VL53L0X_SYSTEM_SEQUENCE_CONFIG).1).1.final_range_vcsel_period_pclks
        % 256) ≠ 0) :
    (setMeasurementTimingBudget b h w n).1 ≠ none := by
  unfold setMeasurementTimingBudget
  by_cases hlow : n % 4294967296 < 20000
  · rw [if_pos hlow]
    exact Option.some_ne_none 0
  · rw [if_neg hlow]
    simp only []
    split_ifs
    all_goals first
      | exact Option.some_ne_none _
      | (simp only [timeoutMicrosecondsToMclks, hmp, if_false]
         exact Option.some_ne_none 1)

/-- On a register-file device the tail of `setVcselPulsePeriod` returns 1 when the
final-range period register decodes to a period with a non-zero macro period. -/
theorem vcselReapplyAndCalibrate_regBus_returns (h : vl53x) (w3 : World (Nat → Nat))
    (hmp : calcMacroPeriod ((((w3.dev 0x70 % 256 + 1) <<< 1) % 65536) % 256) ≠ 0) :
    (vcselReapplyAndCalibrate regBus h w3).1 = some 1 := by
  apply vcselReapplyAndCalibrate_ret
  apply setMeasurementTimingBudget_ne_none_of_period
  rw [(getSequenceStepTimeouts_regBus_periods h _ _).2, readReg_regBus_dev]
  exact hmp

/-- On a register-file device a final-range call with a legal period returns 1. -/
theorem setVcselPulsePeriod_regBus_final_returns (h : vl53x) (w : World (Nat → Nat))
    (p : Nat) (hp : p ∈ legalPeriods vcselPeriodType.VcselPeriodFinalRange) :
    (setVcselPulsePeriod regBus h w vcselPeriodType.VcselPeriodFinalRange p).1 = some 1 := by
  have key : ∀ t : Nat × Nat × Nat × Nat, p < 256 → finalRangePhaseTable p = some t →
      calcMacroPeriod (p % 256) ≠ 0 →
      calcMacroPeriod ((((encodeVcselPeriod p % 256 % 256 + 1) <<< 1) % 65536) % 256) ≠ 0 →
      (setVcselPulsePeriod regBus h w vcselPeriodType.VcselPeriodFinalRange p).1
        = some 1 := by
    intro t hlt ht hmp hmp2
    obtain ⟨w3, hw3, _, hdev⟩ := setVcselPulsePeriod_regBus_final h w p t hlt ht hmp
    rw [hw3]
    exact vcselReapplyAndCalibrate_regBus_returns h w3 (by rw [hdev]; exact hmp2)
  simp only [legalPeriods, List.mem_cons, List.mem_singleton, List.not_mem_nil, or_false]
    at hp
  rcases hp with rfl | rfl | rfl | rfl
  · exact key (0x10, 0x02, 0x0C, 0x30) (by decide) (by decide) (by decide) (by decide)
  · exact key (0x28, 0x03, 0x09, 0x20) (by decide) (by decide) (by decide) (by decide)
  · exact key (0x38, 0x03, 0x08, 0x20) (by decide) (by decide) (by decide) (by decide)
  · exact key (0x48, 0x03, 0x07, 0x20) (by decide) (by decide) (by decide) (by decide)

/-- On a register-file device a pre-range call with a legal period returns 1 when the
final-range period register decodes to a period with a non-zero macro period. -/
theorem setVcselPulsePeriod_regBus_pre_returns (h : vl53x) (w : World (Nat → Nat))
    (p : Nat) (hp : p ∈ legalPeriods vcselPeriodType.VcselPeriodPreRange)
    (h70 : calcMacroPeriod ((((w.dev 0x70 % 256 + 1) <<< 1) % 65536) % 256) ≠ 0) :
    (setVcselPulsePeriod regBus h w vcselPeriodType.VcselPeriodPreRange p).1 = some 1 := by
  have key : ∀ hi : Nat, p < 256 → preRangePhaseHigh p = some hi →
      calcMacroPeriod (p % 256) ≠ 0 →
      (setVcselPulsePeriod regBus h w vcselPeriodType.VcselPeriodPreRange p).1
        = some 1 := by
    intro hi hlt hhi hmp
    obtain ⟨w3, hw3, hU, _⟩ := setVcselPulsePeriod_regBus_pre h w p hi hlt hhi hmp
    rw [hw3]
    exact vcselReapplyAndCalibrate_regBus_returns h w3
      (by rw [hU.2 0x70 (by decide)]; exact h70)
  simp only [legalPeriods, List.mem_cons, List.mem_singleton, List.not_mem_nil, or_false]
    at hp
  rcases hp with rfl | rfl | rfl | rfl
  · exact key 0x18 (by decide) (by decide) (by decide)
  · exact key 0x30 (by decide) (by decide) (by decide)
  · exact key 0x40 (by decide) (by decide) (by decide)
  · exact key 0x50 (by decide) (by decide) (by decide)

/-- Decoding the register value `(p >> 1) - 1` of a legal period gives the period back. -/
theorem legal_period_decodes (type : vcselPeriodType) (p : Nat)
    (hp : p ∈ legalPeriods type) :
    (((p / 2 - 1) % 256 + 1) <<< 1) % 65536 = p ∧ encodeVcselPeriod p = p / 2 - 1 := by
  cases type <;>
    simp only [legalPeriods, List.mem_cons, List.mem_singleton, List.not_mem_nil, or_false]
      at hp <;>
    rcases hp with rfl | rfl | rfl | rfl <;> decide

/-- C21. On a register-file device, for every target and every legal period `p`, after
a successful `setVcselPulsePeriod` the target's period register holds `(p >> 1) - 1` and
`getSequenceStepTimeouts` reads the target's period back as exactly `p`, a member of the
target's legal set; the other target's period reads back as it did before the call. -/
theorem pulse_period_reads_back (regs : Nat → Nat) (h : vl53x) (tr : List Ev)
    (type : vcselPeriodType) (p e : Nat) (hp : p ∈ legalPeriods type)
    (hsucc : (setVcselPulsePeriod regBus h ⟨regs, tr⟩ type p).1 = some 1) :
    (setVcselPulsePeriod regBus h ⟨regs, tr⟩ type p).2.2.dev (periodRegister type) =
      encodeVcselPeriod p ∧
    periodOf type (getSequenceStepTimeouts regBus
      (setVcselPulsePeriod regBus h ⟨regs, tr⟩ type p).2.1
      (setVcselPulsePeriod regBus h ⟨regs, tr⟩ type p).2.2 e).1 = p ∧
    periodOf type (getSequenceStepTimeouts regBus
      (setVcselPulsePeriod regBus h ⟨regs, tr⟩ type p).2.1
      (setVcselPulsePeriod regBus h ⟨regs, tr⟩ type p).2.2 e).1 ∈ legalPeriods type ∧
    (∀ type1, type1 ≠ type →
      periodOf type1 (getSequenceStepTimeouts regBus
        (setVcselPulsePeriod regBus h ⟨regs, tr⟩ type p).2.1
        (setVcselPulsePeriod regBus h ⟨regs, tr⟩ type p).2.2 e).1 =
      periodOf type1 (getSequenceStepTimeouts regBus h ⟨regs, tr⟩ e).1) := by
  obtain ⟨_, _, _, hdev, hother⟩ := setVcselPulsePeriod_regBus_legal h ⟨regs, tr⟩ type p hp
    (by rw [hsucc]; exact Option.some_ne_none 1)
  obtain ⟨hdec, henc⟩ := legal_period_decodes type p hp
  have hread : periodOf type (getSequenceStepTimeouts regBus
      (setVcselPulsePeriod regBus h ⟨regs, tr⟩ type p).2.1
      (setVcselPulsePeriod regBus h ⟨regs, tr⟩ type p).2.2 e).1 = p := by
    cases type with
    | VcselPeriodPreRange =>
      show (getSequenceStepTimeouts regBus _ _ e).1.pre_range_vcsel_period_pclks = p
      rw [(getSequenceStepTimeouts_regBus_periods _ _ e).1]
      have hd : (setVcselPulsePeriod regBus h ⟨regs, tr⟩
          vcselPeriodType.VcselPeriodPreRange p).2.2.dev 0x50 = p / 2 - 1 := hdev
      rw [hd, hdec]
    | VcselPeriodFinalRange =>
      show (getSequenceStepTimeouts regBus _ _ e).1.final_range_vcsel_period_pclks = p
      rw [(getSequenceStepTimeouts_regBus_periods _ _ e).2]
      have hd : (setVcselPulsePeriod regBus h ⟨regs, tr⟩
          vcselPeriodType.VcselPeriodFinalRange p).2.2.dev 0x70 = p / 2 - 1 := hdev
      rw [hd, hdec]
  refine ⟨by rw [hdev, henc], hread, by rw [hread]; exact hp, ?_⟩
  intro type1 hne
  have ho := hother type1 hne
  cases type1 with
  | VcselPeriodPreRange =>
    show (getSequenceStepTimeouts regBus _ _ e).1.pre_range_vcsel_period_pclks =
      (getSequenceStepTimeouts regBus _ _ e).1.pre_range_vcsel_period_pclks
    rw [(getSequenceStepTimeouts_regBus_periods _ _ e).1,
      (getSequenceStepTimeouts_regBus_periods _ _ e).1]
    have hd : (setVcselPulsePeriod regBus h ⟨regs, tr⟩ type p).2.2.dev 0x50 = regs 0x50 := ho
    rw [hd]
  | VcselPeriodFinalRange =>
    show (getSequenceStepTimeouts regBus _ _ e).1.final_range_vcsel_period_pclks =
      (getSequenceStepTimeouts regBus _ _ e).1.final_range_vcsel_period_pclks
    rw [(getSequenceStepTimeouts_regBus_periods _ _ e).2,
      (getSequenceStepTimeouts_regBus_periods _ _ e).2]
    have hd : (setVcselPulsePeriod regBus h ⟨regs, tr⟩ type p).2.2.dev 0x70 = regs 0x70 := ho
    rw [hd]

/-- Witness for C21: on the tuned register file (final-range period 10) a final-range
call with period 14 succeeds; the period register then holds 6 and the sequence step
model reads the final-range period back as 14. -/
theorem pulse_period_reads_back_witness :
    (setVcselPulsePeriod regBus sampleHandle ⟨tunedRegs, []⟩
      vcselPeriodType.VcselPeriodFinalRange 14).1 = some 1 ∧
    (setVcselPulsePeriod regBus sampleHandle ⟨tunedRegs, []⟩
      vcselPeriodType.VcselPeriodFinalRange 14).2.2.dev 0x70 = 6 ∧
    periodOf vcselPeriodType.VcselPeriodFinalRange (getSequenceStepTimeouts regBus
      (setVcselPulsePeriod regBus sampleHandle ⟨tunedRegs, []⟩
        vcselPeriodType.VcselPeriodFinalRange 14).2.1
      (setVcselPulsePeriod regBus sampleHandle ⟨tunedRegs, []⟩
        vcselPeriodType.VcselPeriodFinalRange 14).2.2 0xE8).1 = 14 :=
  have hs := setVcselPulsePeriod_regBus_final_returns sampleHandle ⟨tunedRegs, []⟩ 14
    (by decide)
  have h := pulse_period_reads_back tunedRegs sampleHandle []
    vcselPeriodType.VcselPeriodFinalRange 14 0xE8 (by decide) hs
  ⟨hs, h.1.trans (by decide), h.2.1⟩

/-- C23. On a register-file device, for every target, every legal period and every
register state, when `setVcselPulsePeriod` returns: its register writes are, in order,
writes that touch neither the sequence configuration nor the start register, then `0x02`
to the sequence configuration, then the opening write `0x01 | 0` of the reference
calibration to the start register, then writes that leave the sequence configuration
alone, and last the value the sequence configuration held when the call began; a read of
the sequence configuration after the call returns what it returned before the call. -/
theorem setPulsePeriod_restores_sequence_mask (regs : Nat → Nat) (h : vl53x)
    (tr : List Ev) (type : vcselPeriodType) (p : Nat) (hp : p ∈ legalPeriods type)
    (hret : (setVcselPulsePeriod regBus h ⟨regs, tr⟩ type p).1 ≠ none) :
    (∃ pre post,
      newWrites ⟨regs, tr⟩ (setVcselPulsePeriod regBus h ⟨regs, tr⟩ type p).2.2 =
        pre ++ [(VL53L0X_SYSTEM_SEQUENCE_CONFIG, [0x02]), (VL53L0X_SYSRANGE_START, [0x01])]
          ++ post ++ [(VL53L0X_SYSTEM_SEQUENCE_CONFIG,
            [(readReg regBus h ⟨regs, tr⟩ VL53L0X_SYSTEM_SEQUENCE_CONFIG).1])] ∧
      (∀ x ∈ pre, x.1 ≠ VL53L0X_SYSTEM_SEQUENCE_CONFIG ∧ x.1 ≠ VL53L0X_SYSRANGE_START) ∧
      (∀ x ∈ post, x.1 ≠ VL53L0X_SYSTEM_SEQUENCE_CONFIG)) ∧
    (readReg regBus (setVcselPulsePeriod regBus h ⟨regs, tr⟩ type p).2.1
      (setVcselPulsePeriod regBus h ⟨regs, tr⟩ type p).2.2
      VL53L0X_SYSTEM_SEQUENCE_CONFIG).1 =
      (readReg regBus h ⟨regs, tr⟩ VL53L0X_SYSTEM_SEQUENCE_CONFIG).1 := by
  obtain ⟨_, ⟨pre, post, hnw, hpre, hpost⟩, hd01, _, _⟩ :=
    setVcselPulsePeriod_regBus_legal h ⟨regs, tr⟩ type p hp hret
  have hmask : (readReg regBus h ⟨regs, tr⟩ VL53L0X_SYSTEM_SEQUENCE_CONFIG).1 =
      regs 0x01 % 256 := readReg_regBus_val h ⟨regs, tr⟩ VL53L0X_SYSTEM_SEQUENCE_CONFIG
  refine ⟨⟨pre, post, ?_, ?_, ?_⟩, ?_⟩
  · rw [hnw, hmask]
    rfl
  · intro x hx
    have hx1 := hpre x hx
    simp only [List.mem_cons, List.mem_singleton, List.not_mem_nil, or_false, not_or]
      at hx1
    exact ⟨hx1.2, hx1.1⟩
  · intro x hx
    have hx1 := hpost x hx
    simp only [List.mem_singleton] at hx1
    exact hx1
  · rw [hmask, readReg_regBus_val]
    have hd : (setVcselPulsePeriod regBus h ⟨regs, tr⟩ type p).2.2.dev
        (VL53L0X_SYSTEM_SEQUENCE_CONFIG % 256) = regs 0x01 % 256 := hd01
    rw [hd, Nat.mod_mod]

/-- Witness for C23: on the tuned register file (sequence configuration `0xe8`, final
period register `0x04`) a pre-range call with period 14 returns, and the sequence
configuration reads `0xe8` afterwards. -/
theorem setPulsePeriod_restores_sequence_mask_witness :
    (setVcselPulsePeriod regBus sampleHandle ⟨tunedRegs, []⟩
      vcselPeriodType.VcselPeriodPreRange 14).1 = some 1 ∧
    (readReg regBus
      (setVcselPulsePeriod regBus sampleHandle ⟨tunedRegs, []⟩
        vcselPeriodType.VcselPeriodPreRange 14).2.1
      (setVcselPulsePeriod regBus sampleHandle ⟨tunedRegs, []⟩
        vcselPeriodType.VcselPeriodPreRange 14).2.2
      VL53L0X_SYSTEM_SEQUENCE_CONFIG).1 = 0xE8 :=
  have hs := setVcselPulsePeriod_regBus_pre_returns sampleHandle ⟨tunedRegs, []⟩ 14
    (by decide) (by decide)
  have h := setPulsePeriod_restores_sequence_mask tunedRegs sampleHandle []
    vcselPeriodType.VcselPeriodPreRange 14 (by decide)
    (by rw [hs]; exact Option.some_ne_none 1)
  ⟨hs, h.2.trans (by decide)⟩

end Venus28
